import Mathlib

/-!
# Shared-state client: the state-synchronisation engine of `src/js/sharedstate.js`

A shallow embedding of the `SharedState` closure: its private variables become the
fields of `Engine`, its functions become functions on `Engine` that also return the
observable effects (handler invocations, error-sink reports, outbound datagrams) and
the exception, if any, that reaches the caller.

Modelling boundary, stated once:
* JavaScript numbers are integers here (no floating point, no `-0`, no `NaN`).
* The stores `_sharedStates`, `_presence` and `_stateChanges` are plain objects: a read
  `o[k]` sees the own properties and, behind them, the members of `Object.prototype`
  (`toString`, `constructor`, `__proto__`, ...), and `o['__proto__'] = v` creates no
  property. The prototype of a store is taken to stay `Object.prototype` (an object or
  `null` assigned under `__proto__` would replace it) and its method `hasOwnProperty` not
  to be shadowed by an entry of that name; the statements on inbound change batches carry
  side conditions to that effect.
* Application handlers and the log/error sinks are black boxes: a handler may throw,
  but it does not call back into the engine while it runs, and sinks do not throw.
* `_log` output is not recorded.
* The arguments of the API have their documented types: a key is a string or is missing,
  `options` is a plain object or is missing; the keys of inbound items are strings.
-/

namespace SharedState

/-! ## JavaScript values -/

/-- A JavaScript value as far as the engine looks at it: `undefined`, JSON data, or a
function of the runtime, known by the name it has on `Object.prototype`. An object lists
its fields in enumeration order. -/
inductive JSValue where
  | undefined
  | null
  | bool (b : Bool)
  | num (n : Int)
  | str (s : String)
  | arr (items : List JSValue)
  | obj (fields : List (String × JSValue))
  | builtin (name : String)
  deriving Repr, Inhabited

namespace JSValue

mutual
/-- Decision procedure for equality of values. -/
def decEq : (a b : JSValue) → Decidable (a = b)
  | undefined, undefined => isTrue rfl
  | null, null => isTrue rfl
  | bool a, bool b => if h : a = b then isTrue (h ▸ rfl) else isFalse (fun e => h (bool.inj e))
  | num a, num b => if h : a = b then isTrue (h ▸ rfl) else isFalse (fun e => h (num.inj e))
  | str a, str b => if h : a = b then isTrue (h ▸ rfl) else isFalse (fun e => h (str.inj e))
  | arr xs, arr ys =>
    match decEqList xs ys with
    | isTrue h => isTrue (h ▸ rfl)
    | isFalse h => isFalse (fun e => h (arr.inj e))
  | obj fs, obj gs =>
    match decEqFields fs gs with
    | isTrue h => isTrue (h ▸ rfl)
    | isFalse h => isFalse (fun e => h (obj.inj e))
  | builtin a, builtin b =>
    if h : a = b then isTrue (h ▸ rfl) else isFalse (fun e => h (builtin.inj e))
  | undefined, null | undefined, bool _ | undefined, num _ | undefined, str _
  | undefined, arr _ | undefined, obj _ | undefined, builtin _ => isFalse nofun
  | null, undefined | null, bool _ | null, num _ | null, str _
  | null, arr _ | null, obj _ | null, builtin _ => isFalse nofun
  | bool _, undefined | bool _, null | bool _, num _ | bool _, str _
  | bool _, arr _ | bool _, obj _ | bool _, builtin _ => isFalse nofun
  | num _, undefined | num _, null | num _, bool _ | num _, str _
  | num _, arr _ | num _, obj _ | num _, builtin _ => isFalse nofun
  | str _, undefined | str _, null | str _, bool _ | str _, num _
  | str _, arr _ | str _, obj _ | str _, builtin _ => isFalse nofun
  | arr _, undefined | arr _, null | arr _, bool _ | arr _, num _
  | arr _, str _ | arr _, obj _ | arr _, builtin _ => isFalse nofun
  | obj _, undefined | obj _, null | obj _, bool _ | obj _, num _
  | obj _, str _ | obj _, arr _ | obj _, builtin _ => isFalse nofun
  | builtin _, undefined | builtin _, null | builtin _, bool _ | builtin _, num _
  | builtin _, str _ | builtin _, arr _ | builtin _, obj _ => isFalse nofun
/-- Decision procedure for equality of arrays of values. -/
def decEqList : (a b : List JSValue) → Decidable (a = b)
  | [], [] => isTrue rfl
  | x :: xs, y :: ys =>
    match decEq x y, decEqList xs ys with
    | isTrue h1, isTrue h2 => isTrue (h1 ▸ h2 ▸ rfl)
    | isFalse h, _ => isFalse (fun e => h (List.cons.inj e).1)
    | _, isFalse h => isFalse (fun e => h (List.cons.inj e).2)
  | [], _ :: _ | _ :: _, [] => isFalse nofun
/-- Decision procedure for equality of field lists. -/
def decEqFields : (a b : List (String × JSValue)) → Decidable (a = b)
  | [], [] => isTrue rfl
  | (k, x) :: xs, (l, y) :: ys =>
    if hk : k = l then
      match decEq x y, decEqFields xs ys with
      | isTrue h1, isTrue h2 => isTrue (hk ▸ h1 ▸ h2 ▸ rfl)
      | isFalse h, _ => isFalse (fun e => h (Prod.mk.inj (List.cons.inj e).1).2)
      | _, isFalse h => isFalse (fun e => h (List.cons.inj e).2)
    else isFalse (fun e => hk (Prod.mk.inj (List.cons.inj e).1).1)
  | [], _ :: _ | _ :: _, [] => isFalse nofun
end

instance : DecidableEq JSValue := decEq

/-- JavaScript truthiness (`if (v)`, `v && ...`, `!v`). -/
def toBoolean : JSValue → Bool
  | undefined => false
  | null => false
  | bool b => b
  | num n => n != 0
  | str s => s != ""
  | arr _ => true
  | obj _ => true
  | builtin _ => true

/-- The value is a function. -/
def isFunction : JSValue → Bool
  | builtin _ => true
  | _ => false

end JSValue

/-- The builtin `JSON.stringify(v)`. The engine never inspects a serialisation, it only
compares two of them with `!=`. `JSON.stringify(undefined)` is `undefined` (here `none`),
which differs from every text, and so is the serialisation of a function. The other
values the engine serialises are decoded JSON (store entries and inbound items) and
booleans, and on those two texts are equal exactly when the values are equal, fields in
the same order; so a text is represented by the value it spells. -/
def JSON.stringify : JSValue → Option JSValue
  | .undefined => none
  | .builtin _ => none
  | v => some v

/-! ## Plain objects used as string-keyed maps -/

/-- A plain object, as its own properties in creation order. -/
abbrev JSObject := List (String × JSValue)

namespace JSObject

/-- The value of the own property `k` of `o`, `undefined` when `o` has no such property. -/
def own : JSObject → String → JSValue
  | [], _ => .undefined
  | (k', v) :: rest, k => if k' = k then v else own rest k

/-- Own-property test `o.hasOwnProperty(k)`. -/
def hasOwnProperty : JSObject → String → Bool
  | [], _ => false
  | (k', _) :: rest, k => if k' = k then true else hasOwnProperty rest k

/-- The names of the members of `Object.prototype`, which every plain object inherits. -/
def prototypeNames : List String :=
  ["constructor", "__defineGetter__", "__defineSetter__", "hasOwnProperty",
   "__lookupGetter__", "__lookupSetter__", "isPrototypeOf", "propertyIsEnumerable",
   "toString", "valueOf", "__proto__", "toLocaleString"]

/-- What a plain object finds under the name `k` behind its own properties: under
`__proto__` the object `Object.prototype`, which is truthy and serialises as `{}` like an
empty object, under the other member names a function, else `undefined`. -/
def inherited (k : String) : JSValue :=
  if k = "__proto__" then .obj []
  else if k ∈ prototypeNames then .builtin k
  else .undefined

/-- Property read `o[k]`: the own property if there is one, else what `o` inherits. -/
def get (o : JSObject) (k : String) : JSValue :=
  if o.hasOwnProperty k then o.own k else inherited k

/-- Overwrites the own property `k` in place, or creates it last. -/
def define : JSObject → String → JSValue → JSObject
  | [], k, v => [(k, v)]
  | (k', w) :: rest, k, v => if k' = k then (k', v) :: rest else (k', w) :: define rest k v

/-- Assignment `o[k] = v`. Under the name `__proto__`, unless `o` has an own property of
that name, the assignment goes to the setter of `Object.prototype` and creates no
property. -/
def set (o : JSObject) (k : String) (v : JSValue) : JSObject :=
  if k = "__proto__" ∧ o.hasOwnProperty k = false then o else o.define k v

/-- Deletion `delete o[k]`: removes the property, keeps the order of the others. -/
def delete : JSObject → String → JSObject
  | [], _ => []
  | (k', w) :: rest, k => if k' = k then rest else (k', w) :: delete rest k

/-- Value of a string of decimal digits, `none` if some character is not a digit. -/
def digitsValue : List Char → Nat → Option Nat
  | [], acc => some acc
  | c :: cs, acc =>
    if 48 ≤ c.toNat ∧ c.toNat ≤ 57 then digitsValue cs (acc * 10 + (c.toNat - 48)) else none

/-- The array index a property name spells, if it is one: a canonical decimal numeral
(no leading zero) below `2^32 - 1`. -/
def arrayIndex? (k : String) : Option Nat :=
  match k.data with
  | [] => none
  | c :: cs =>
    if c = '0' ∧ cs ≠ [] then none
    else match digitsValue (c :: cs) 0 with
      | some n => if n < 4294967295 then some n else none
      | none => none

/-- The builtin `Object.keys(o)`: array-index names in ascending numeric order, then the
other names in creation order. -/
def keys (o : JSObject) : List String :=
  ((o.filterMap (fun kv => (arrayIndex? kv.1).map (fun n => (n, kv.1)))).insertionSort
      (fun a b => a.1 ≤ b.1)).map Prod.snd
    ++ (o.filter (fun kv => (arrayIndex? kv.1).isNone)).map Prod.fst

end JSObject

/-! ## Channels, handlers, effects -/

/-- The keys of `_callbacks`. -/
inductive Channel where
  | change
  | remove
  | readystatechange
  | presence
  | changeset
  deriving DecidableEq, Repr, Inhabited

/-- The property name of a channel in `_callbacks`. -/
def Channel.name : Channel → String
  | .change => "change"
  | .remove => "remove"
  | .readystatechange => "readystatechange"
  | .presence => "presence"
  | .changeset => "changeset"

/-- All channels, in the order `_callbacks` declares them. -/
def Channel.all : List Channel :=
  [.change, .remove, .readystatechange, .presence, .changeset]

/-- The test `_callbacks.hasOwnProperty(what)`, with the channel found. -/
def Channel.ofName? (what : String) : Option Channel :=
  Channel.all.find? (fun c => c.name = what)

/-- Identity of a handler function object. -/
abbrev Handler := Nat

/-- What the caller passes as `handler`: a function, or some other value. -/
inductive HandlerArg where
  | fn (h : Handler)
  | value (v : JSValue)
  deriving DecidableEq, Repr

/-- The registry `_callbacks`: one ordered handler list per channel. -/
structure Callbacks where
  change : List Handler := []
  remove : List Handler := []
  readystatechange : List Handler := []
  presence : List Handler := []
  changeset : List Handler := []
  deriving DecidableEq, Repr

/-- The list `_callbacks[what]`. -/
def Callbacks.get (cb : Callbacks) : Channel → List Handler
  | .change => cb.change
  | .remove => cb.remove
  | .readystatechange => cb.readystatechange
  | .presence => cb.presence
  | .changeset => cb.changeset

/-- Replace the list `_callbacks[what]`. -/
def Callbacks.put (cb : Callbacks) (what : Channel) (l : List Handler) : Callbacks :=
  match what with
  | .change => { cb with change := l }
  | .remove => { cb with remove := l }
  | .readystatechange => { cb with readystatechange := l }
  | .presence => { cb with presence := l }
  | .changeset => { cb with changeset := l }

/-- Something the engine does to the outside world. -/
inductive Effect where
  /-- Invocation `h.call(thisArg, e)`; `thisArg = none` stands for `self`. -/
  | call (h : Handler) (thisArg : Option JSValue) (e : JSValue)
  /-- Report `_error("Error in " + what + ": " + h + ": " + ex)` to the error sink. -/
  | error (what : Channel) (h : Handler)
  /-- Outbound datagram `_connection.emit(type, datagram)`. -/
  | emit (type : String) (datagram : JSValue)
  /-- Report `_error('SharedState-error', data)` to the error sink. -/
  | remoteError (data : JSValue)
  /-- The call `_connection.close()`. -/
  | close
  deriving DecidableEq, Repr

/-- The values the engine throws. -/
inductive Thrown where
  | unsupportedEvent (what : String)
  | illegalHandler
  | illegalStateValue (new_state : JSValue)
  | setItemParams (key : JSValue) (value : JSValue)
  | setItemNotPossible (status : JSValue)
  | removeItemKey (key : JSValue)
  | removeItemNotPossible (status : JSValue)
  | sendNotPossible (status : JSValue)
  | presenceParams (state : JSValue)
  | typeError
  | syntaxError
  deriving DecidableEq, Repr

/-- The application side of a handler call: whether handler `h` throws on payload `e`. -/
structure App where
  throws : Handler → JSValue → Bool

/-- An application none of whose handlers throws. -/
def App.quiet : App := { throws := fun _ _ => false }

/-- The normalised `options` object. -/
structure Options where
  agentid : String := "agent"
  userId : JSValue := .undefined
  getOnInit : Bool := true
  autoPresence : Bool := true
  autoClean : Bool := false
  deriving DecidableEq, Repr

/-- The private state of one `SharedState` instance, with the bookkeeping the engine
hangs on handler function objects (`_ctx`, `_immediate_pending_<what>`) and the zero-delay
timers it has started and that have not fired yet. -/
structure Engine where
  options : Options := {}
  /-- Variable `_callbacks`. -/
  callbacks : Callbacks := {}
  /-- Variable `_sharedStates`, the Local State Store. -/
  sharedStates : JSObject := []
  /-- Variable `_presence`, the Presence Store. -/
  presence : JSObject := []
  /-- Variable `_request`: a request bracket is open. -/
  request : Bool := false
  /-- Variable `_stateChanges`, the pending writes by key. -/
  stateChanges : JSObject := []
  /-- Variable `_readystate`. -/
  readystate : JSValue := .str "connecting"
  /-- The pairs `(h, what)` for which `h['_immediate_pending_' + what]` is truthy. -/
  pending : List (Handler × Channel) := []
  /-- The property `h._ctx` of the handlers on which it has been set. -/
  ctx : List (Handler × JSValue) := []
  /-- The deferred tasks started by `on` with `setTimeout(..., 0)`, oldest first: each is
  the closure over `what` and `handler`. -/
  timers : List (Channel × Handler) := []
  /-- Variable `_connection`: `none` is `null`, `some c` a socket whose `connected` is `c`. -/
  connection : Option Bool := none
  /-- The number of autoclean intervals started with `setInterval(..., 15000)`. -/
  intervals : Nat := 0
  deriving DecidableEq, Repr

/-- The frozen enumeration `STATE`. -/
def STATE : JSObject :=
  [("CONNECTING", .str "connecting"), ("OPEN", .str "open"), ("CLOSED", .str "closed")]

namespace Engine

/-- Truthiness of `h['_immediate_pending_' + what]`. -/
def isPending (E : Engine) (h : Handler) (what : Channel) : Bool :=
  decide ((h, what) ∈ E.pending)

/-- Assignment `h['_immediate_pending_' + what] = b`. -/
def setPending (E : Engine) (h : Handler) (what : Channel) (b : Bool) : Engine :=
  if b then
    (if (h, what) ∈ E.pending then E else { E with pending := E.pending ++ [(h, what)] })
  else { E with pending := E.pending.filter (fun p => p ≠ (h, what)) }

/-- Property read `h._ctx`. -/
def ctxOf (E : Engine) (h : Handler) : JSValue :=
  match E.ctx.lookup h with
  | some v => v
  | none => .undefined

/-- Assignment `h._ctx = v`. -/
def setCtx (E : Engine) (h : Handler) (v : JSValue) : Engine :=
  { E with ctx := (h, v) :: E.ctx.filter (fun p => p.1 ≠ h) }

end Engine

/-- The closure variables as the constructor initialises them, before `_init()`. -/
def Engine.initial (options : Options) : Engine := { options := options }

/-- What a call into the engine leaves behind: the new state, the effects in order, and
the exception that reaches the caller, if any. -/
structure Outcome where
  state : Engine
  effects : List Effect := []
  thrown : Option Thrown := none
  deriving DecidableEq, Repr

/-- Run `f` on the state `r` left, unless `r` ended in an exception; effects accumulate. -/
def Outcome.andThen (r : Outcome) (f : Engine → Outcome) : Outcome :=
  match r.thrown with
  | some _ => r
  | none =>
    let s := f r.state
    { state := s.state, effects := r.effects ++ s.effects, thrown := s.thrown }

/-! ## The callback dispatcher -/

/-- The guarded invocation inside `_do_callbacks`:
`try { h._ctx ? h.call(h._ctx, e) : h.call(self, e) } catch (ex) { _error(...) }`. -/
def invoke (app : App) (what : Channel) (h : Handler) (e : JSValue) (E : Engine) :
    List Effect :=
  Effect.call h (if (E.ctxOf h).toBoolean then some (E.ctxOf h) else none) e
    :: (if app.throws h e then [Effect.error what h] else [])

/-- The loop of `_do_callbacks` over the handlers still to visit. With no `handler`
given, every handler whose pending flag is unset is invoked. With a `handler` given, only
that handler is invoked, after its pending flag has been cleared. -/
def doCallbacksLoop (app : App) (what : Channel) (e : JSValue) (handler : Option Handler) :
    List Handler → Engine → Outcome
  | [], E => { state := E }
  | h :: rest, E =>
    match handler with
    | none =>
      if E.isPending h what then doCallbacksLoop app what e none rest E
      else
        let r := doCallbacksLoop app what e none rest E
        { r with effects := invoke app what h e E ++ r.effects }
    | some g =>
      if h = g then
        let E1 := E.setPending g what false
        let r := doCallbacksLoop app what e (some g) rest E1
        { r with effects := invoke app what h e E1 ++ r.effects }
      else doCallbacksLoop app what e (some g) rest E

/-- The dispatcher `_do_callbacks(what, e, handler)`. Its callers pass one of the five
channel names, so the guard `throw "Unsupported event"` is never taken. -/
def _do_callbacks (app : App) (what : Channel) (e : JSValue) (handler : Option Handler)
    (E : Engine) : Outcome :=
  doCallbacksLoop app what e handler (E.callbacks.get what) E

/-! ## The readystate machine -/

/-- The accessor `readystate.get()`. -/
def readystate.get (E : Engine) : JSValue := E.readystate

/-- The setter `readystate.set(new_state)`. -/
def readystate.set (app : App) (new_state : JSValue) (E : Engine) : Outcome :=
  let found := STATE.foldl
    (fun found kv => if STATE.get kv.1 = new_state then true else found) false
  if !found then { state := E, thrown := some (Thrown.illegalStateValue new_state) }
  else if E.readystate = STATE.get "CLOSED" then { state := E }
  else if new_state ≠ E.readystate then
    _do_callbacks app Channel.readystatechange new_state none
      { E with readystate := new_state }
  else { state := E }

/-! ## Inbound change batches -/

/-- An item of an inbound batch, `{type, key, value}`; `value` is `undefined` when the
item has no such field. -/
structure ChangeItem where
  type : String
  key : String
  value : JSValue := .undefined
  deriving DecidableEq, Repr

/-- The payload `{key, value, type}` of a `change` or `remove` event. -/
def stateEvent (key : String) (value : JSValue) (type : String) : JSValue :=
  .obj [("key", .str key), ("value", value), ("type", .str type)]

/-- The body of the loop of `onChangeState`, for the item `datagram[i]`. -/
def onChangeState.item (app : App) (it : ChangeItem) (E : Engine) : Outcome :=
  if it.type = "set" then
    if it.key ≠ "" ∧
        JSON.stringify (E.sharedStates.get it.key) ≠ JSON.stringify it.value then
      let type := if E.sharedStates.get it.key ≠ JSValue.undefined then "update" else "add"
      _do_callbacks app Channel.change (stateEvent it.key it.value type) none
        { E with sharedStates := E.sharedStates.set it.key it.value }
    else { state := E }
  else if it.type = "remove" then
    if it.key ≠ "" ∧ E.sharedStates.hasOwnProperty it.key then
      _do_callbacks app Channel.remove
        (stateEvent it.key (E.sharedStates.get it.key) "delete") none
        { E with sharedStates := E.sharedStates.delete it.key }
    else { state := E }
  else { state := E }

/-- The loop of `onChangeState` over the items still to process. -/
def onChangeState.loop (app : App) : List ChangeItem → Engine → Outcome
  | [], E => { state := E }
  | it :: rest, E => (onChangeState.item app it E).andThen (onChangeState.loop app rest)

/-- The transport handler `onChangeState(datagram)`; a missing datagram is replaced by
`{}`, which has no items. -/
def onChangeState (app : App) (datagram : Option (List ChangeItem)) (E : Engine) : Outcome :=
  let datagram := datagram.getD []
  (onChangeState.loop app datagram E).andThen (fun E1 =>
    if datagram.length > 0 then _do_callbacks app Channel.changeset JSValue.undefined none E1
    else { state := E1 })

/-! ## Registration -/

/-- The payload `{key, value}` of a `presence` event. -/
def presenceEvent (key : String) (value : JSValue) : JSValue :=
  .obj [("key", .str key), ("value", value)]

/-- The function that `on` hands to `setTimeout(..., 0)`: the deferred replay for
`handler` on channel `what`, run against the state at the time the timer fires. -/
def addEventListener.deferred (app : App) (what : Channel) (handler : Handler) (E : Engine) : Outcome :=
  match what with
  | .change =>
    let keys := JSObject.keys E.sharedStates
    if keys.length = 0 then { state := E.setPending handler what false }
    else keys.foldl (fun r k => r.andThen (fun E1 =>
      _do_callbacks app Channel.change (stateEvent k (E1.sharedStates.get k) "update")
        (some handler) E1)) { state := E }
  | .presence =>
    let keys := JSObject.keys E.presence
    if keys.length = 0 then { state := E.setPending handler what false }
    else keys.foldl (fun r k => r.andThen (fun E1 =>
      _do_callbacks app Channel.presence (presenceEvent k (E1.presence.get k))
        (some handler) E1)) { state := E }
  | .remove => { state := E.setPending handler what false }
  | .readystatechange =>
    _do_callbacks app Channel.readystatechange (readystate.get E) (some handler) E
  | .changeset => _do_callbacks app Channel.changeset JSValue.undefined (some handler) E

/-- The API function `on(what, handler, ctx, noInitialCallback)`, under its second public
name `addEventListener` (`on` is a reserved word here). -/
def addEventListener (what : String) (handler : HandlerArg) (ctx : JSValue) (noInitialCallback : Bool)
    (E : Engine) : Outcome :=
  match handler with
  | .value _ => { state := E, thrown := some Thrown.illegalHandler }
  | .fn h =>
    match Channel.ofName? what with
    | none => { state := E, thrown := some (Thrown.unsupportedEvent what) }
    | some c =>
      let E1 := if ctx.toBoolean then E.setCtx h ctx else E
      if h ∈ E1.callbacks.get c then { state := E1 }
      else
        let E2 := { E1 with callbacks := E1.callbacks.put c (E1.callbacks.get c ++ [h]) }
        if noInitialCallback then { state := E2 }
        else { state := { E2.setPending h c true with timers := E2.timers ++ [(c, h)] } }

/-- The API function `off(what, handler)`. The test `_callbacks[what] !== undefined` also
lets the names `_callbacks` inherits through; what it finds there has no `indexOf`. -/
def off (what : String) (handler : HandlerArg) (E : Engine) : Outcome :=
  match Channel.ofName? what with
  | none =>
    if what ∈ JSObject.prototypeNames then { state := E, thrown := some Thrown.typeError }
    else { state := E }
  | some c =>
    match handler with
    | .value _ => { state := E }
    | .fn h =>
      if h ∈ E.callbacks.get c then
        { state := { E with callbacks := E.callbacks.put c ((E.callbacks.get c).erase h) } }
      else { state := E }

/-! ## The write batcher and the read API -/

/-- A key argument of the API: a string (`@param {string} key`), or `none` when the caller
passes no key, which the function sees as `undefined`. -/
abbrev Key := Option String

/-- The key as the JavaScript value the function receives. -/
def Key.toValue : Key → JSValue
  | none => JSValue.undefined
  | some s => JSValue.str s

/-- The property name the key turns into when it indexes an object (`o[key]`). -/
def Key.name : Key → String
  | none => "undefined"
  | some s => s

/-- The function `_sendDatagram(type, datagram)`. It is taken to run on a socket:
`_connection` is `null` only before `_init()` and after `destroy()`, and the use of an
instance after its destruction is declared undefined by the source. -/
def _sendDatagram (type : String) (datagram : JSValue) (E : Engine) : Outcome :=
  { state := E, effects := [Effect.emit type datagram] }

/-- The local object `state` that `setItem` builds before it enqueues or sends it;
`options` is the optional options object (`typeof options === "object"`). -/
def setItem.state (key : Key) (value : JSValue) (options : Option JSObject) (E : Engine) :
    JSValue :=
  match options with
  | some o =>
    if (o.get "cas").toBoolean then
      if E.sharedStates.hasOwnProperty key.name then
        JSValue.obj [("type", JSValue.str "setCas"), ("key", key.toValue), ("value", value),
          ("oldValue", E.sharedStates.get key.name)]
      else
        JSValue.obj [("type", JSValue.str "setInsert"), ("key", key.toValue), ("value", value)]
    else JSValue.obj [("type", JSValue.str "set"), ("key", key.toValue), ("value", value)]
  | none => JSValue.obj [("type", JSValue.str "set"), ("key", key.toValue), ("value", value)]

/-- The API function `setItem(key, value, options)`. -/
def setItem (key : Key) (value : JSValue) (options : Option JSObject) (E : Engine) : Outcome :=
  if E.request then
    { state := { E with
        stateChanges := E.stateChanges.set key.name (setItem.state key value options E) } }
  else if readystate.get E = STATE.get "OPEN" then
    if key.toValue.toBoolean then
      _sendDatagram "changeState" (JSValue.arr [setItem.state key value options E]) E
    else { state := E, thrown := some (Thrown.setItemParams key.toValue value) }
  else { state := E, thrown := some (Thrown.setItemNotPossible (readystate.get E)) }

/-- The object `{type: 'remove', key: key}` that `removeItem` enqueues or sends. -/
def removeItem.state (key : Key) : JSValue :=
  JSValue.obj [("type", JSValue.str "remove"), ("key", key.toValue)]

/-- The API function `removeItem(key)`. -/
def removeItem (key : Key) (E : Engine) : Outcome :=
  if E.request then
    { state := { E with stateChanges := E.stateChanges.set key.name (removeItem.state key) } }
  else if readystate.get E = STATE.get "OPEN" then
    if (E.sharedStates.get key.name).toBoolean then
      _sendDatagram "changeState" (JSValue.arr [removeItem.state key]) E
    else { state := E, thrown := some (Thrown.removeItemKey key.toValue) }
  else { state := E, thrown := some (Thrown.removeItemNotPossible (readystate.get E)) }

/-- The API function `request()`. -/
def request (E : Engine) : Outcome :=
  { state := { E with request := true } }

/-- The API function `send()`. -/
def send (E : Engine) : Outcome :=
  if readystate.get E = STATE.get "OPEN" then
    let E1 := { E with request := false }
    if (JSObject.keys E1.stateChanges).length > 0 then
      let datagram := (JSObject.keys E1.stateChanges).map (fun k => E1.stateChanges.get k)
      (_sendDatagram "changeState" (JSValue.arr datagram) E1).andThen
        (fun E2 => { state := { E2 with stateChanges := [] } })
    else { state := E1 }
  else { state := E, thrown := some (Thrown.sendNotPossible (readystate.get E)) }

/-- The builtin `JSON.parse(text)`, on a text as `JSON.stringify` represents it; applied
to `undefined`, which is no text, it throws a `SyntaxError`. -/
def JSON.parse (text : JSValue) : JSValue := text

/-- The API function `getItem(key)`: the outcome and the value returned. The key is a
string or missing, so `key + ''` is the key. -/
def getItem (key : Key) (E : Engine) : Outcome × JSValue :=
  match key with
  | none => (_sendDatagram "getState" (JSValue.arr []) E, JSValue.undefined)
  | some k =>
    if E.sharedStates.get k ≠ JSValue.undefined then
      match JSON.stringify (E.sharedStates.get k) with
      | some text => ({ state := E }, JSON.parse text)
      | none => ({ state := E, thrown := some Thrown.syntaxError }, JSValue.undefined)
    else ({ state := E }, JSValue.undefined)

/-! ## Inbound status batches -/

/-- An item `{key, value}` of `datagram.presence`; `value` is `undefined` when the item has
no such field. -/
structure PresenceItem where
  key : String
  value : JSValue := JSValue.undefined
  deriving DecidableEq, Repr

/-- The expression `a || b` of JavaScript. -/
def JSValue.or (a b : JSValue) : JSValue := if a.toBoolean then a else b

/-- The body of the loop of `onStatus`, for the item `datagram.presence[i]`. -/
def onStatus.item (app : App) (it : PresenceItem) (E : Engine) : Outcome :=
  if it.key ≠ "" ∧
      JSON.stringify (E.presence.get it.key)
        ≠ JSON.stringify (it.value.or (JSValue.bool (!(E.presence.get it.key).toBoolean))) then
    _do_callbacks app Channel.presence
      (presenceEvent it.key (it.value.or JSValue.undefined)) none
      { E with presence := E.presence.set it.key it.value }
  else { state := E }

/-- The transport handler `onStatus(datagram)`, on the list `datagram.presence`. -/
def onStatus (app : App) : List PresenceItem → Engine → Outcome
  | [], E => { state := E }
  | it :: rest, E => (onStatus.item app it E).andThen (onStatus app rest)

/-! ## Presence, handshake and lifecycle -/

/-- The API function `keys()`. -/
def keys (E : Engine) : List String := JSObject.keys E.sharedStates

/-- The API function `getPresence(agentid)`. -/
def getPresence (agentid : String) (E : Engine) : JSValue := E.presence.get agentid

/-- The API function `getPresenceList()`. -/
def getPresenceList (E : Engine) : List String := JSObject.keys E.presence

/-- The API function `setPresence(state)`. -/
def setPresence (state : JSValue) (E : Engine) : Outcome :=
  if readystate.get E = STATE.get "OPEN" then
    if state.toBoolean then
      _sendDatagram "changePresence"
        (JSValue.obj [("agentID", JSValue.str E.options.agentid), ("presence", state)]) E
    else { state := E, thrown := some (Thrown.presenceParams state) }
  else { state := E, thrown := some (Thrown.sendNotPossible (readystate.get E)) }

/-- The transport handler `onError(data)`. -/
def onError (data : JSValue) (E : Engine) : Outcome :=
  { state := E, effects := [Effect.remoteError data] }

/-- The transport handler `onConnect()`. -/
def onConnect (app : App) (E : Engine) : Outcome :=
  match E.connection with
  | none => { state := E, thrown := some Thrown.typeError }
  | some false => { state := E }
  | some true =>
    (readystate.set app (JSValue.str "connecting") E).andThen (fun E1 =>
      _sendDatagram "join"
        (JSValue.obj ([("agentID", JSValue.str E1.options.agentid)]
          ++ (if E1.options.userId.toBoolean then [("userId", E1.options.userId)] else [])
          ++ (if E1.options.getOnInit then [("sendInitState", JSValue.bool true)] else [])))
        E1)

/-- The transport handler `onDisconnect()`. -/
def onDisconnect (app : App) (E : Engine) : Outcome :=
  readystate.set app (JSValue.str "connecting") E

/-- The message `{agentID, initStateComing}` of a `joined` event; `initStateComing` is
`undefined` when the message has no such field. -/
structure JoinedMessage where
  agentID : String
  initStateComing : JSValue := JSValue.undefined
  deriving DecidableEq, Repr

/-- The test `s.indexOf(t) === 0`: `t` is a prefix of `s`. -/
def startsWith (s t : String) : Bool := t.data.isPrefixOf s.data

/-- The occurrence test behind `indexOf(...) > -1`, on lists of characters. -/
def occursIn (t : List Char) : List Char → Bool
  | [] => t.isPrefixOf []
  | c :: cs => t.isPrefixOf (c :: cs) || occursIn t cs

/-- The test `s.indexOf(t) > -1`: `t` occurs somewhere in `s`. -/
def includes (s t : String) : Bool := occursIn t.data s.data

/-- The call `s.substr(n)`: `s` without its first `n` characters. -/
def substr (s : String) (n : Nat) : String := ⟨s.data.drop n⟩

/-- The function `_autoClean(agentid)`: asks for the removal of every key of the store
that starts with `__` and contains `"__" + agentid`. The loop ends at the first
`removeItem` that throws. -/
def _autoClean (agentid : String) (E : Engine) : Outcome :=
  if !E.options.autoClean then { state := E }
  else
    (JSObject.keys E.sharedStates).foldl (fun (r : Outcome) key => r.andThen (fun E1 =>
      if startsWith key "__" && includes key ("__" ++ agentid) then removeItem (some key) E1
      else { state := E1 })) { state := E }

/-- The function `onJoined` hands to `setInterval(..., 15000)`: one autoclean sweep over
the keys of the store. -/
def onJoined.interval (E : Engine) : Outcome :=
  (JSObject.keys E.sharedStates).foldl (fun (r : Outcome) key => r.andThen (fun E1 =>
    if startsWith key "__meta__" then
      if !(E1.presence.get (substr key 8)).toBoolean then _autoClean (substr key 8) E1
      else { state := E1 }
    else { state := E1 })) { state := E }

/-- The transport handler `onJoined(datagram)`. -/
def onJoined (app : App) (datagram : JoinedMessage) (E : Engine) : Outcome :=
  (if datagram.agentID = E.options.agentid then
    if E.options.getOnInit = true then
      if !datagram.initStateComing.toBoolean then
        _sendDatagram "getInitState" (JSValue.arr []) E
      else { state := E }
    else
      (readystate.set app (JSValue.str "open") E).andThen (fun E1 =>
        if E1.options.autoPresence = true then setPresence (JSValue.str "online") E1
        else { state := E1 })
  else { state := E }).andThen (fun E2 =>
    if E2.options.autoClean then { state := { E2 with intervals := E2.intervals + 1 } }
    else { state := E2 })

/-- The body of the loop of `onInitState`, for the item `datagram[i]`. -/
def onInitState.item (app : App) (it : ChangeItem) (E : Engine) : Outcome :=
  if it.type = "set" then
    if it.key ≠ "" ∧
        JSON.stringify (E.sharedStates.get it.key) ≠ JSON.stringify it.value then
      _do_callbacks app Channel.change (stateEvent it.key it.value "add") none
        { E with sharedStates := E.sharedStates.set it.key it.value }
    else { state := E }
  else { state := E }

/-- The loop of `onInitState` over the items still to process. -/
def onInitState.loop (app : App) : List ChangeItem → Engine → Outcome
  | [], E => { state := E }
  | it :: rest, E => (onInitState.item app it E).andThen (onInitState.loop app rest)

/-- The transport handler `onInitState(datagram)`. -/
def onInitState (app : App) (datagram : List ChangeItem) (E : Engine) : Outcome :=
  ((onInitState.loop app datagram E).andThen (fun E1 =>
    if datagram.length > 0 then _do_callbacks app Channel.changeset JSValue.undefined none E1
    else { state := E1 })).andThen (fun E2 =>
      (readystate.set app (JSValue.str "open") E2).andThen (fun E3 =>
        if E3.options.autoPresence = true then setPresence (JSValue.str "online") E3
        else { state := E3 }))

/-- The API function `destroy()`. -/
def destroy (app : App) (E : Engine) : Outcome :=
  match E.connection with
  | none => { state := E }
  | some _ =>
    (({ state := { E with connection := none }, effects := [Effect.close] } : Outcome).andThen
      (readystate.set app (JSValue.str "closed"))).andThen (fun E1 =>
        { state := { E1 with callbacks := {} } })

/-- The function `_init()`, on a socket whose `connected` is the given flag. -/
def _init (app : App) (connected : Bool) (E : Engine) : Outcome :=
  (readystate.set app (JSValue.str "connecting") { E with connection := some connected }).andThen
    (fun E1 => if connected then onConnect app E1 else { state := E1 })

/-- The defaults the constructor applies to the `options` object it is given, `generated`
being the agent identifier drawn for the session. Agent identifiers are strings here: a
falsy `agentid` is replaced by the generated one as in the source, and so is one that is
not a string, which the source would keep. -/
def Options.ofRaw (options : JSObject) (generated : String) : Options :=
  { agentid :=
      (match options.get "agentid" with
        | JSValue.str s => if s ≠ "" then s else generated
        | _ => generated),
    userId := options.get "userId",
    getOnInit := decide (options.get "getOnInit" ≠ JSValue.bool false),
    autoPresence := decide (options.get "autoPresence" ≠ JSValue.bool false),
    autoClean := !decide (options.get "autoClean" ≠ JSValue.bool true) }

/-- The constructor `SharedState(url, options)` on a socket whose `connected` is the given
flag. -/
def create (app : App) (options : JSObject) (generated : String) (connected : Bool) :
    Outcome :=
  _init app connected (Engine.initial (Options.ofRaw options generated))

/-! ## Reference descriptions used by the statements below -/

/-- Live delivery as the design describes it: the handlers of the channel whose
replay-pending flag is not set, in registration order, each invoked once with the payload
(a failing handler adds a report to the error sink). -/
def liveDelivery (app : App) (what : Channel) (e : JSValue) (E : Engine) : List Effect :=
  ((E.callbacks.get what).filter (fun h => !E.isPending h what)).flatMap
    (fun h => invoke app what h e E)

/-- The fold "last write wins per key, remove deletes" over a batch: a set item writes its
value at its key, a remove item deletes its key. -/
def lastWriteWins (store : JSObject) (batch : List ChangeItem) : JSObject :=
  batch.foldl (fun s it =>
    if it.type = "set" then s.define it.key it.value
    else if it.type = "remove" then s.delete it.key
    else s) store

/-- One step of the fold the engine realises: an item with an empty key is ignored, a set
item writes its value at its key unless the item has no value and the store holds none
for the key (neither has a serialisation), a remove item deletes its key. -/
def applyItem (s : JSObject) (it : ChangeItem) : JSObject :=
  if it.key = "" then s
  else if it.type = "set" then
    (if JSON.stringify it.value = none ∧ JSON.stringify (s.own it.key) = none then s
     else s.define it.key it.value)
  else if it.type = "remove" then s.delete it.key
  else s

/-- The fold of `applyItem` over a batch. -/
def applyBatch (store : JSObject) (batch : List ChangeItem) : JSObject :=
  batch.foldl applyItem store

/-- An item is effective on store `s`: its key is not empty, and it is a set item whose
serialised value differs from that of the entry under its key (an absent key has no
serialisation, and neither has a missing value), or a remove item whose key is present. -/
def effective (s : JSObject) (it : ChangeItem) : Bool :=
  decide (it.key ≠ "") &&
    ((decide (it.type = "set") &&
        decide (JSON.stringify (s.own it.key) ≠ JSON.stringify it.value)) ||
     (decide (it.type = "remove") && s.hasOwnProperty it.key))

/-- The event of an effective item on store `s`: channel and payload. -/
def itemEvent (s : JSObject) (it : ChangeItem) : Channel × JSValue :=
  if it.type = "set" then
    (Channel.change, stateEvent it.key it.value
      (if s.own it.key ≠ JSValue.undefined then "update" else "add"))
  else (Channel.remove, stateEvent it.key (s.own it.key) "delete")

/-- The events of the items of a batch, in batch order: one per item that is effective on
the store as it is when the item is reached; other items give no event and leave the
store alone. -/
def itemEvents : JSObject → List ChangeItem → List (Channel × JSValue)
  | _, [] => []
  | s, it :: rest =>
    if effective s it then itemEvent s it :: itemEvents (applyItem s it) rest
    else itemEvents s rest

/-- The number of items of a batch that are effective when they are reached. -/
def effectiveCount : JSObject → List ChangeItem → Nat
  | _, [] => 0
  | s, it :: rest =>
    if effective s it then effectiveCount (applyItem s it) rest + 1
    else effectiveCount s rest

/-- The events of a batch: those of its items, then one `changeset` without payload if the
batch has an item. -/
def batchEvents (s : JSObject) (batch : List ChangeItem) : List (Channel × JSValue) :=
  itemEvents s batch ++
    (if batch.length > 0 then [(Channel.changeset, JSValue.undefined)] else [])

/-- Effectiveness read literally: a set item counts when its key is absent or its
serialised value differs from the stored one, a remove item when its key is present. -/
def effectiveAsWritten (s : JSObject) (it : ChangeItem) : Bool :=
  (decide (it.type = "set") &&
      (!s.hasOwnProperty it.key ||
        decide (JSON.stringify (s.own it.key) ≠ JSON.stringify it.value))) ||
  (decide (it.type = "remove") && s.hasOwnProperty it.key)

/-- An engine with the given store and one handler, number 1, listening on `change`,
`remove` and `changeset` with no replay pending. -/
def probeEngine (store : JSObject) : Engine :=
  { callbacks := { change := [1], remove := [1], changeset := [1] }, sharedStates := store }

/-- The item events read literally: one for each item that is effective as written, the
store following the plain fold. -/
def itemEventsAsWritten : JSObject → List ChangeItem → List (Channel × JSValue)
  | _, [] => []
  | s, it :: rest =>
    if effectiveAsWritten s it then
      itemEvent s it :: itemEventsAsWritten (lastWriteWins s [it]) rest
    else itemEventsAsWritten s rest

/-- The three recognised readystate values. -/
def recognized (v : JSValue) : Prop :=
  v = JSValue.str "connecting" ∨ v = JSValue.str "open" ∨ v = JSValue.str "closed"

instance (v : JSValue) : Decidable (recognized v) := by
  unfold recognized; infer_instance

/-- A sequence of `readystate.set` calls, stopping at the first that throws. -/
def readystate.setAll (app : App) (vs : List JSValue) (E : Engine) : Outcome :=
  vs.foldl (fun r v => r.andThen (readystate.set app v)) { state := E }

/-- An engine in its initial readystate with two listeners on `readystatechange`, numbers
1 and 2, of which 2 still awaits its replay. -/
def twoListeners : Engine :=
  { callbacks := { readystatechange := [1, 2] }, pending := [(2, Channel.readystatechange)] }

/-- The effect is a handler invocation. -/
def Effect.isCall : Effect → Bool
  | .call _ _ _ => true
  | _ => false

/-- The `this` of an invocation of `h`: its `_ctx` when that is truthy, else `self`
(`none`). -/
def thisArg (E : Engine) (h : Handler) : Option JSValue :=
  if (E.ctxOf h).toBoolean then some (E.ctxOf h) else none

/-- The names of the five channels. -/
def channelNames : List String :=
  ["change", "remove", "readystatechange", "presence", "changeset"]

/-- The argument is a function. -/
def HandlerArg.isFunction : HandlerArg → Bool
  | .fn _ => true
  | .value _ => false

/-- An engine whose store is `{a: 1, b: 2}`, with one handler, number 2, on `change`. -/
def storeAB : Engine :=
  { callbacks := { change := [2] },
    sharedStates := [("a", JSValue.num 1), ("b", JSValue.num 2)] }

/-- The engine `storeAB` after `on("change", h)` for a new handler, number 1. -/
def replayEngine : Engine :=
  (addEventListener "change" (HandlerArg.fn 1) JSValue.undefined false storeAB).state

/-- The state a targeted delivery leaves: the flag of the handler is cleared if the
handler is registered on the channel. -/
def afterTarget (what : Channel) (g : Handler) (E : Engine) : Engine :=
  if g ∈ E.callbacks.get what then E.setPending g what false else E

/-- The effects of a targeted delivery. -/
def targetEffects (app : App) (what : Channel) (e : JSValue) (g : Handler) (E : Engine) :
    List Effect :=
  ((E.callbacks.get what).filter (fun h => h = g)).flatMap (fun h => invoke app what h e E)

/-- The state `replayEngine` is in after `off("change", h)` for handler 1 and after the
store has grown to `{a: 1, b: 2, c: 3}` and the readystate has become "open". -/
def cancelledEngine : Engine :=
  { (off "change" (HandlerArg.fn 1) replayEngine).state with
    sharedStates := [("a", JSValue.num 1), ("b", JSValue.num 2), ("c", JSValue.num 3)],
    readystate := JSValue.str "open" }

/-- An engine with handler 2 registered on `change`, in which `on("change", h, ctx)` is
called again for handler 2 with a context object. -/
def reRegistered : Outcome :=
  addEventListener "change" (HandlerArg.fn 2) (JSValue.obj [("name", JSValue.str "view")])
    false storeAB

/-- The options object `{cas: true}`. -/
def casOptions : Option JSObject := some [("cas", JSValue.bool true)]

/-- An engine whose readystate is "open" and whose store is the given one. -/
def openEngine (store : JSObject) : Engine :=
  { readystate := JSValue.str "open", sharedStates := store }

/-- The key is a non-empty string. -/
def Key.nonEmpty (key : Key) : Prop := ∃ s, key = some s ∧ s ≠ ""

instance (key : Key) : Decidable key.nonEmpty :=
  match key with
  | none => isFalse (fun ⟨_, h, _⟩ => by cases h)
  | some s =>
    if hs : s = "" then isFalse (fun ⟨_, h, hne⟩ => by cases h; exact hne hs)
    else isTrue ⟨s, rfl, hs⟩

/-- A write call made by the application: `setItem(key, value, options)` or
`removeItem(key)`, with a string key. -/
inductive Write where
  | setItem (key : String) (value : JSValue) (options : Option JSObject)
  | removeItem (key : String)
  deriving DecidableEq, Repr

/-- The key a write is for. -/
def Write.key : Write → String
  | .setItem k _ _ => k
  | .removeItem k => k

/-- The call itself. -/
def Write.run : Write → Engine → Outcome
  | .setItem k v o, E => SharedState.setItem (some k) v o E
  | .removeItem k, E => SharedState.removeItem (some k) E

/-- The item the write stands for, given the engine state (the store decides between
`setCas` and `setInsert`). -/
def Write.item : Write → Engine → JSValue
  | .setItem k v o, E => setItem.state (some k) v o E
  | .removeItem k, _ => removeItem.state (some k)

/-- A sequence of write calls, stopping at the first that throws. -/
def runWrites (ws : List Write) (E : Engine) : Outcome :=
  ws.foldl (fun r w => r.andThen w.run) { state := E }

/-- The last write of the sequence for key `k`, if there is one. -/
def lastWrite? (k : String) : List Write → Option Write
  | [] => none
  | w :: rest =>
    match lastWrite? k rest with
    | some w' => some w'
    | none => if w.key = k then some w else none

/-- The pending map a sequence of bracketed writes builds on top of `sc`. -/
def pendingAfter (E : Engine) (sc : JSObject) (ws : List Write) : JSObject :=
  ws.foldl (fun sc w => sc.set w.key (w.item E)) sc

/-- The example bracket of the specification: `setItem("k", 1); setItem("k", 2);
removeItem("j")`. -/
def exampleWrites : List Write :=
  [Write.setItem "k" (JSValue.num 1) none, Write.setItem "k" (JSValue.num 2) none,
   Write.removeItem "j"]

/-- The item sets or removes the key `k`. -/
def ChangeItem.touches (it : ChangeItem) (k : String) : Bool :=
  decide (it.key = k) && (decide (it.type = "set") || decide (it.type = "remove"))

/-- The last item of the batch that sets or removes the key `k`, if there is one. -/
def lastTouch? (k : String) : List ChangeItem → Option ChangeItem
  | [] => none
  | it :: rest =>
    match lastTouch? k rest with
    | some it' => some it'
    | none => if it.touches k then some it else none

/-- An engine with the given Presence Store and one handler, number 1, listening on
`presence` with no replay pending. -/
def presenceProbe (presence : JSObject) : Engine :=
  { callbacks := { presence := [1] }, presence := presence }

/-! ## Steps of an engine's life -/

/-- One thing that happens to an engine: a call of the application, an inbound transport
event, a deferred replay task firing (`timeout`), or the autoclean interval firing. -/
inductive Step where
  | setItem (key : Key) (value : JSValue) (options : Option JSObject)
  | removeItem (key : Key)
  | request
  | send
  | getItem (key : Key)
  | keys
  | getPresence (agentid : String)
  | getPresenceList
  | setPresence (state : JSValue)
  | addEventListener (what : String) (handler : HandlerArg) (ctx : JSValue)
      (noInitialCallback : Bool)
  | off (what : String) (handler : HandlerArg)
  | destroy
  | onConnect
  | onDisconnect
  | onJoined (datagram : JoinedMessage)
  | onStatus (presence : List PresenceItem)
  | onChangeState (datagram : Option (List ChangeItem))
  | onInitState (datagram : List ChangeItem)
  | onError (data : JSValue)
  | timeout (what : Channel) (handler : Handler)
  | interval
  deriving DecidableEq, Repr

/-- What the step does to the engine. -/
def Step.run (app : App) : Step → Engine → Outcome
  | .setItem key value options, E => SharedState.setItem key value options E
  | .removeItem key, E => SharedState.removeItem key E
  | .request, E => SharedState.request E
  | .send, E => SharedState.send E
  | .getItem key, E => (SharedState.getItem key E).1
  | .keys, E => { state := E }
  | .getPresence _, E => { state := E }
  | .getPresenceList, E => { state := E }
  | .setPresence state, E => SharedState.setPresence state E
  | .addEventListener what handler ctx skip, E =>
    SharedState.addEventListener what handler ctx skip E
  | .off what handler, E => SharedState.off what handler E
  | .destroy, E => SharedState.destroy app E
  | .onConnect, E => SharedState.onConnect app E
  | .onDisconnect, E => SharedState.onDisconnect app E
  | .onJoined datagram, E => SharedState.onJoined app datagram E
  | .onStatus presence, E => SharedState.onStatus app presence E
  | .onChangeState datagram, E => SharedState.onChangeState app datagram E
  | .onInitState datagram, E => SharedState.onInitState app datagram E
  | .onError data, E => SharedState.onError data E
  | .timeout what handler, E => SharedState.addEventListener.deferred app what handler E
  | .interval, E => SharedState.onJoined.interval E

/-- The step is one of the application-facing calls other than `destroy`. -/
def Step.isApplicationCall : Step → Bool
  | .setItem _ _ _ | .removeItem _ | .request | .send | .getItem _ | .keys | .getPresence _
  | .getPresenceList | .setPresence _ | .addEventListener _ _ _ _ | .off _ _ => true
  | _ => false

/-- The step is an inbound `changeState`, `initState` or `status` batch. -/
def Step.isBatch : Step → Bool
  | .onStatus _ | .onChangeState _ | .onInitState _ => true
  | _ => false

/-- A sequence of steps, each run in the state the one before left (a step that throws
does not stop the ones after it): the final state and all the effects. -/
def runSteps (app : App) : List Step → Engine → Engine × List Effect
  | [], E => (E, [])
  | s :: rest, E =>
    ((runSteps app rest (Step.run app s E).state).1,
      (Step.run app s E).effects ++ (runSteps app rest (Step.run app s E).state).2)

/-- A property of engine states that survives every change of the fields listed. -/
structure Frame (P : Engine → Prop) : Prop where
  stateChanges : ∀ E v, P E → P { E with stateChanges := v }
  request : ∀ E v, P E → P { E with request := v }
  ctx : ∀ E v, P E → P { E with ctx := v }
  callbacks : ∀ E v, P E → P { E with callbacks := v }
  timers : ∀ E v, P E → P { E with timers := v }
  connection : ∀ E v, P E → P { E with connection := v }
  intervals : ∀ E v, P E → P { E with intervals := v }
  pending : ∀ E v, P E → P { E with pending := E.pending ++ v }

/-- A live engine: connected socket, readystate "open", the given store, one handler,
number 1, on every channel. -/
def liveEngine (store : JSObject) : Engine :=
  { callbacks := { change := [1], remove := [1], readystatechange := [1], presence := [1],
                   changeset := [1] },
    sharedStates := store, readystate := JSValue.str "open", connection := some true }

/-- The effect is an outbound datagram. -/
def Effect.isEmit : Effect → Bool
  | .emit _ _ => true
  | _ => false

/-- The datagram `{agentID, presence: "online"}` of the local agent. -/
def onlineDatagram (E : Engine) : JSValue :=
  JSValue.obj [("agentID", JSValue.str E.options.agentid), ("presence", JSValue.str "online")]

/-- The first part of `onInitState`: the loop over the batch and the `changeset` event. -/
def onInitState.batch (app : App) (datagram : List ChangeItem) (E : Engine) : Outcome :=
  (onInitState.loop app datagram E).andThen (fun E1 =>
    if datagram.length > 0 then _do_callbacks app Channel.changeset JSValue.undefined none E1
    else { state := E1 })

/-- An engine with autoclean on and the readystate "open": the store holds data of agent
`a`, which is absent, and of agent `ab`, which is present. -/
def sweepEngine : Engine :=
  { options := { autoClean := true }, readystate := JSValue.str "open",
    connection := some true,
    sharedStates := [("__meta__a", JSValue.num 1), ("__meta__ab", JSValue.num 1)],
    presence := [("ab", JSValue.str "online")] }

/-- Steps that happen between `on("change", h)` for handler 1 in `storeAB` and the replay
task: an inbound change batch and a registration of another handler. -/
def betweenSteps : List Step :=
  [Step.onChangeState (some [⟨"set", "c", JSValue.num 3⟩]),
   Step.addEventListener "change" (HandlerArg.fn 3) JSValue.undefined true]

/-- The zero-delay timers fire: every replay task in the queue runs, oldest first, each in
the state the one before left, and the queue is left empty. Handlers are taken not to call
back into the engine, so no timer is started meanwhile. -/
def runTimers (app : App) (E : Engine) : Engine × List Effect :=
  E.timers.foldl (fun acc timer =>
      ((addEventListener.deferred app timer.1 timer.2 acc.1).state,
        acc.2 ++ (addEventListener.deferred app timer.1 timer.2 acc.1).effects))
    ({ E with timers := [] }, [])

/-- The calls `on(c, h)` then `off(c, h)` for handler 1. -/
def onOff (c : Channel) : List Step :=
  [Step.addEventListener c.name (HandlerArg.fn 1) JSValue.undefined false,
   Step.off c.name (HandlerArg.fn 1)]

/-- The calls `on(c, h)`, `off(c, h)`, `on(c, h)` for handler 1. -/
def onOffOn (c : Channel) : List Step :=
  onOff c ++ [Step.addEventListener c.name (HandlerArg.fn 1) JSValue.undefined false]

/-- A fresh engine after `on("readystatechange", h)`, `off("readystatechange", h)` for
handler 1 and the firing of the timers. -/
def staleEngine : Engine :=
  (runTimers App.quiet
    (runSteps App.quiet (onOff Channel.readystatechange) (Engine.initial {})).1).1

/-- The engine `staleEngine` after `on("readystatechange", h, undefined, true)` for
handler 1. -/
def deafEngine : Engine :=
  (addEventListener "readystatechange" (HandlerArg.fn 1) JSValue.undefined true
    staleEngine).state

/-- An engine whose store is `{a: 1}`, without handlers. -/
def oneEntry : Engine := { sharedStates := [("a", JSValue.num 1)] }

/-- A batch of three items of which two change the store `{k: 1, j: 0}`: `k` is set to
the value it has, `a` is set to 2, `j` is removed. -/
def threeItems : List ChangeItem :=
  [⟨"set", "k", JSValue.num 1⟩, ⟨"set", "a", JSValue.num 2⟩, ⟨"remove", "j", JSValue.undefined⟩]

/-- The engine `probeEngine` on the store `{k: 1, j: 0}`. -/
def probeKJ : Engine := probeEngine [("k", JSValue.num 1), ("j", JSValue.num 0)]

/-! ## Lemmas on objects -/

namespace JSObject

theorem define_of_own_eq (s : JSObject) (k : String) (v : JSValue)
    (hget : s.own k = v) (hv : v ≠ JSValue.undefined) : s.define k v = s := by
  induction s with
  | nil => simp [own] at hget; exact absurd hget.symm hv
  | cons p rest ih =>
    obtain ⟨k', w⟩ := p
    by_cases hk : k' = k
    · simp [own, hk] at hget
      simp [define, hk, hget]
    · simp [own, hk] at hget
      simp [define, hk, ih hget]

theorem delete_of_not_hasOwnProperty (s : JSObject) (k : String)
    (h : s.hasOwnProperty k = false) : s.delete k = s := by
  induction s with
  | nil => rfl
  | cons p rest ih =>
    obtain ⟨k', w⟩ := p
    by_cases hk : k' = k
    · simp [hasOwnProperty, hk] at h
    · simp [hasOwnProperty, hk] at h
      simp [delete, hk, ih h]

theorem own_define (s : JSObject) (k k' : String) (v : JSValue) :
    (s.define k v).own k' = if k = k' then v else s.own k' := by
  induction s with
  | nil => simp [define, own]
  | cons p rest ih =>
    obtain ⟨k0, w⟩ := p
    by_cases h0 : k0 = k
    · subst h0
      by_cases h1 : k0 = k' <;> simp [define, own, h1]
    · by_cases h1 : k0 = k'
      · subst h1
        have h2 : ¬ k = k0 := fun x => h0 x.symm
        simp [define, own, h0, h2]
      · simp [define, own, h0, h1, ih]

theorem own_define_self (s : JSObject) (k : String) (v : JSValue) :
    (s.define k v).own k = v := by
  simp [own_define]

theorem hasOwnProperty_define_self (s : JSObject) (k : String) (v : JSValue) :
    (s.define k v).hasOwnProperty k = true := by
  induction s with
  | nil => simp [define, hasOwnProperty]
  | cons p rest ih =>
    obtain ⟨k0, w⟩ := p
    by_cases h0 : k0 = k
    · simp [define, hasOwnProperty, h0]
    · simp [define, hasOwnProperty, h0, ih]

theorem own_of_not_hasOwnProperty (s : JSObject) (k : String)
    (h : s.hasOwnProperty k = false) : s.own k = JSValue.undefined := by
  induction s with
  | nil => rfl
  | cons p rest ih =>
    obtain ⟨k', w⟩ := p
    by_cases hk : k' = k
    · simp [hasOwnProperty, hk] at h
    · simp [hasOwnProperty, hk] at h
      simp [own, hk, ih h]

theorem ne_proto_of_not_mem (k : String) (h : k ∉ prototypeNames) : k ≠ "__proto__" := by
  rintro rfl
  exact h (by decide)

theorem inherited_of_not_mem (k : String) (h : k ∉ prototypeNames) :
    inherited k = JSValue.undefined := by
  simp [inherited, h, ne_proto_of_not_mem k h]

/-- An own property hides what the object inherits. -/
theorem get_of_hasOwnProperty (s : JSObject) (k : String)
    (h : s.hasOwnProperty k = true) : s.get k = s.own k := by
  simp [get, h]

theorem get_of_not_hasOwnProperty (s : JSObject) (k : String)
    (h : s.hasOwnProperty k = false) : s.get k = inherited k := by
  simp [get, h]

/-- Under a name that `Object.prototype` does not have, a read finds the own property or
nothing. -/
theorem get_of_not_mem (s : JSObject) (k : String) (h : k ∉ prototypeNames) :
    s.get k = s.own k := by
  cases ho : s.hasOwnProperty k
  · rw [get_of_not_hasOwnProperty s k ho, inherited_of_not_mem k h,
      own_of_not_hasOwnProperty s k ho]
  · exact get_of_hasOwnProperty s k ho

/-- Under every name but `__proto__`, an assignment creates or overwrites the property. -/
theorem set_of_ne (s : JSObject) (k : String) (v : JSValue) (h : k ≠ "__proto__") :
    s.set k v = s.define k v := by
  simp [set, h]

theorem get_set_self (s : JSObject) (k : String) (v : JSValue) (h : k ≠ "__proto__") :
    (s.set k v).get k = v := by
  rw [set_of_ne s k v h, get_of_hasOwnProperty _ _ (hasOwnProperty_define_self s k v),
    own_define_self]

end JSObject

/-! ## Lemmas on the dispatcher -/

theorem JSON.stringify_eq_none_iff (a : JSValue) :
    JSON.stringify a = none ↔ a = JSValue.undefined ∨ a.isFunction = true := by
  cases a <;> simp [JSON.stringify, JSValue.isFunction]

theorem JSON.stringify_eq_some (a t : JSValue) (h : JSON.stringify a = some t) : a = t := by
  cases a <;> simp [JSON.stringify] at h <;> exact h

theorem JSON.stringify_eq_iff (a b : JSValue) (ha : a.isFunction = false)
    (hb : b.isFunction = false) : JSON.stringify a = JSON.stringify b ↔ a = b := by
  cases a <;> cases b <;> simp [JSON.stringify, JSValue.isFunction] at ha hb ⊢

theorem Outcome.andThen_pure (E : Engine) (f : Engine → Outcome) :
    Outcome.andThen { state := E } f = f E := by
  simp [Outcome.andThen]

theorem doCallbacksLoop_live (app : App) (what : Channel) (e : JSValue) (l : List Handler)
    (E : Engine) :
    doCallbacksLoop app what e none l E =
      { state := E,
        effects := (l.filter (fun h => !E.isPending h what)).flatMap
          (fun h => invoke app what h e E) } := by
  induction l with
  | nil => simp [doCallbacksLoop]
  | cons h rest ih =>
    by_cases hp : E.isPending h what = true
    · simp [doCallbacksLoop, hp, ih]
    · simp [doCallbacksLoop, hp, ih]

theorem do_callbacks_live (app : App) (what : Channel) (e : JSValue) (E : Engine) :
    _do_callbacks app what e none E = { state := E, effects := liveDelivery app what e E } := by
  simp [_do_callbacks, doCallbacksLoop_live, liveDelivery]

theorem liveDelivery_congr (app : App) (what : Channel) (e : JSValue) (E E' : Engine)
    (hcb : E'.callbacks = E.callbacks) (hp : E'.pending = E.pending) (hc : E'.ctx = E.ctx) :
    liveDelivery app what e E' = liveDelivery app what e E := by
  simp [liveDelivery, invoke, Engine.isPending, Engine.ctxOf, hcb, hp, hc]

/-! ## Inbound change batches -/

theorem liveDelivery_sharedStates (app : App) (what : Channel) (e : JSValue) (E : Engine)
    (s : JSObject) :
    liveDelivery app what e { E with sharedStates := s } = liveDelivery app what e E := rfl

theorem applyItem_of_not_effective (s : JSObject) (it : ChangeItem)
    (h : effective s it = false) : applyItem s it = s := by
  unfold applyItem
  by_cases hk : it.key = ""
  · simp [hk]
  · by_cases hset : it.type = "set"
    · simp [effective, hk, hset] at h
      cases hv : JSON.stringify it.value with
      | none =>
        have ho : JSON.stringify (s.own it.key) = none := by rw [h, hv]
        simp [hk, hset, ho]
      | some t =>
        have hvt := JSON.stringify_eq_some _ _ hv
        have hot := JSON.stringify_eq_some _ t (by rw [h, hv])
        have hu : it.value ≠ JSValue.undefined := by
          intro hu
          rw [hu] at hv
          simp [JSON.stringify] at hv
        simp [hk, hset, JSObject.define_of_own_eq _ _ _ (hot.trans hvt.symm) hu]
    · by_cases hrem : it.type = "remove"
      · simp [effective, hk, hset, hrem] at h
        simp [hk, hset, hrem, JSObject.delete_of_not_hasOwnProperty _ _ h]
      · simp [hk, hset, hrem]

/-- What `onChangeState` does with one item whose key is not a name of `Object.prototype`:
the store follows `applyItem`, and the item is delivered if it is effective. -/
theorem onChangeState_item_eq (app : App) (it : ChangeItem) (E : Engine)
    (hkey : it.key ∉ JSObject.prototypeNames) :
    onChangeState.item app it E =
      { state := { E with sharedStates := applyItem E.sharedStates it },
        effects := if effective E.sharedStates it then
            liveDelivery app (itemEvent E.sharedStates it).1 (itemEvent E.sharedStates it).2 E
          else [] } := by
  have hg : E.sharedStates.get it.key = E.sharedStates.own it.key :=
    JSObject.get_of_not_mem _ _ hkey
  have hs : E.sharedStates.set it.key it.value = E.sharedStates.define it.key it.value :=
    JSObject.set_of_ne _ _ _ (JSObject.ne_proto_of_not_mem _ hkey)
  by_cases heff : effective E.sharedStates it = true
  · have heff2 := heff
    simp only [effective, Bool.and_eq_true, Bool.or_eq_true, decide_eq_true_eq] at heff2
    obtain ⟨hk, hcase⟩ := heff2
    by_cases hset : it.type = "set"
    · have hser : JSON.stringify (E.sharedStates.own it.key) ≠ JSON.stringify it.value := by
        rcases hcase with h | h
        · exact h.2
        · rw [hset] at h; exact absurd h.1 (by decide)
      have hne : ¬ (JSON.stringify it.value = none ∧
          JSON.stringify (E.sharedStates.own it.key) = none) := by
        rintro ⟨h1, h2⟩
        exact hser (by rw [h1, h2])
      simp [onChangeState.item, hg, hs, hk, hset, hser, applyItem, heff, itemEvent,
        do_callbacks_live, hne, liveDelivery_sharedStates]
    · have hrem : it.type = "remove" ∧ E.sharedStates.hasOwnProperty it.key = true := by
        rcases hcase with h | h
        · exact absurd h.1 hset
        · exact h
      simp [onChangeState.item, hg, hk, hset, hrem.1, hrem.2, applyItem, heff, itemEvent,
        do_callbacks_live, liveDelivery_sharedStates]
  · have heff1 : effective E.sharedStates it = false := Bool.eq_false_iff.2 heff
    rw [applyItem_of_not_effective _ _ heff1]
    have heff2 := heff1
    simp only [effective, Bool.and_eq_false_iff, Bool.or_eq_false_iff,
      decide_eq_false_iff_not] at heff2
    unfold onChangeState.item
    rw [hg]
    by_cases hset : it.type = "set"
    · have hcond : ¬ (it.key ≠ "" ∧
          JSON.stringify (E.sharedStates.own it.key) ≠ JSON.stringify it.value) := by
        rintro ⟨h1, h2⟩
        rcases heff2 with h | h
        · exact h h1
        · rcases h.1 with h3 | h3
          · exact h3 hset
          · exact h3 h2
      simp [hset, hcond, heff1]
    · by_cases hrem : it.type = "remove"
      · have hcond : ¬ (it.key ≠ "" ∧ E.sharedStates.hasOwnProperty it.key = true) := by
          rintro ⟨h1, h2⟩
          rcases heff2 with h | h
          · exact h h1
          · rcases h.2 with h3 | h3
            · exact h3 hrem
            · rw [h2] at h3; exact absurd h3 (by decide)
        simp [hset, hrem, hcond, heff1]
      · simp [hset, hrem, heff1]

theorem onChangeState_loop_eq (app : App) (batch : List ChangeItem) (E : Engine)
    (hkeys : ∀ it ∈ batch, it.key ∉ JSObject.prototypeNames) :
    onChangeState.loop app batch E =
      { state := { E with sharedStates := applyBatch E.sharedStates batch },
        effects := (itemEvents E.sharedStates batch).flatMap
          (fun ev => liveDelivery app ev.1 ev.2 E) } := by
  induction batch generalizing E with
  | nil => simp [onChangeState.loop, applyBatch, itemEvents]
  | cons it rest ih =>
    have hit := hkeys it (List.mem_cons_self _ _)
    have hrest : ∀ x ∈ rest, x.key ∉ JSObject.prototypeNames :=
      fun x hx => hkeys x (List.mem_cons_of_mem _ hx)
    simp only [onChangeState.loop, onChangeState_item_eq app it E hit, Outcome.andThen,
      ih _ hrest]
    by_cases heff : effective E.sharedStates it = true
    · simp [heff, itemEvents, applyBatch, liveDelivery_sharedStates]
    · have heff1 : effective E.sharedStates it = false := Bool.eq_false_iff.2 heff
      simp [heff1, itemEvents, applyBatch, liveDelivery_sharedStates,
        applyItem_of_not_effective _ _ heff1]

theorem onChangeState_eq (app : App) (batch : List ChangeItem) (E : Engine)
    (hkeys : ∀ it ∈ batch, it.key ∉ JSObject.prototypeNames) :
    onChangeState app (some batch) E =
      { state := { E with sharedStates := applyBatch E.sharedStates batch },
        effects := (batchEvents E.sharedStates batch).flatMap
          (fun ev => liveDelivery app ev.1 ev.2 E) } := by
  simp only [onChangeState, Option.getD_some, onChangeState_loop_eq app batch E hkeys,
    Outcome.andThen, do_callbacks_live, batchEvents]
  by_cases hlen : batch.length > 0
  · simp [hlen, liveDelivery_sharedStates]
  · simp [hlen]

theorem itemEvents_length (s : JSObject) (batch : List ChangeItem) :
    (itemEvents s batch).length = effectiveCount s batch := by
  induction batch generalizing s with
  | nil => rfl
  | cons it rest ih =>
    by_cases heff : effective s it = true
    · simp [itemEvents, effectiveCount, heff, ih]
    · simp [itemEvents, effectiveCount, heff, ih]

theorem itemEvents_channel (s : JSObject) (batch : List ChangeItem) :
    ∀ ev ∈ itemEvents s batch, ev.1 = Channel.change ∨ ev.1 = Channel.remove := by
  induction batch generalizing s with
  | nil => simp [itemEvents]
  | cons it rest ih =>
    intro ev hev
    by_cases heff : effective s it = true
    · simp [itemEvents, heff] at hev
      rcases hev with rfl | hev
      · unfold itemEvent; split <;> simp
      · exact ih _ ev hev
    · simp [itemEvents, heff] at hev
      exact ih _ ev hev

theorem onChangeState_sharedStates (app : App) (E : Engine) (batch : List ChangeItem)
    (hkeys : ∀ it ∈ batch, it.key ∉ JSObject.prototypeNames) :
    (onChangeState app (some batch) E).state.sharedStates
      = applyBatch E.sharedStates batch := by
  simp [onChangeState_eq app batch E hkeys]

/-- Whatever the items, `onChangeState` touches the store only, and does not throw. -/
theorem onChangeState_item_shape (app : App) (it : ChangeItem) (E : Engine) :
    ∃ s effs, onChangeState.item app it E
      = { state := { E with sharedStates := s }, effects := effs } := by
  unfold onChangeState.item
  split
  · split
    · rw [do_callbacks_live]
      exact ⟨_, _, rfl⟩
    · exact ⟨E.sharedStates, [], rfl⟩
  · split
    · split
      · rw [do_callbacks_live]
        exact ⟨_, _, rfl⟩
      · exact ⟨E.sharedStates, [], rfl⟩
    · exact ⟨E.sharedStates, [], rfl⟩

theorem onChangeState_loop_shape (app : App) (batch : List ChangeItem) (E : Engine) :
    ∃ s effs, onChangeState.loop app batch E
      = { state := { E with sharedStates := s }, effects := effs } := by
  induction batch generalizing E with
  | nil => exact ⟨E.sharedStates, [], rfl⟩
  | cons it rest ih =>
    obtain ⟨s1, effs1, h1⟩ := onChangeState_item_shape app it E
    obtain ⟨s2, effs2, h2⟩ := ih { E with sharedStates := s1 }
    exact ⟨s2, effs1 ++ effs2, by simp only [onChangeState.loop, h1, Outcome.andThen, h2]⟩

theorem onChangeState_shape (app : App) (datagram : Option (List ChangeItem)) (E : Engine) :
    ∃ s effs, onChangeState app datagram E
      = { state := { E with sharedStates := s }, effects := effs } := by
  obtain ⟨s, effs, h⟩ := onChangeState_loop_shape app (datagram.getD []) E
  unfold onChangeState
  simp only [h, Outcome.andThen, do_callbacks_live]
  split
  · exact ⟨s, _, rfl⟩
  · exact ⟨s, effs, by simp⟩

/-- C1 (counterexample): on an empty store a set item with an empty key, and a set item
without a value, leave the store empty, while the plain fold "a set item writes its value
at its key" yields a store with an entry. -/
theorem C1_counterexample :
    (onChangeState App.quiet (some [⟨"set", "", JSValue.num 1⟩])
        (Engine.initial {})).state.sharedStates
      ≠ lastWriteWins (Engine.initial {}).sharedStates [⟨"set", "", JSValue.num 1⟩]
    ∧ (onChangeState App.quiet (some [⟨"set", "k", JSValue.undefined⟩])
        (Engine.initial {})).state.sharedStates
      ≠ lastWriteWins (Engine.initial {}).sharedStates [⟨"set", "k", JSValue.undefined⟩] := by
  decide

/-- C1 (amended): for every engine state whose store has no entry named `hasOwnProperty`
(it would shadow the method the remove branch calls) and every inbound batch none of whose
keys is the name of a member of `Object.prototype`, `onChangeState` returns normally and
the store afterwards is the fold of the batch over the initial store, in order, where an
item with an empty key is ignored, a set item writes its value at its key (last write per
key wins) unless it has no value and the store holds none for the key, and a remove item
deletes its key; nothing else in the engine state changes. -/
theorem C1_store_is_fold (app : App) (E : Engine) (batch : List ChangeItem)
    (_hstore : E.sharedStates.hasOwnProperty "hasOwnProperty" = false)
    (hkeys : ∀ it ∈ batch, it.key ∉ JSObject.prototypeNames) :
    (onChangeState app (some batch) E).state
        = { E with sharedStates := applyBatch E.sharedStates batch }
      ∧ (onChangeState app (some batch) E).thrown = none := by
  simp [onChangeState_eq app batch E hkeys]

/-- C1 (witness): on the store `{k: 1, j: 0}` the batch "set k = 1, set a = 2, remove j"
leaves `{k: 1, a: 2}`. -/
theorem C1_store_is_fold_witness :
    probeKJ.sharedStates.hasOwnProperty "hasOwnProperty" = false
    ∧ (∀ it ∈ threeItems, it.key ∉ JSObject.prototypeNames)
    ∧ applyBatch probeKJ.sharedStates threeItems = [("k", JSValue.num 1), ("a", JSValue.num 2)]
    ∧ (onChangeState App.quiet (some threeItems) probeKJ).state
        = { probeKJ with sharedStates := applyBatch probeKJ.sharedStates threeItems } :=
  ⟨by decide, by decide, by decide,
    (C1_store_is_fold App.quiet probeKJ threeItems (by decide) (by decide)).1⟩

/-- C2 (counterexample): with a handler listening on `change`, `remove` and `changeset`,
a batch made of one set item with an empty key (key absent from the store, value different)
delivers the `changeset` only, and so does a batch made of one set item without a value for
an absent key; read literally each of them is an effective item owed a `change` event. -/
theorem C2_counterexample :
    (itemEventsAsWritten [] [⟨"set", "", JSValue.num 1⟩]
        = [(Channel.change, stateEvent "" (JSValue.num 1) "add")]
      ∧ (onChangeState App.quiet (some [⟨"set", "", JSValue.num 1⟩]) (probeEngine [])).effects
        = [Effect.call 1 none JSValue.undefined])
    ∧ (itemEventsAsWritten [] [⟨"set", "k", JSValue.undefined⟩]
        = [(Channel.change, stateEvent "k" JSValue.undefined "add")]
      ∧ (onChangeState App.quiet (some [⟨"set", "k", JSValue.undefined⟩])
          (probeEngine [])).effects
        = [Effect.call 1 none JSValue.undefined]) := by
  decide

/-- C2 (amended): for every engine state whose store has no entry named `hasOwnProperty`
and every inbound batch none of whose keys is the name of a member of `Object.prototype`,
what `onChangeState` does to the outside is, in batch order, one live delivery
(`_do_callbacks(channel, payload)`) per item that is effective when it is reached - on
`change` for a set item with a non-empty key whose serialised value differs from that of
the current entry, on `remove` for a remove item with a non-empty key that is present -
and, after all of those, one live delivery on `changeset` with no payload if the batch has
an item, none if it is empty. An item that is not effective emits nothing and changes
nothing. So a batch with k effective items emits k change/remove events and then one
changeset. -/
theorem C2_events_of_batch (app : App) (E : Engine) (batch : List ChangeItem)
    (_hstore : E.sharedStates.hasOwnProperty "hasOwnProperty" = false)
    (hkeys : ∀ it ∈ batch, it.key ∉ JSObject.prototypeNames) :
    (onChangeState app (some batch) E).effects
        = (itemEvents E.sharedStates batch ++
            (if batch = [] then [] else [(Channel.changeset, JSValue.undefined)])).flatMap
            (fun ev => (_do_callbacks app ev.1 ev.2 none E).effects)
      ∧ (itemEvents E.sharedStates batch).length = effectiveCount E.sharedStates batch
      ∧ (∀ ev ∈ itemEvents E.sharedStates batch,
          ev.1 = Channel.change ∨ ev.1 = Channel.remove)
      ∧ (∀ it : ChangeItem, it.key ∉ JSObject.prototypeNames →
          effective E.sharedStates it = false →
          onChangeState.item app it E = { state := E, effects := [] }) := by
  refine ⟨?_, itemEvents_length _ _, itemEvents_channel _ _, ?_⟩
  · rw [onChangeState_eq app batch E hkeys]
    simp only [do_callbacks_live, batchEvents]
    cases batch <;> simp
  · intro it hkey hit
    rw [onChangeState_item_eq app it E hkey, applyItem_of_not_effective _ _ hit]
    simp [hit]

/-- C2 (witness): on the store `{k: 1, j: 0}` the batch "set k = 1, set a = 2, remove j"
has two effective items; the handler receives the change of `a`, the removal of `j`, and
then the changeset. -/
theorem C2_events_of_batch_witness :
    probeKJ.sharedStates.hasOwnProperty "hasOwnProperty" = false
    ∧ (∀ it ∈ threeItems, it.key ∉ JSObject.prototypeNames)
    ∧ effectiveCount probeKJ.sharedStates threeItems = 2
    ∧ (onChangeState App.quiet (some threeItems) probeKJ).effects
        = [Effect.call 1 none (stateEvent "a" (JSValue.num 2) "add"),
           Effect.call 1 none (stateEvent "j" (JSValue.num 0) "delete"),
           Effect.call 1 none JSValue.undefined]
    ∧ (itemEvents probeKJ.sharedStates threeItems).length
        = effectiveCount probeKJ.sharedStates threeItems :=
  ⟨by decide, by decide, by decide, by decide,
    (C2_events_of_batch App.quiet probeKJ threeItems (by decide) (by decide)).2.1⟩

/-- How the names of `Object.prototype` come out, with a handler listening: on an empty
store the item "set `__proto__` = 1" is delivered typed "update" and stores nothing, so
its repetition is delivered again; "set `toString` = 1" is delivered typed "update" and
stores the entry. -/
theorem onChangeState_inherited_names :
    (onChangeState App.quiet (some [⟨"set", "__proto__", JSValue.num 1⟩])
        (probeEngine [])).effects
      = [Effect.call 1 none (stateEvent "__proto__" (JSValue.num 1) "update"),
         Effect.call 1 none JSValue.undefined]
    ∧ (onChangeState App.quiet (some [⟨"set", "__proto__", JSValue.num 1⟩])
        (probeEngine [])).state.sharedStates = []
    ∧ (onChangeState App.quiet
        (some [⟨"set", "__proto__", JSValue.num 1⟩, ⟨"set", "__proto__", JSValue.num 1⟩])
        (probeEngine [])).effects
      = [Effect.call 1 none (stateEvent "__proto__" (JSValue.num 1) "update"),
         Effect.call 1 none (stateEvent "__proto__" (JSValue.num 1) "update"),
         Effect.call 1 none JSValue.undefined]
    ∧ (onChangeState App.quiet (some [⟨"set", "toString", JSValue.num 1⟩])
        (probeEngine [])).effects
      = [Effect.call 1 none (stateEvent "toString" (JSValue.num 1) "update"),
         Effect.call 1 none JSValue.undefined]
    ∧ (onChangeState App.quiet (some [⟨"set", "toString", JSValue.num 1⟩])
        (probeEngine [])).state.sharedStates = [("toString", JSValue.num 1)] := by
  decide

/-- C3 (evaluation at the failing input): the store holds `k`; the batch sets `k` without
a value and then sets `k` to 2. When the second item is reached `k` is still a property of
the store (it is listed by `Object.keys`), yet the change event for the second item is
typed "add". -/
theorem C3_add_for_present_key :
    (onChangeState.loop App.quiet [⟨"set", "k", JSValue.undefined⟩]
        (probeEngine [("k", JSValue.num 1)])).state.sharedStates.hasOwnProperty "k" = true
    ∧ JSObject.keys (onChangeState.loop App.quiet [⟨"set", "k", JSValue.undefined⟩]
        (probeEngine [("k", JSValue.num 1)])).state.sharedStates = ["k"]
    ∧ (onChangeState App.quiet
        (some [⟨"set", "k", JSValue.undefined⟩, ⟨"set", "k", JSValue.num 2⟩])
        (probeEngine [("k", JSValue.num 1)])).effects
      = [Effect.call 1 none (stateEvent "k" JSValue.undefined "update"),
         Effect.call 1 none (stateEvent "k" (JSValue.num 2) "add"),
         Effect.call 1 none JSValue.undefined] := by
  decide

/-! ## The readystate machine -/

theorem readystate_found_iff (v : JSValue) :
    STATE.foldl (fun found kv => if STATE.get kv.1 = v then true else found) false = true
      ↔ recognized v := by
  have hc : JSObject.get [("CONNECTING", JSValue.str "connecting"),
      ("OPEN", JSValue.str "open"), ("CLOSED", JSValue.str "closed")] "CONNECTING"
      = JSValue.str "connecting" := by decide
  have ho : JSObject.get [("CONNECTING", JSValue.str "connecting"),
      ("OPEN", JSValue.str "open"), ("CLOSED", JSValue.str "closed")] "OPEN"
      = JSValue.str "open" := by decide
  have hx : JSObject.get [("CONNECTING", JSValue.str "connecting"),
      ("OPEN", JSValue.str "open"), ("CLOSED", JSValue.str "closed")] "CLOSED"
      = JSValue.str "closed" := by decide
  simp only [STATE, List.foldl, hc, ho, hx, recognized]
  by_cases h1 : JSValue.str "connecting" = v
  · subst h1; simp
  · by_cases h2 : JSValue.str "open" = v
    · subst h2; simp
    · by_cases h3 : JSValue.str "closed" = v
      · subst h3; simp
      · have h1' : v ≠ JSValue.str "connecting" := fun h => h1 h.symm
        have h2' : v ≠ JSValue.str "open" := fun h => h2 h.symm
        have h3' : v ≠ JSValue.str "closed" := fun h => h3 h.symm
        simp [h1, h2, h3, h1', h2', h3']

theorem readystate_set_of_not_recognized (app : App) (v : JSValue) (E : Engine)
    (h : ¬ recognized v) :
    readystate.set app v E = { state := E, thrown := some (Thrown.illegalStateValue v) } := by
  have hf : STATE.foldl (fun found kv => if STATE.get kv.1 = v then true else found) false
      = false := by
    rw [← Bool.not_eq_true, readystate_found_iff]; exact h
  simp only [readystate.set, hf, Bool.not_false, if_true]

theorem readystate_set_of_recognized (app : App) (v : JSValue) (E : Engine)
    (h : recognized v) :
    readystate.set app v E =
      if E.readystate = JSValue.str "closed" then { state := E }
      else if v = E.readystate then { state := E }
      else { state := { E with readystate := v },
             effects := liveDelivery app Channel.readystatechange v E } := by
  have hf := (readystate_found_iff v).2 h
  have hc : STATE.get "CLOSED" = JSValue.str "closed" := by decide
  simp only [readystate.set, hf, hc, do_callbacks_live]
  by_cases h1 : E.readystate = JSValue.str "closed"
  · simp [h1]
  · by_cases h2 : v = E.readystate
    · simp [h1, h2]
    · simp [h1, h2]
      rfl

theorem readystate_setAll_closed (app : App) (vs : List JSValue) (E : Engine)
    (hvs : ∀ v ∈ vs, recognized v) (hclosed : E.readystate = JSValue.str "closed") :
    readystate.setAll app vs E = { state := E } := by
  induction vs with
  | nil => rfl
  | cons v rest ih =>
    have hv := hvs v (List.mem_cons_self _ _)
    have ih2 := ih (fun w hw => hvs w (List.mem_cons_of_mem _ hw))
    simp only [readystate.setAll, List.foldl_cons, Outcome.andThen_pure] at ih2 ⊢
    rw [readystate_set_of_recognized app v E hv]
    simpa [hclosed] using ih2

/-- C4: once the readystate is CLOSED it stays CLOSED: for every sequence of
`readystate.set` calls with recognised values made in a state whose readystate is
"closed", no call throws, the engine state after the sequence is the state before it (so
`get()` still returns "closed") and nothing is delivered on `readystatechange`. -/
theorem C4_closed_is_absorbing (app : App) (E : Engine) (vs : List JSValue)
    (hvs : ∀ v ∈ vs, recognized v) (hclosed : readystate.get E = JSValue.str "closed") :
    (readystate.setAll app vs E).state = E
      ∧ (readystate.setAll app vs E).effects = []
      ∧ (readystate.setAll app vs E).thrown = none
      ∧ readystate.get (readystate.setAll app vs E).state = JSValue.str "closed" := by
  rw [readystate_setAll_closed app vs E hvs hclosed]
  exact ⟨rfl, rfl, rfl, hclosed⟩

/-- C4 (witness): the scenario of the specification. From the initial state, with a
handler listening on `readystatechange`, after `set("open")`, `set("connecting")`,
`set("closed")` the readystate is "closed", and the final `set("open")` changes nothing and
delivers nothing. -/
theorem C4_closed_is_absorbing_witness :
    (∀ v ∈ [JSValue.str "open"], recognized v)
    ∧ readystate.get (readystate.setAll App.quiet
        [JSValue.str "open", JSValue.str "connecting", JSValue.str "closed"]
        { callbacks := { readystatechange := [1] } }).state = JSValue.str "closed"
    ∧ (let E3 := (readystate.setAll App.quiet
        [JSValue.str "open", JSValue.str "connecting", JSValue.str "closed"]
        { callbacks := { readystatechange := [1] } }).state
      (readystate.setAll App.quiet [JSValue.str "open"] E3).state = E3
      ∧ (readystate.setAll App.quiet [JSValue.str "open"] E3).effects = []
      ∧ (readystate.setAll App.quiet [JSValue.str "open"] E3).thrown = none
      ∧ readystate.get (readystate.setAll App.quiet [JSValue.str "open"] E3).state
          = JSValue.str "closed") :=
  ⟨by decide, by decide,
    C4_closed_is_absorbing App.quiet _ [JSValue.str "open"] (by decide) (by decide)⟩

/-- C5: `readystate.set(v)` throws if and only if `v` is not one of "connecting", "open",
"closed"; when it throws the engine state is unchanged and nothing is delivered; the
readystate of a fresh instance is "connecting". -/
theorem C5_set_throws_iff_unrecognized (app : App) (v : JSValue) (E : Engine) :
    ((readystate.set app v E).thrown ≠ none ↔ ¬ recognized v)
      ∧ ((readystate.set app v E).thrown = none
          ∨ ((readystate.set app v E).state = E ∧ (readystate.set app v E).effects = []))
      ∧ (∀ options : Options, readystate.get (Engine.initial options) = STATE.get "CONNECTING")
      := by
  refine ⟨?_, ?_, fun _ => rfl⟩
  · by_cases h : recognized v
    · rw [readystate_set_of_recognized app v E h]
      simp only [h, not_true_eq_false, iff_false, not_not]
      split
      · rfl
      · split <;> rfl
    · rw [readystate_set_of_not_recognized app v E h]
      simp [h]
  · by_cases h : recognized v
    · left
      rw [readystate_set_of_recognized app v E h]
      split
      · rfl
      · split <;> rfl
    · right
      rw [readystate_set_of_not_recognized app v E h]
      exact ⟨rfl, rfl⟩

/-- C6: in a state whose readystate `s` is not CLOSED, `readystate.set(v)` with a
recognised `v` returns normally and leaves the readystate at `v`; if `v` differs from `s`
it makes exactly one live delivery on `readystatechange` with payload `v`, and if `v`
equals `s` it delivers nothing and changes nothing. -/
theorem C6_set_commits_and_fires (app : App) (E : Engine) (v : JSValue)
    (hs : readystate.get E ≠ STATE.get "CLOSED") (hv : recognized v) :
    readystate.get (readystate.set app v E).state = v
      ∧ (readystate.set app v E).thrown = none
      ∧ (v ≠ readystate.get E →
          (readystate.set app v E).effects
            = (_do_callbacks app Channel.readystatechange v none E).effects
          ∧ (readystate.set app v E).state = { E with readystate := v })
      ∧ (v = readystate.get E →
          (readystate.set app v E).effects = [] ∧ (readystate.set app v E).state = E) := by
  have hc : STATE.get "CLOSED" = JSValue.str "closed" := by decide
  rw [hc] at hs
  simp only [readystate.get] at hs ⊢
  rw [readystate_set_of_recognized app v E hv]
  by_cases h2 : v = E.readystate
  · simp [hs, h2]
  · simp [hs, h2, do_callbacks_live]

/-- C6 (witness): from "connecting", `set("open")` with two listeners on
`readystatechange`, one of which still awaits its replay: the readystate becomes "open"
and the other listener is called once with "open". -/
theorem C6_set_commits_and_fires_witness :
    readystate.get twoListeners ≠ STATE.get "CLOSED"
    ∧ recognized (JSValue.str "open")
    ∧ (readystate.set App.quiet (JSValue.str "open") twoListeners).effects
        = [Effect.call 1 none (JSValue.str "open")]
    ∧ readystate.get (readystate.set App.quiet (JSValue.str "open") twoListeners).state
        = JSValue.str "open" :=
  ⟨by decide, by decide, by decide,
    (C6_set_commits_and_fires App.quiet twoListeners (JSValue.str "open")
      (by decide) (by decide)).1⟩

/-! ## Targeted delivery and the deferred replay -/

theorem setPending_false_idem (E : Engine) (h : Handler) (what : Channel) :
    (E.setPending h what false).setPending h what false = E.setPending h what false := by
  simp [Engine.setPending, List.filter_filter]

theorem invoke_setPending (app : App) (what : Channel) (h g : Handler) (e : JSValue)
    (E : Engine) (c : Channel) (b : Bool) :
    invoke app what h e (E.setPending g c b) = invoke app what h e E := by
  unfold invoke Engine.setPending Engine.ctxOf
  cases b
  · rfl
  · by_cases hm : (g, c) ∈ E.pending <;> simp [hm]

theorem doCallbacksLoop_target (app : App) (what : Channel) (e : JSValue) (g : Handler)
    (l : List Handler) (E : Engine) :
    doCallbacksLoop app what e (some g) l E =
      { state := if g ∈ l then E.setPending g what false else E,
        effects := (l.filter (fun h => h = g)).flatMap (fun h => invoke app what h e E) } := by
  induction l generalizing E with
  | nil => simp [doCallbacksLoop]
  | cons h rest ih =>
    by_cases hg : h = g
    · subst hg
      simp only [doCallbacksLoop, if_true, ih, setPending_false_idem, invoke_setPending]
      simp
    · have hg2 : ¬ g = h := fun x => hg x.symm
      simp [doCallbacksLoop, hg, hg2, ih]

theorem do_callbacks_target (app : App) (what : Channel) (e : JSValue) (g : Handler)
    (E : Engine) :
    _do_callbacks app what e (some g) E =
      { state := afterTarget what g E, effects := targetEffects app what e g E } := by
  simp [_do_callbacks, doCallbacksLoop_target, afterTarget, targetEffects]

theorem afterTarget_idem (what : Channel) (g : Handler) (E : Engine) :
    afterTarget what g (afterTarget what g E) = afterTarget what g E := by
  unfold afterTarget
  by_cases hm : g ∈ E.callbacks.get what
  · have hcb : (E.setPending g what false).callbacks = E.callbacks := rfl
    simp [hm, hcb, setPending_false_idem]
  · simp [hm]

theorem afterTarget_callbacks (what : Channel) (g : Handler) (E : Engine) :
    (afterTarget what g E).callbacks = E.callbacks := by
  unfold afterTarget; split <;> rfl

theorem afterTarget_sharedStates (what : Channel) (g : Handler) (E : Engine) :
    (afterTarget what g E).sharedStates = E.sharedStates := by
  unfold afterTarget; split <;> rfl

theorem afterTarget_presence (what : Channel) (g : Handler) (E : Engine) :
    (afterTarget what g E).presence = E.presence := by
  unfold afterTarget; split <;> rfl

theorem targetEffects_afterTarget (app : App) (what : Channel) (e : JSValue) (g : Handler)
    (E : Engine) :
    targetEffects app what e g (afterTarget what g E) = targetEffects app what e g E := by
  unfold targetEffects
  rw [afterTarget_callbacks]
  unfold afterTarget
  split
  · simp only [invoke_setPending]
  · rfl

theorem targetEffects_of_not_mem (app : App) (what : Channel) (e : JSValue) (g : Handler)
    (E : Engine) (h : g ∉ E.callbacks.get what) : targetEffects app what e g E = [] := by
  unfold targetEffects
  have hf : (E.callbacks.get what).filter (fun h => h = g) = [] := by
    rw [List.filter_eq_nil_iff]
    intro a ha
    simp only [decide_eq_true_eq]
    rintro rfl
    exact h ha
  simp [hf]

theorem targetEffects_of_mem_nodup (app : App) (what : Channel) (e : JSValue) (g : Handler)
    (E : Engine) (h : g ∈ E.callbacks.get what) (hnd : (E.callbacks.get what).Nodup) :
    targetEffects app what e g E = invoke app what g e E := by
  unfold targetEffects
  have hf : (E.callbacks.get what).filter (fun h => h = g) = [g] := by
    have hc : (E.callbacks.get what).count g = 1 := List.count_eq_one_of_mem hnd h
    have := List.filter_eq (E.callbacks.get what) g
    rw [hc] at this
    simpa [List.replicate] using this
  simp [hf]

/-- The replay loop of the deferred task: one targeted delivery per key. -/
theorem replay_fold_eq (app : App) (what : Channel) (g : Handler)
    (ev : Engine → String → JSValue)
    (hev : ∀ E k, ev (afterTarget what g E) k = ev E k)
    (keys : List String) (E : Engine) (acc : List Effect) :
    keys.foldl (fun (r : Outcome) k => r.andThen (fun E1 =>
        _do_callbacks app what (ev E1 k) (some g) E1)) { state := E, effects := acc }
      = ({ state := if keys = [] then E else afterTarget what g E,
           effects := acc ++ keys.flatMap (fun k => targetEffects app what (ev E k) g E) }
          : Outcome) := by
  induction keys generalizing E acc with
  | nil => simp
  | cons k rest ih =>
    have hstep : (Outcome.andThen { state := E, effects := acc } (fun E1 =>
        _do_callbacks app what (ev E1 k) (some g) E1))
        = { state := afterTarget what g E,
            effects := acc ++ targetEffects app what (ev E k) g E } := by
      simp [Outcome.andThen, do_callbacks_target]
    rw [List.foldl_cons, hstep, ih]
    simp only [afterTarget_idem, hev, targetEffects_afterTarget]
    cases rest <;> simp

theorem deferred_change_eq (app : App) (h : Handler) (E : Engine) :
    addEventListener.deferred app Channel.change h E =
      if JSObject.keys E.sharedStates = [] then
        { state := E.setPending h Channel.change false }
      else
        { state := afterTarget Channel.change h E,
          effects := (JSObject.keys E.sharedStates).flatMap (fun k =>
            targetEffects app Channel.change
              (stateEvent k (E.sharedStates.get k) "update") h E) } := by
  unfold addEventListener.deferred
  by_cases hk : JSObject.keys E.sharedStates = []
  · simp [hk]
  · have hlen : ¬ (JSObject.keys E.sharedStates).length = 0 := by
      simpa [List.length_eq_zero] using hk
    simp only [hlen, if_false, hk]
    have := replay_fold_eq app Channel.change h
      (fun E1 k => stateEvent k (E1.sharedStates.get k) "update")
      (fun E1 k => by simp only [afterTarget_sharedStates])
      (JSObject.keys E.sharedStates) E []
    simpa [hk] using this

theorem deferred_presence_eq (app : App) (h : Handler) (E : Engine) :
    addEventListener.deferred app Channel.presence h E =
      if JSObject.keys E.presence = [] then
        { state := E.setPending h Channel.presence false }
      else
        { state := afterTarget Channel.presence h E,
          effects := (JSObject.keys E.presence).flatMap (fun k =>
            targetEffects app Channel.presence
              (presenceEvent k (E.presence.get k)) h E) } := by
  unfold addEventListener.deferred
  by_cases hk : JSObject.keys E.presence = []
  · simp [hk]
  · have hlen : ¬ (JSObject.keys E.presence).length = 0 := by
      simpa [List.length_eq_zero] using hk
    simp only [hlen, if_false, hk]
    have := replay_fold_eq app Channel.presence h
      (fun E1 k => presenceEvent k (E1.presence.get k))
      (fun E1 k => by simp only [afterTarget_presence])
      (JSObject.keys E.presence) E []
    simpa [hk] using this

/-- A deferred replay for a handler that is not registered on the channel invokes nobody. -/
theorem deferred_of_not_mem (app : App) (what : Channel) (h : Handler) (E : Engine)
    (hmem : h ∉ E.callbacks.get what) :
    (addEventListener.deferred app what h E).effects = []
      ∧ (addEventListener.deferred app what h E).thrown = none := by
  cases what
  · rw [deferred_change_eq]
    split
    · exact ⟨rfl, rfl⟩
    · simp [targetEffects_of_not_mem app _ _ h E hmem]
  · exact ⟨rfl, rfl⟩
  · simp [addEventListener.deferred, do_callbacks_target,
      targetEffects_of_not_mem app _ _ h E hmem]
  · rw [deferred_presence_eq]
    split
    · exact ⟨rfl, rfl⟩
    · simp [targetEffects_of_not_mem app _ _ h E hmem]
  · simp [addEventListener.deferred, do_callbacks_target,
      targetEffects_of_not_mem app _ _ h E hmem]

/-! ## Enumeration order of an object -/

namespace JSObject

theorem indexed_map_snd (o : JSObject) :
    (o.filterMap (fun kv => (arrayIndex? kv.1).map (fun n => (n, kv.1)))).map Prod.snd
      = (o.filter (fun kv => (arrayIndex? kv.1).isSome)).map Prod.fst := by
  induction o with
  | nil => rfl
  | cons p rest ih =>
    cases hp : arrayIndex? p.1 with
    | none => simp [List.filterMap_cons, List.filter_cons, hp, ih]
    | some n => simp [List.filterMap_cons, List.filter_cons, hp, ih]

theorem keys_perm (o : JSObject) : (keys o).Perm (o.map Prod.fst) := by
  unfold keys
  have h1 := (List.perm_insertionSort (fun a b : Nat × String => a.1 ≤ b.1)
    (o.filterMap (fun kv => (arrayIndex? kv.1).map (fun n => (n, kv.1))))).map Prod.snd
  rw [indexed_map_snd] at h1
  have h2 : (o.filter (fun kv => (arrayIndex? kv.1).isNone))
      = o.filter (fun kv => !(arrayIndex? kv.1).isSome) := by
    congr 1; funext kv; cases arrayIndex? kv.1 <;> rfl
  rw [h2]
  have h3 := (List.filter_append_perm (fun kv : String × JSValue => (arrayIndex? kv.1).isSome)
    o).map Prod.fst
  rw [List.map_append] at h3
  exact (List.Perm.append_right _ h1).trans h3

theorem own_of_mem (o : JSObject) (hnd : (o.map Prod.fst).Nodup) (kv : String × JSValue)
    (hkv : kv ∈ o) : o.own kv.1 = kv.2 := by
  induction o with
  | nil => simp at hkv
  | cons p rest ih =>
    obtain ⟨k', w⟩ := p
    simp only [List.map_cons, List.nodup_cons] at hnd
    rcases List.mem_cons.1 hkv with rfl | hin
    · simp [own]
    · have hne : k' ≠ kv.1 := by
        rintro rfl
        exact hnd.1 (List.mem_map_of_mem Prod.fst hin)
      simp [own, hne, ih hnd.2 hin]

theorem hasOwnProperty_of_mem (o : JSObject) (kv : String × JSValue) (hkv : kv ∈ o) :
    o.hasOwnProperty kv.1 = true := by
  induction o with
  | nil => simp at hkv
  | cons p rest ih =>
    obtain ⟨k', w⟩ := p
    rcases List.mem_cons.1 hkv with rfl | hin
    · simp [hasOwnProperty]
    · by_cases hk : k' = kv.1
      · simp [hasOwnProperty, hk]
      · simp [hasOwnProperty, hk, ih hin]

theorem get_of_mem (o : JSObject) (hnd : (o.map Prod.fst).Nodup) (kv : String × JSValue)
    (hkv : kv ∈ o) : o.get kv.1 = kv.2 := by
  rw [get_of_hasOwnProperty o kv.1 (hasOwnProperty_of_mem o kv hkv), own_of_mem o hnd kv hkv]

/-- The pairs `(k, o[k])` for `k` in `Object.keys(o)` are the entries of `o`, each once. -/
theorem keys_entries_perm (o : JSObject) (hnd : (o.map Prod.fst).Nodup) :
    ((keys o).map (fun k => (k, o.get k))).Perm o := by
  have h1 := (keys_perm o).map (fun k => (k, o.get k))
  have h2 : (o.map Prod.fst).map (fun k => (k, o.get k)) = o := by
    rw [List.map_map]
    conv_rhs => rw [← List.map_id o]
    apply List.map_congr_left
    intro kv hkv
    simp only [Function.comp, id]
    rw [get_of_mem o hnd kv hkv]
  rw [h2] at h1
  exact h1

end JSObject

/-! ## Registration -/

theorem Channel.ofName?_name (what : Channel) : Channel.ofName? what.name = some what := by
  cases what <;> decide

theorem Channel.ofName?_eq_none_iff (what : String) :
    Channel.ofName? what = none ↔ what ∉ channelNames := by
  simp only [Channel.ofName?, List.find?_eq_none, Channel.all, channelNames]
  simp [Channel.name]
  constructor
  · rintro ⟨h1, h2, h3, h4, h5⟩
    exact ⟨fun h => h1 h.symm, fun h => h2 h.symm, fun h => h3 h.symm, fun h => h4 h.symm,
      fun h => h5 h.symm⟩
  · rintro ⟨h1, h2, h3, h4, h5⟩
    exact ⟨fun h => h1 h.symm, fun h => h2 h.symm, fun h => h3 h.symm, fun h => h4 h.symm,
      fun h => h5 h.symm⟩

theorem Callbacks.get_put (cb : Callbacks) (what : Channel) (l : List Handler) :
    (cb.put what l).get what = l := by
  cases what <;> rfl

theorem setCtx_callbacks (E : Engine) (h : Handler) (v : JSValue) :
    (E.setCtx h v).callbacks = E.callbacks := rfl

theorem setPending_callbacks (E : Engine) (h : Handler) (what : Channel) (b : Bool) :
    (E.setPending h what b).callbacks = E.callbacks := by
  unfold Engine.setPending
  cases b
  · rfl
  · by_cases hm : (h, what) ∈ E.pending <;> simp [hm]

/-- The registry of the channel after `on(what, h, ctx, skip)`. -/
theorem addEventListener_callbacks (what : Channel) (h : Handler) (ctx : JSValue)
    (skip : Bool) (E : Engine) :
    (addEventListener what.name (HandlerArg.fn h) ctx skip E).state.callbacks.get what
      = if h ∈ E.callbacks.get what then E.callbacks.get what
        else E.callbacks.get what ++ [h] := by
  unfold addEventListener
  simp only [Channel.ofName?_name]
  have hcb : (if ctx.toBoolean = true then E.setCtx h ctx else E).callbacks = E.callbacks := by
    split <;> rfl
  by_cases hm : h ∈ E.callbacks.get what
  · simp [hcb, hm]
  · cases skip
    · simp [hcb, hm, Callbacks.get_put]
      rw [setPending_callbacks]
      simp [Callbacks.get_put]
    · simp [hcb, hm, Callbacks.get_put]

/-- The registry of the channel after `off(what, h)`. -/
theorem off_callbacks (what : Channel) (h : Handler) (E : Engine) :
    (off what.name (HandlerArg.fn h) E).state.callbacks.get what
      = (E.callbacks.get what).erase h := by
  unfold off
  simp only [Channel.ofName?_name]
  by_cases hm : h ∈ E.callbacks.get what
  · simp [hm, Callbacks.get_put]
  · simp [hm, List.erase_of_not_mem hm]

theorem not_mem_off_addEventListener (what : Channel) (h : Handler) (ctx : JSValue)
    (skip : Bool) (E : Engine) (hnd : (E.callbacks.get what).Nodup) :
    h ∉ (off what.name (HandlerArg.fn h)
      (addEventListener what.name (HandlerArg.fn h) ctx skip E).state).state.callbacks.get what
      := by
  rw [off_callbacks, addEventListener_callbacks]
  by_cases hm : h ∈ E.callbacks.get what
  · simp only [hm, if_true]
    exact List.Nodup.not_mem_erase hnd
  · simp only [hm, if_false]
    apply List.Nodup.not_mem_erase
    exact List.Nodup.append hnd (List.nodup_singleton h) (by simpa using hm)

theorem isPending_setPending_true (E : Engine) (h : Handler) (what : Channel) :
    (E.setPending h what true).isPending h what = true := by
  unfold Engine.setPending Engine.isPending
  by_cases hp : (h, what) ∈ E.pending <;> simp [hp]

theorem setPending_timers (E : Engine) (h : Handler) (what : Channel) (b : Bool) :
    (E.setPending h what b).timers = E.timers := by
  unfold Engine.setPending
  cases b
  · rfl
  · by_cases hm : (h, what) ∈ E.pending <;> simp [hm]

/-- What `on(what, h, ctx)` does for a handler that is not yet registered on the channel. -/
theorem addEventListener_fresh (what : Channel) (h : Handler) (ctx : JSValue) (E0 : Engine)
    (hnew : h ∉ E0.callbacks.get what) :
    (addEventListener what.name (HandlerArg.fn h) ctx false E0).effects = []
      ∧ (addEventListener what.name (HandlerArg.fn h) ctx false E0).thrown = none
      ∧ (addEventListener what.name (HandlerArg.fn h) ctx false E0).state.callbacks.get what
          = E0.callbacks.get what ++ [h]
      ∧ (addEventListener what.name (HandlerArg.fn h) ctx false E0).state.isPending h what
          = true
      ∧ (addEventListener what.name (HandlerArg.fn h) ctx false E0).state.timers
          = E0.timers ++ [(what, h)] := by
  have hcbs := addEventListener_callbacks what h ctx false E0
  simp only [hnew, if_false] at hcbs
  have hcb : (E0.setCtx h ctx).callbacks = E0.callbacks := rfl
  refine ⟨?_, ?_, hcbs, ?_, ?_⟩
  · cases hctx : ctx.toBoolean <;>
      simp [addEventListener, Channel.ofName?_name, hctx, hcb, hnew]
  · cases hctx : ctx.toBoolean <;>
      simp [addEventListener, Channel.ofName?_name, hctx, hcb, hnew]
  · cases hctx : ctx.toBoolean
    · simp only [addEventListener, Channel.ofName?_name, hctx, Bool.false_eq_true, if_false,
        hnew]
      simp only [Engine.isPending, Engine.setPending, if_true]
      by_cases hp : (h, what) ∈ E0.pending <;> simp [hp]
    · simp only [addEventListener, Channel.ofName?_name, hctx, if_true, hcb, hnew, if_false,
        Bool.false_eq_true]
      simp only [Engine.isPending, Engine.setPending, if_true]
      by_cases hp : (h, what) ∈ (E0.setCtx h ctx).pending <;> simp [hp]
  · cases hctx : ctx.toBoolean
    · simp only [addEventListener, Channel.ofName?_name, hctx, Bool.false_eq_true, if_false,
        hnew]
    · simp only [addEventListener, Channel.ofName?_name, hctx, if_true, hcb, hnew, if_false,
        Bool.false_eq_true]
      rfl

/-- C7: the deferred replay of a `change` registration, run in any state in which the
handler `h` is (still, once) registered on `change`: `h` is invoked once per key of
`Object.keys(_sharedStates)` with the synthetic event `{key, value, type: "update"}` built
from the store as it is when the task runs; these pairs are the entries of the store,
each once; no other handler is invoked; afterwards the replay-pending flag of `h` is
cleared and nothing else has changed (with an empty store that is all that happens). And
`on("change", h)` for a handler not yet registered invokes nobody itself, registers `h`
once, flags it and schedules that task. -/
theorem C7_change_replay (app : App) (h : Handler) (E : Engine)
    (hmem : h ∈ E.callbacks.get Channel.change)
    (hnd : (E.callbacks.get Channel.change).Nodup)
    (hkeys : (E.sharedStates.map Prod.fst).Nodup) :
    (addEventListener.deferred app Channel.change h E).effects
        = (JSObject.keys E.sharedStates).flatMap (fun k =>
            invoke app Channel.change h (stateEvent k (E.sharedStates.get k) "update") E)
      ∧ ((JSObject.keys E.sharedStates).map (fun k => (k, E.sharedStates.get k))).Perm
          E.sharedStates
      ∧ (∀ eff ∈ (addEventListener.deferred app Channel.change h E).effects,
          ∀ g t e, eff = Effect.call g t e → g = h)
      ∧ (addEventListener.deferred app Channel.change h E).state
          = E.setPending h Channel.change false
      ∧ (addEventListener.deferred app Channel.change h E).thrown = none
      ∧ (∀ (E0 : Engine) (ctx : JSValue), h ∉ E0.callbacks.get Channel.change →
          (addEventListener "change" (HandlerArg.fn h) ctx false E0).effects = []
          ∧ (addEventListener "change" (HandlerArg.fn h) ctx false E0).thrown = none
          ∧ (addEventListener "change" (HandlerArg.fn h) ctx false E0).state.callbacks.get
              Channel.change = E0.callbacks.get Channel.change ++ [h]
          ∧ (addEventListener "change" (HandlerArg.fn h) ctx false E0).state.isPending h
              Channel.change = true
          ∧ (addEventListener "change" (HandlerArg.fn h) ctx false E0).state.timers
              = E0.timers ++ [(Channel.change, h)]) := by
  have heff : (addEventListener.deferred app Channel.change h E).effects
      = (JSObject.keys E.sharedStates).flatMap (fun k =>
          invoke app Channel.change h (stateEvent k (E.sharedStates.get k) "update") E) := by
    rw [deferred_change_eq]
    split
    · next hk => simp [hk]
    · simp only [targetEffects_of_mem_nodup app _ _ h E hmem hnd]
  refine ⟨heff, JSObject.keys_entries_perm _ hkeys, ?_, ?_, ?_, ?_⟩
  · rw [heff]
    intro eff heffm g t e he
    subst he
    simp only [List.mem_flatMap, invoke, List.mem_cons] at heffm
    obtain ⟨k, _, hk⟩ := heffm
    rcases hk with hk | hk
    · injection hk
    · split at hk <;> simp at hk
  · rw [deferred_change_eq]
    split
    · rfl
    · simp [afterTarget, hmem]
  · rw [deferred_change_eq]
    split <;> rfl
  · intro E0 ctx hnew
    exact addEventListener_fresh Channel.change h ctx E0 hnew

/-- C7 (witness): the store is `{a: 1, b: 2}` when the task of handler 1 runs; handler 1
receives exactly `{key: "a", value: 1, type: "update"}` and then
`{key: "b", value: 2, type: "update"}`, the older handler 2 receives nothing. -/
theorem C7_change_replay_witness :
    (1 ∈ replayEngine.callbacks.get Channel.change
      ∧ (replayEngine.callbacks.get Channel.change).Nodup
      ∧ (replayEngine.sharedStates.map Prod.fst).Nodup)
    ∧ (addEventListener.deferred App.quiet Channel.change 1 replayEngine).effects
        = [Effect.call 1 none (stateEvent "a" (JSValue.num 1) "update"),
           Effect.call 1 none (stateEvent "b" (JSValue.num 2) "update")]
    ∧ (addEventListener.deferred App.quiet Channel.change 1 replayEngine).state
        = replayEngine.setPending 1 Channel.change false :=
  ⟨by decide, by decide,
    (C7_change_replay App.quiet 1 replayEngine (by decide) (by decide) (by decide)).2.2.2.1⟩

/-- C8: when `off(what, h)` follows `on(what, h)`, the handler is no longer registered on
the channel; and in every state whose registry for the channel is the one `off` left -
whatever the stores, the readystate and the rest of the state - the deferred replay task
of that registration invokes no handler at all, so `h` receives nothing. -/
theorem C8_off_cancels_replay (app : App) (what : Channel) (h : Handler) (ctx : JSValue)
    (E0 E : Engine) (hnd : (E0.callbacks.get what).Nodup)
    (hE : E.callbacks.get what
      = (off what.name (HandlerArg.fn h)
          (addEventListener what.name (HandlerArg.fn h) ctx false E0).state).state.callbacks.get
          what) :
    h ∉ E.callbacks.get what
      ∧ (addEventListener.deferred app what h E).effects = []
      ∧ (addEventListener.deferred app what h E).thrown = none := by
  have hmem : h ∉ E.callbacks.get what := by
    rw [hE]; exact not_mem_off_addEventListener what h ctx false E0 hnd
  exact ⟨hmem, deferred_of_not_mem app what h E hmem⟩

/-- C8 (witness): handler 1 is registered on `change` over the store `{a: 1, b: 2}` and
removed again; the store then grows and the readystate changes; the replay task delivers
nothing. -/
theorem C8_off_cancels_replay_witness :
    (storeAB.callbacks.get Channel.change).Nodup
    ∧ 1 ∉ cancelledEngine.callbacks.get Channel.change
    ∧ (addEventListener.deferred App.quiet Channel.change 1 cancelledEngine).effects = []
    ∧ (addEventListener.deferred App.quiet Channel.change 1 cancelledEngine).thrown = none :=
  ⟨by decide,
    C8_off_cancels_replay App.quiet Channel.change 1 JSValue.undefined storeAB
      cancelledEngine (by decide) (by decide)⟩

theorem invoke_filter_isCall (app : App) (what : Channel) (h : Handler) (e : JSValue)
    (E : Engine) :
    (invoke app what h e E).filter Effect.isCall = [Effect.call h (thisArg E h) e] := by
  unfold invoke thisArg
  by_cases ht : app.throws h e = true <;> simp [ht, Effect.isCall]

theorem liveDelivery_calls (app : App) (what : Channel) (e : JSValue) (E : Engine) :
    (liveDelivery app what e E).filter Effect.isCall
      = ((E.callbacks.get what).filter (fun h => !E.isPending h what)).map
          (fun h => Effect.call h (thisArg E h) e) := by
  unfold liveDelivery
  induction (E.callbacks.get what).filter (fun h => !E.isPending h what) with
  | nil => rfl
  | cons h rest ih =>
    simp only [List.flatMap_cons, List.filter_append, invoke_filter_isCall, ih, List.map_cons,
      List.singleton_append]

/-- C9: live delivery of a payload on a channel returns normally whatever the handlers do;
the handlers it invokes are, in registration order and each once per registration, with
that payload, exactly the handlers of the channel whose replay-pending flag for the
channel is not set; a handler that throws only adds a report to the error sink right after
its own invocation; and the engine state after the delivery is the state before it, the
same as when no handler throws. -/
theorem C9_live_delivery (app : App) (what : Channel) (e : JSValue) (E : Engine) :
    (_do_callbacks app what e none E).thrown = none
      ∧ (_do_callbacks app what e none E).effects.filter Effect.isCall
          = ((E.callbacks.get what).filter (fun h => !E.isPending h what)).map
              (fun h => Effect.call h (thisArg E h) e)
      ∧ (_do_callbacks app what e none E).effects
          = ((E.callbacks.get what).filter (fun h => !E.isPending h what)).flatMap
              (fun h => Effect.call h (thisArg E h) e
                :: (if app.throws h e then [Effect.error what h] else []))
      ∧ (_do_callbacks app what e none E).state = E
      ∧ (_do_callbacks app what e none E).state
          = (_do_callbacks App.quiet what e none E).state := by
  rw [do_callbacks_live, do_callbacks_live]
  exact ⟨rfl, liveDelivery_calls app what e E, rfl, rfl, rfl⟩

/-- C10: `on(what, handler, ctx, skip)` throws if and only if `what` is not one of the
five channel names or `handler` is not a function; when it throws, the engine state -
registries, replay-pending flags, handler contexts, scheduled tasks - is unchanged and
nothing is invoked. -/
theorem C10_on_rejects_bad_arguments (what : String) (handler : HandlerArg) (ctx : JSValue)
    (skip : Bool) (E : Engine) :
    ((addEventListener what handler ctx skip E).thrown ≠ none
        ↔ (what ∉ channelNames ∨ handler.isFunction = false))
      ∧ ((addEventListener what handler ctx skip E).thrown = none
          ∨ ((addEventListener what handler ctx skip E).state = E
              ∧ (addEventListener what handler ctx skip E).effects = [])) := by
  cases handler with
  | value v => simp [addEventListener, HandlerArg.isFunction]
  | fn h =>
    cases hc : Channel.ofName? what with
    | none =>
      have hn := (Channel.ofName?_eq_none_iff what).1 hc
      simp [addEventListener, hc, hn, HandlerArg.isFunction]
    | some c =>
      have hn : ¬ what ∉ channelNames := by
        rw [← Channel.ofName?_eq_none_iff, hc]; simp
      have hthrown : (addEventListener what (HandlerArg.fn h) ctx skip E).thrown = none := by
        have hcb : (E.setCtx h ctx).callbacks = E.callbacks := rfl
        cases hctx : ctx.toBoolean <;> by_cases hm : h ∈ E.callbacks.get c <;> cases skip <;>
          simp [addEventListener, hc, hctx, hcb, hm]
      simp [hthrown, hn, HandlerArg.isFunction]

/-! ## Re-registration -/

theorem ctxOf_setCtx (E : Engine) (h : Handler) (v : JSValue) :
    (E.setCtx h v).ctxOf h = v := by
  simp [Engine.ctxOf, Engine.setCtx, List.lookup]

theorem lookup_filter_ne (l : List (Handler × JSValue)) (h g : Handler) (hne : g ≠ h) :
    (l.filter (fun p => p.1 ≠ h)).lookup g = l.lookup g := by
  induction l with
  | nil => rfl
  | cons p rest ih =>
    obtain ⟨a, w⟩ := p
    by_cases ha : a = h
    · have hga : (g == a) = false := by
        rw [ha]; exact beq_false_of_ne hne
      have hf : (((a, w) :: rest).filter (fun p => p.1 ≠ h))
          = rest.filter (fun p => p.1 ≠ h) := by
        simp [List.filter_cons, ha]
      rw [hf, ih]
      simp only [List.lookup, hga]
    · have hf : (((a, w) :: rest).filter (fun p => p.1 ≠ h))
          = (a, w) :: rest.filter (fun p => p.1 ≠ h) := by
        simp [List.filter_cons, ha]
      rw [hf]
      cases hga : (g == a)
      · simp only [List.lookup, hga]
        exact ih
      · simp only [List.lookup, hga]

theorem ctxOf_setCtx_ne (E : Engine) (h g : Handler) (v : JSValue) (hne : g ≠ h) :
    (E.setCtx h v).ctxOf g = E.ctxOf g := by
  have hgh : (g == h) = false := beq_false_of_ne hne
  simp only [Engine.ctxOf, Engine.setCtx, List.lookup, hgh]
  rw [lookup_filter_ne E.ctx h g hne]

/-- The outcome of `on(what, h, ctx, skip)` for a handler already registered on the
channel. -/
theorem addEventListener_registered (what : Channel) (h : Handler) (ctx : JSValue)
    (skip : Bool) (E : Engine) (hreg : h ∈ E.callbacks.get what) :
    addEventListener what.name (HandlerArg.fn h) ctx skip E
      = { state := if ctx.toBoolean then E.setCtx h ctx else E } := by
  have hcb : (E.setCtx h ctx).callbacks = E.callbacks := rfl
  cases hctx : ctx.toBoolean <;>
    simp [addEventListener, Channel.ofName?_name, hctx, hcb, hreg]

/-- C11 (counterexample): handler 2 is registered on `change` with no context; calling
`on("change", h, ctx)` again with a context object changes the context the handler will be
invoked with, so the call is not a no-op. -/
theorem C11_counterexample :
    2 ∈ storeAB.callbacks.get Channel.change
    ∧ storeAB.ctxOf 2 = JSValue.undefined
    ∧ reRegistered.state.ctxOf 2 = JSValue.obj [("name", JSValue.str "view")]
    ∧ reRegistered.state ≠ storeAB
    ∧ (_do_callbacks App.quiet Channel.change JSValue.null none storeAB).effects
        ≠ (_do_callbacks App.quiet Channel.change JSValue.null none reRegistered.state).effects
    := by
  decide

/-- C11 (amended): calling `on(what, h, ctx, skip)` for a handler already registered on
the channel does not throw, invokes nobody, schedules no task and leaves the registries,
the replay-pending flags and everything else unchanged, except that the invocation context
of the handler is replaced by `ctx` when `ctx` is given (truthy); when it is not, the call
is a no-op. The contexts of the other handlers stay as they are. -/
theorem C11_on_again (what : Channel) (h : Handler) (ctx : JSValue) (skip : Bool)
    (E : Engine) (hreg : h ∈ E.callbacks.get what) :
    (addEventListener what.name (HandlerArg.fn h) ctx skip E).thrown = none
      ∧ (addEventListener what.name (HandlerArg.fn h) ctx skip E).effects = []
      ∧ (addEventListener what.name (HandlerArg.fn h) ctx skip E).state
          = { E with ctx := (addEventListener what.name (HandlerArg.fn h) ctx skip E).state.ctx }
      ∧ (addEventListener what.name (HandlerArg.fn h) ctx skip E).state.ctxOf h
          = (if ctx.toBoolean then ctx else E.ctxOf h)
      ∧ (ctx.toBoolean = false →
          (addEventListener what.name (HandlerArg.fn h) ctx skip E).state = E)
      ∧ (∀ g, g ≠ h →
          (addEventListener what.name (HandlerArg.fn h) ctx skip E).state.ctxOf g
            = E.ctxOf g) := by
  rw [addEventListener_registered what h ctx skip E hreg]
  cases hctx : ctx.toBoolean
  · simp
  · simp only [if_true, ctxOf_setCtx, Bool.true_eq_false, false_implies, true_and]
    refine ⟨rfl, fun g hg => ctxOf_setCtx_ne E h g ctx hg⟩

/-- C11 (witness): handler 2 is registered on `change` in `storeAB`; registering it again
with a context object only sets its context. -/
theorem C11_on_again_witness :
    2 ∈ storeAB.callbacks.get Channel.change
    ∧ reRegistered.state = { storeAB with ctx := reRegistered.state.ctx }
    ∧ reRegistered.effects = [] :=
  ⟨by decide,
    (C11_on_again Channel.change 2 (JSValue.obj [("name", JSValue.str "view")]) false storeAB
      (by decide)).2.2.1,
    by decide⟩

/-! ## The write batcher -/

/-- C12: the item `setItem(key, value, options)` produces. With `{cas: true}` it is
`{type: "setInsert", key, value}` (no `oldValue`) when the key is not in the store and
`{type: "setCas", key, value, oldValue}` with the cached value when it is; without options
it is `{type: "set", key, value}`. In bracketed mode the call assigns exactly this item
under the key in the pending map, which then holds it there (the name `__proto__` apart,
under which an assignment creates no property), and sends nothing; in immediate mode, with
the readystate OPEN and a non-empty key, it sends exactly the batch made of this item. -/
theorem C12_setItem_item (key : Key) (value : JSValue) (options : Option JSObject)
    (E : Engine) :
    setItem.state key value casOptions E
        = (if E.sharedStates.hasOwnProperty key.name then
            JSValue.obj [("type", JSValue.str "setCas"), ("key", key.toValue), ("value", value),
              ("oldValue", E.sharedStates.get key.name)]
          else
            JSValue.obj [("type", JSValue.str "setInsert"), ("key", key.toValue),
              ("value", value)])
      ∧ setItem.state key value none E
        = JSValue.obj [("type", JSValue.str "set"), ("key", key.toValue), ("value", value)]
      ∧ (E.request = true →
          (setItem key value options E).state
            = { E with stateChanges :=
                  E.stateChanges.set key.name (setItem.state key value options E) }
          ∧ (key.name ≠ "__proto__" →
              (setItem key value options E).state.stateChanges.get key.name
                = setItem.state key value options E)
          ∧ (setItem key value options E).effects = []
          ∧ (setItem key value options E).thrown = none)
      ∧ (E.request = false → readystate.get E = JSValue.str "open" → key.nonEmpty →
          (setItem key value options E).effects
            = [Effect.emit "changeState" (JSValue.arr [setItem.state key value options E])]
          ∧ (setItem key value options E).thrown = none) := by
  refine ⟨?_, rfl, ?_, ?_⟩
  · have hcas : (JSObject.get [("cas", JSValue.bool true)] "cas").toBoolean = true := by
      decide
    simp [setItem.state, casOptions, hcas]
  · intro hreq
    refine ⟨by simp [setItem, hreq], ?_, by simp [setItem, hreq], by simp [setItem, hreq]⟩
    intro hne
    simp [setItem, hreq, JSObject.get_set_self _ _ _ hne]
  · intro hreq hopen hkey
    obtain ⟨s, rfl, hs⟩ := hkey
    have hO : STATE.get "OPEN" = JSValue.str "open" := by decide
    simp [setItem, hreq, hopen, hO, Key.toValue, JSValue.toBoolean, hs, _sendDatagram]

theorem STATE_OPEN : STATE.get "OPEN" = JSValue.str "open" := by decide

/-- C14 (evaluation at the failing inputs): the key `k` is in the store with the value 0,
`false`, the empty string or `null`; the readystate is OPEN and no bracket is open;
`removeItem("k")` throws and sends nothing. -/
theorem C14_removeItem_falsy_value :
    (∀ v ∈ [JSValue.num 0, JSValue.bool false, JSValue.str "", JSValue.null],
      (openEngine [("k", v)]).sharedStates.hasOwnProperty "k" = true
      ∧ (removeItem (some "k") (openEngine [("k", v)])).thrown
          = some (Thrown.removeItemKey (JSValue.str "k"))
      ∧ (removeItem (some "k") (openEngine [("k", v)])).effects = [])
    ∧ (removeItem (some "k") (openEngine [("k", JSValue.num 1)])).effects
        = [Effect.emit "changeState"
            (JSValue.arr [JSValue.obj [("type", JSValue.str "remove"),
              ("key", JSValue.str "k")]])] := by
  decide

/-- C15 (evaluation at the failing input): the store is empty, the readystate is OPEN and
no bracket is open. `removeItem("toString")` does not throw and sends the remove batch for
`toString`, and so does `removeItem` for every other name of `Object.prototype`, while
`removeItem("missing-key")` throws and sends nothing. The paths that test presence with
`hasOwnProperty` take `toString` for absent: `setItem` with `{cas: true}` tags its item
"setInsert", and an inbound remove item for it removes nothing. In general
`removeItem(key)` throws, sends nothing and changes nothing for every key that is neither
in the store nor a name of `Object.prototype`. -/
theorem C15_removeItem_inherited_name :
    (openEngine []).sharedStates.hasOwnProperty "toString" = false
    ∧ (removeItem (some "toString") (openEngine [])).thrown = none
    ∧ (removeItem (some "toString") (openEngine [])).effects
        = [Effect.emit "changeState"
            (JSValue.arr [JSValue.obj [("type", JSValue.str "remove"),
              ("key", JSValue.str "toString")]])]
    ∧ (∀ k ∈ JSObject.prototypeNames,
        (openEngine []).sharedStates.hasOwnProperty k = false
        ∧ (removeItem (some k) (openEngine [])).thrown = none
        ∧ (removeItem (some k) (openEngine [])).effects
            = [Effect.emit "changeState" (JSValue.arr [removeItem.state (some k)])])
    ∧ (removeItem (some "missing-key") (openEngine [])).thrown
        = some (Thrown.removeItemKey (JSValue.str "missing-key"))
    ∧ (removeItem (some "missing-key") (openEngine [])).effects = []
    ∧ setItem.state (some "toString") (JSValue.num 1) casOptions (openEngine [])
        = JSValue.obj [("type", JSValue.str "setInsert"), ("key", JSValue.str "toString"),
            ("value", JSValue.num 1)]
    ∧ (onChangeState App.quiet (some [⟨"remove", "toString", JSValue.undefined⟩])
        (probeEngine [])).effects = [Effect.call 1 none JSValue.undefined]
    ∧ (∀ (key : Key) (E : Engine), E.sharedStates.hasOwnProperty key.name = false →
        key.name ∉ JSObject.prototypeNames → E.request = false →
        readystate.get E = STATE.get "OPEN" →
          (removeItem key E).thrown = some (Thrown.removeItemKey key.toValue)
          ∧ (removeItem key E).effects = []
          ∧ (removeItem key E).state = E) := by
  refine ⟨by decide, by decide, by decide, by decide, by decide, by decide, by decide,
    by decide, ?_⟩
  intro key E habsent hname himmediate hopen
  have hget : E.sharedStates.get key.name = JSValue.undefined := by
    rw [JSObject.get_of_not_mem _ _ hname, JSObject.own_of_not_hasOwnProperty _ _ habsent]
  simp [removeItem, himmediate, hopen, hget, JSValue.toBoolean]

theorem Key.toBoolean_iff (key : Key) : key.toValue.toBoolean = true ↔ key.nonEmpty := by
  cases key with
  | none => simp [Key.toValue, JSValue.toBoolean, Key.nonEmpty]
  | some s => simp [Key.toValue, JSValue.toBoolean, Key.nonEmpty]

/-- C16: in immediate mode `setItem(key, value, options)` sends exactly one `changeState`
batch made of the single item for `(key, value)`, and returns normally, when the
readystate is OPEN and the key is a non-empty string; in every other case it throws and
sends nothing. The engine state is unchanged either way. -/
theorem C16_setItem_immediate (key : Key) (value : JSValue) (options : Option JSObject)
    (E : Engine) (himmediate : E.request = false) :
    (setItem key value options E).state = E
      ∧ ((readystate.get E = STATE.get "OPEN" ∧ key.nonEmpty) →
          (setItem key value options E).effects
            = [Effect.emit "changeState" (JSValue.arr [setItem.state key value options E])]
          ∧ (setItem key value options E).thrown = none)
      ∧ (¬ (readystate.get E = STATE.get "OPEN" ∧ key.nonEmpty) →
          (setItem key value options E).effects = []
          ∧ (setItem key value options E).thrown ≠ none) := by
  by_cases hopen : readystate.get E = STATE.get "OPEN"
  · by_cases hkey : key.nonEmpty
    · have hb := (Key.toBoolean_iff key).2 hkey
      simp [setItem, himmediate, hopen, hkey, hb, _sendDatagram]
    · have hb : key.toValue.toBoolean = false := by
        rw [← Bool.not_eq_true, Key.toBoolean_iff]; exact hkey
      simp [setItem, himmediate, hopen, hkey, hb]
  · simp [setItem, himmediate, hopen]

/-- C16 (witness): `setItem("k", 1)` while OPEN sends `[{type: "set", key: "k", value: 1}]`;
`setItem("", 1)` while OPEN and `setItem("k", 1)` while connecting throw. -/
theorem C16_setItem_immediate_witness :
    (openEngine []).request = false
    ∧ (setItem (some "k") (JSValue.num 1) none (openEngine [])).effects
        = [Effect.emit "changeState"
            (JSValue.arr [JSValue.obj [("type", JSValue.str "set"), ("key", JSValue.str "k"),
              ("value", JSValue.num 1)]])]
    ∧ (setItem (some "") (JSValue.num 1) none (openEngine [])).thrown
        = some (Thrown.setItemParams (JSValue.str "") (JSValue.num 1))
    ∧ (setItem (some "k") (JSValue.num 1) none (Engine.initial {})).thrown
        = some (Thrown.setItemNotPossible (JSValue.str "connecting"))
    ∧ (setItem (some "k") (JSValue.num 1) none (openEngine [])).state = openEngine [] :=
  ⟨by decide, by decide, by decide, by decide,
    (C16_setItem_immediate (some "k") (JSValue.num 1) none (openEngine []) (by decide)).1⟩

/-- C17 (evaluation at the failing inputs): after `request()`, `setItem("", 1)` and
`setItem(undefined, 1)` return normally and enqueue their item; the following `send()`
sends both to the remote authority. -/
theorem C17_bracket_accepts_bad_key :
    (setItem (some "") (JSValue.num 1) none (request (openEngine [])).state).thrown = none
    ∧ (setItem (some "") (JSValue.num 1) none (request (openEngine [])).state).state.stateChanges
        = [("", JSValue.obj [("type", JSValue.str "set"), ("key", JSValue.str ""),
            ("value", JSValue.num 1)])]
    ∧ (setItem none (JSValue.num 1) none (request (openEngine [])).state).thrown = none
    ∧ (setItem none (JSValue.num 1) none (request (openEngine [])).state).state.stateChanges
        = [("undefined", JSValue.obj [("type", JSValue.str "set"), ("key", JSValue.undefined),
            ("value", JSValue.num 1)])]
    ∧ (send (setItem (some "") (JSValue.num 1) none
          (request (openEngine [])).state).state).effects
        = [Effect.emit "changeState"
            (JSValue.arr [JSValue.obj [("type", JSValue.str "set"), ("key", JSValue.str ""),
              ("value", JSValue.num 1)]])]
    ∧ (setItem (some "") (JSValue.num 1) none (openEngine [])).thrown
        = some (Thrown.setItemParams (JSValue.str "") (JSValue.num 1)) := by
  decide

/-- C18: `send()` while the readystate is not OPEN throws, sends nothing and leaves the
whole engine state - the pending writes and the bracket flag included - unchanged; a later
`send()` in that state, once the readystate is OPEN, sends every pending write in one
batch, empties the pending map and closes the bracket. -/
theorem C18_send_not_open (E : Engine) (hnot : readystate.get E ≠ STATE.get "OPEN") :
    (send E).thrown = some (Thrown.sendNotPossible (readystate.get E))
      ∧ (send E).effects = []
      ∧ (send E).state = E
      ∧ (JSObject.keys E.stateChanges ≠ [] →
          (send { (send E).state with readystate := JSValue.str "open" }).effects
            = [Effect.emit "changeState" (JSValue.arr
                ((JSObject.keys E.stateChanges).map (fun k => E.stateChanges.get k)))]
          ∧ (send { (send E).state with readystate := JSValue.str "open" }).state
            = { E with readystate := JSValue.str "open", request := false,
                       stateChanges := [] }) := by
  have h1 : send E = { state := E, thrown := some (Thrown.sendNotPossible (readystate.get E)) }
      := by
    simp [send, hnot]
  rw [h1]
  refine ⟨rfl, rfl, rfl, ?_⟩
  intro hk
  have hlen : (JSObject.keys E.stateChanges).length > 0 := List.length_pos.2 hk
  simp [send, readystate.get, STATE_OPEN, hlen, _sendDatagram, Outcome.andThen]

/-- C18 (witness): a bracket holding `set k = 1` while the readystate is "connecting";
`send()` throws and keeps the bracket. -/
theorem C18_send_not_open_witness :
    readystate.get (setItem (some "k") (JSValue.num 1) none
        (request (Engine.initial {})).state).state ≠ STATE.get "OPEN"
    ∧ (send (setItem (some "k") (JSValue.num 1) none
        (request (Engine.initial {})).state).state).state
      = (setItem (some "k") (JSValue.num 1) none (request (Engine.initial {})).state).state
    ∧ (send (setItem (some "k") (JSValue.num 1) none
        (request (Engine.initial {})).state).state).effects = [] :=
  ⟨by decide,
    (C18_send_not_open _ (by decide)).2.2.1,
    by decide⟩

/-! ## The request bracket -/

namespace JSObject

theorem mem_keys_define (s : JSObject) (k k' : String) (v : JSValue) :
    k' ∈ (s.define k v).map Prod.fst ↔ k' = k ∨ k' ∈ s.map Prod.fst := by
  induction s with
  | nil => simp [define]
  | cons p rest ih =>
    obtain ⟨k0, w⟩ := p
    by_cases h0 : k0 = k
    · subst h0
      simp [define]
    · simp only [define, h0, if_false, List.map_cons, List.mem_cons, ih]
      constructor
      · rintro (h | h | h)
        · exact Or.inr (Or.inl h)
        · exact Or.inl h
        · exact Or.inr (Or.inr h)
      · rintro (h | h | h)
        · exact Or.inr (Or.inl h)
        · exact Or.inl h
        · exact Or.inr (Or.inr h)

theorem nodup_keys_define (s : JSObject) (k : String) (v : JSValue)
    (hnd : (s.map Prod.fst).Nodup) : ((s.define k v).map Prod.fst).Nodup := by
  induction s with
  | nil => simp [define]
  | cons p rest ih =>
    obtain ⟨k0, w⟩ := p
    simp only [List.map_cons, List.nodup_cons] at hnd
    by_cases h0 : k0 = k
    · subst h0
      simp only [define, if_true, List.map_cons, List.nodup_cons]
      exact hnd
    · simp only [define, h0, if_false, List.map_cons, List.nodup_cons]
      refine ⟨?_, ih hnd.2⟩
      rw [mem_keys_define]
      rintro (h | h)
      · exact h0 h
      · exact hnd.1 h

theorem nodup_keys_set (s : JSObject) (k : String) (v : JSValue)
    (hnd : (s.map Prod.fst).Nodup) : ((s.set k v).map Prod.fst).Nodup := by
  unfold set
  split
  · exact hnd
  · exact nodup_keys_define s k v hnd

theorem hasOwnProperty_iff_mem (s : JSObject) (k : String) :
    s.hasOwnProperty k = true ↔ k ∈ s.map Prod.fst := by
  induction s with
  | nil => simp [hasOwnProperty]
  | cons p rest ih =>
    obtain ⟨k0, w⟩ := p
    by_cases h0 : k0 = k
    · simp [hasOwnProperty, h0]
    · have h1 : ¬ k = k0 := fun x => h0 x.symm
      simp [hasOwnProperty, h0, h1, ih]

end JSObject

theorem pendingAfter_nodup (E : Engine) (sc : JSObject) (ws : List Write)
    (hnd : (sc.map Prod.fst).Nodup) : ((pendingAfter E sc ws).map Prod.fst).Nodup := by
  induction ws generalizing sc with
  | nil => exact hnd
  | cons w rest ih => exact ih _ (JSObject.nodup_keys_set sc _ _ hnd)

theorem mem_pendingAfter (E : Engine) (sc : JSObject) (ws : List Write) (k : String)
    (hkeys : ∀ w ∈ ws, w.key ≠ "__proto__") :
    k ∈ (pendingAfter E sc ws).map Prod.fst
      ↔ (∃ w ∈ ws, w.key = k) ∨ k ∈ sc.map Prod.fst := by
  induction ws generalizing sc with
  | nil => simp [pendingAfter]
  | cons w rest ih =>
    have hw := hkeys w (List.mem_cons_self _ _)
    have := ih (sc.set w.key (w.item E)) (fun x hx => hkeys x (List.mem_cons_of_mem _ hx))
    simp only [pendingAfter, List.foldl_cons] at this ⊢
    rw [this, JSObject.set_of_ne _ _ _ hw, JSObject.mem_keys_define]
    simp only [List.mem_cons, exists_eq_or_imp]
    constructor
    · rintro (h | h | h)
      · exact Or.inl (Or.inr h)
      · exact Or.inl (Or.inl h.symm)
      · exact Or.inr h
    · rintro ((h | h) | h)
      · exact Or.inr (Or.inl h.symm)
      · exact Or.inl h
      · exact Or.inr (Or.inr h)

theorem own_pendingAfter (E : Engine) (sc : JSObject) (ws : List Write) (k : String)
    (hkeys : ∀ w ∈ ws, w.key ≠ "__proto__") :
    (pendingAfter E sc ws).own k
      = match lastWrite? k ws with
        | some w => w.item E
        | none => sc.own k := by
  induction ws generalizing sc with
  | nil => rfl
  | cons w rest ih =>
    have hw := hkeys w (List.mem_cons_self _ _)
    have := ih (sc.set w.key (w.item E)) (fun x hx => hkeys x (List.mem_cons_of_mem _ hx))
    simp only [pendingAfter, List.foldl_cons] at this ⊢
    rw [this]
    simp only [lastWrite?]
    cases hl : lastWrite? k rest with
    | some w' => rfl
    | none =>
      by_cases hk : w.key = k
      · simp [hk, JSObject.set_of_ne _ _ _ (hk ▸ hw), JSObject.own_define]
      · simp [hk, JSObject.set_of_ne _ _ _ hw, JSObject.own_define]

theorem Write.item_stateChanges (w : Write) (E : Engine) (sc : JSObject) :
    w.item { E with stateChanges := sc } = w.item E := by
  cases w <;> rfl

theorem Write.item_congr (w : Write) (E E' : Engine)
    (h : E'.sharedStates = E.sharedStates) : w.item E' = w.item E := by
  cases w with
  | setItem k v o => simp [Write.item, setItem.state, h]
  | removeItem k => rfl

theorem pendingAfter_congr (E E' : Engine) (h : E'.sharedStates = E.sharedStates)
    (sc : JSObject) (ws : List Write) : pendingAfter E' sc ws = pendingAfter E sc ws := by
  induction ws generalizing sc with
  | nil => rfl
  | cons w rest ih =>
    simp only [pendingAfter, List.foldl_cons, Write.item_congr w E E' h]
    exact ih _

theorem Write.run_bracketed (w : Write) (E : Engine) (hreq : E.request = true) :
    w.run E = { state := { E with stateChanges := E.stateChanges.set w.key (w.item E) } } := by
  cases w <;>
    simp [Write.run, SharedState.setItem, SharedState.removeItem, hreq, Write.key,
      Write.item, Key.name]

theorem runWrites_bracketed (ws : List Write) (E : Engine) (hreq : E.request = true)
    (sc : JSObject) :
    runWrites ws { E with stateChanges := sc }
      = { state := { E with stateChanges := pendingAfter E sc ws } } := by
  induction ws generalizing sc with
  | nil => rfl
  | cons w rest ih =>
    have hstep := Write.run_bracketed w { E with stateChanges := sc } hreq
    simp only [Write.item_stateChanges] at hstep
    simp only [runWrites, List.foldl_cons, Outcome.andThen_pure, hstep]
    exact ih (sc.set w.key (w.item E))

theorem keys_eq_nil_iff (o : JSObject) : JSObject.keys o = [] ↔ o = [] := by
  constructor
  · intro h
    have hp := JSObject.keys_perm o
    rw [h] at hp
    have := hp.symm.eq_nil
    simpa using this
  · rintro rfl; rfl

/-- A bracket `request(); w1; ...; wn; send()` of `setItem`/`removeItem` calls with string
keys other than `__proto__`, started with an empty pending map while the readystate is
OPEN. No call throws; the writes send nothing; `send()` sends exactly one `changeState`
batch if there is at least one write and nothing otherwise; the batch has one item for
each key of a list without repetition that holds exactly the keys written, and the item of
a key is the item of the last write for that key; afterwards the pending map is empty and
the bracket is closed, and nothing else has changed. -/
theorem bracket_flush (E : Engine) (ws : List Write)
    (hopen : readystate.get E = STATE.get "OPEN") (hempty : E.stateChanges = [])
    (hkeys : ∀ w ∈ ws, w.key ≠ "__proto__") :
    ((request E).andThen (runWrites ws)).effects = []
      ∧ ((request E).andThen (runWrites ws)).thrown = none
      ∧ (((request E).andThen (runWrites ws)).andThen send).thrown = none
      ∧ (((request E).andThen (runWrites ws)).andThen send).effects
          = (if ws = [] then []
            else [Effect.emit "changeState" (JSValue.arr
              ((JSObject.keys (pendingAfter E [] ws)).map (fun k =>
                match lastWrite? k ws with
                | some w => w.item E
                | none => JSValue.undefined)))])
      ∧ (JSObject.keys (pendingAfter E [] ws)).Nodup
      ∧ (∀ k, k ∈ JSObject.keys (pendingAfter E [] ws) ↔ ∃ w ∈ ws, w.key = k)
      ∧ (((request E).andThen (runWrites ws)).andThen send).state
          = { E with request := false, stateChanges := [] } := by
  have hE : ({ E with request := true } : Engine)
      = { ({ E with request := true } : Engine) with stateChanges := [] } := by
    rw [← hempty]
  have hrun : (request E).andThen (runWrites ws)
      = { state := { E with request := true, stateChanges := pendingAfter E [] ws } } := by
    simp only [request, Outcome.andThen_pure]
    rw [hE, runWrites_bracketed ws _ rfl [],
      pendingAfter_congr E { E with request := true } rfl]
  have hmem : ∀ k, k ∈ JSObject.keys (pendingAfter E [] ws) ↔ ∃ w ∈ ws, w.key = k := by
    intro k
    rw [(JSObject.keys_perm _).mem_iff, mem_pendingAfter E [] ws k hkeys]
    simp
  have hnd : (JSObject.keys (pendingAfter E [] ws)).Nodup :=
    (JSObject.keys_perm _).nodup_iff.2 (pendingAfter_nodup E [] ws List.nodup_nil)
  have hO : E.readystate = STATE.get "OPEN" := hopen
  refine ⟨by rw [hrun], by rw [hrun], ?_, ?_, hnd, hmem, ?_⟩
  · rw [hrun]
    simp only [Outcome.andThen_pure, send, readystate.get, hO, if_true]
    split <;> rfl
  · rw [hrun]
    simp only [Outcome.andThen_pure, send, readystate.get, hO, if_true]
    cases ws with
    | nil => simp [pendingAfter, JSObject.keys]
    | cons w rest =>
      have hne : JSObject.keys (pendingAfter E [] (w :: rest)) ≠ [] := by
        intro h
        have := (hmem w.key).2 ⟨w, List.mem_cons_self _ _, rfl⟩
        rw [h] at this
        simp at this
      have hlen : (JSObject.keys (pendingAfter E [] (w :: rest))).length > 0 :=
        List.length_pos.2 hne
      simp only [hlen, if_true, _sendDatagram, Outcome.andThen, List.append_nil]
      simp only [List.cons_ne_nil, if_false, List.cons.injEq, and_true, Effect.emit.injEq,
        true_and, JSValue.arr.injEq]
      apply List.map_congr_left
      intro k hk
      have hown : (pendingAfter E [] (w :: rest)).hasOwnProperty k = true :=
        (JSObject.hasOwnProperty_iff_mem _ k).2 ((JSObject.keys_perm _).mem_iff.1 hk)
      rw [JSObject.get_of_hasOwnProperty _ _ hown, own_pendingAfter E [] (w :: rest) k hkeys]
      obtain ⟨w', hw', hkey⟩ := (hmem k).1 hk
      cases hl : lastWrite? k (w :: rest) with
      | some w'' => rfl
      | none => rfl
  · rw [hrun]
    simp only [Outcome.andThen_pure, send, readystate.get, hO, if_true]
    by_cases hlen : (JSObject.keys (pendingAfter E [] ws)).length > 0
    · simp only [hlen, if_true, _sendDatagram, Outcome.andThen]
    · simp only [hlen, if_false]
      have hnil : JSObject.keys (pendingAfter E [] ws) = [] := by
        simpa [List.length_eq_zero] using hlen
      rw [(keys_eq_nil_iff _).1 hnil]

/-- The example of the specification: `request(); setItem("k", 1); setItem("k", 2);
removeItem("j"); send()` while OPEN sends the single batch
`[{type: "set", key: "k", value: 2}, {type: "remove", key: "j"}]`. -/
theorem bracket_flush_example :
    readystate.get (openEngine []) = STATE.get "OPEN"
    ∧ (openEngine []).stateChanges = []
    ∧ (∀ w ∈ exampleWrites, w.key ≠ "__proto__")
    ∧ (((request (openEngine [])).andThen (runWrites exampleWrites)).andThen send).effects
        = [Effect.emit "changeState" (JSValue.arr
            [JSValue.obj [("type", JSValue.str "set"), ("key", JSValue.str "k"),
              ("value", JSValue.num 2)],
             JSValue.obj [("type", JSValue.str "remove"), ("key", JSValue.str "j")]])]
    ∧ (((request (openEngine [])).andThen (runWrites exampleWrites)).andThen send).state
        = { openEngine [] with request := false, stateChanges := [] } :=
  ⟨by decide, by decide, by decide, by decide,
    (bracket_flush (openEngine []) exampleWrites (by decide) (by decide)
      (by decide)).2.2.2.2.2.2⟩

/-- C13 (evaluation at the failing input): while OPEN, the bracket `request();
setItem("__proto__", 1); send()` sends nothing at all and leaves an empty pending map: the
write is lost. In the bracket `request(); setItem("k", 1); setItem("__proto__", 2);
removeItem("__proto__"); send()` the batch holds the item of `k` only, for three calls on
two distinct keys. Outside a bracket `setItem("__proto__", 1)` sends its item. -/
theorem C13_bracket_drops_proto :
    (((request (openEngine [])).andThen
        (runWrites [Write.setItem "__proto__" (JSValue.num 1) none])).andThen send).effects = []
    ∧ (((request (openEngine [])).andThen
        (runWrites [Write.setItem "__proto__" (JSValue.num 1) none])).andThen send).thrown
        = none
    ∧ ((request (openEngine [])).andThen
        (runWrites [Write.setItem "__proto__" (JSValue.num 1) none])).state.stateChanges = []
    ∧ (((request (openEngine [])).andThen
        (runWrites [Write.setItem "k" (JSValue.num 1) none,
          Write.setItem "__proto__" (JSValue.num 2) none,
          Write.removeItem "__proto__"])).andThen send).effects
        = [Effect.emit "changeState" (JSValue.arr
            [JSValue.obj [("type", JSValue.str "set"), ("key", JSValue.str "k"),
              ("value", JSValue.num 1)]])]
    ∧ (setItem (some "__proto__") (JSValue.num 1) none (openEngine [])).effects
        = [Effect.emit "changeState" (JSValue.arr
            [JSValue.obj [("type", JSValue.str "set"), ("key", JSValue.str "__proto__"),
              ("value", JSValue.num 1)]])] := by
  decide

/-! ## Reading the store -/

namespace JSObject

theorem own_delete_ne (s : JSObject) (k k' : String) (h : k ≠ k') :
    (s.delete k).own k' = s.own k' := by
  induction s with
  | nil => rfl
  | cons p rest ih =>
    obtain ⟨k0, w⟩ := p
    by_cases h0 : k0 = k
    · subst h0
      simp [delete, own, h]
    · by_cases h1 : k0 = k'
      · subst h1
        simp [delete, own, h0]
      · simp [delete, own, h0, h1, ih]

theorem isFunction_own (s : JSObject) (k : String)
    (h : ∀ kv ∈ s, kv.1 = k → kv.2.isFunction = false) : (s.own k).isFunction = false := by
  induction s with
  | nil => rfl
  | cons p rest ih =>
    obtain ⟨k0, w⟩ := p
    by_cases h0 : k0 = k
    · simp only [own, h0, if_true]
      exact h (k0, w) (List.mem_cons_self _ _) h0
    · simp only [own, h0, if_false]
      exact ih (fun kv hkv => h kv (List.mem_cons_of_mem _ hkv))

theorem mem_define (s : JSObject) (k : String) (v : JSValue) (kv : String × JSValue)
    (h : kv ∈ s.define k v) : kv = (k, v) ∨ kv ∈ s := by
  induction s with
  | nil =>
    simp only [define, List.mem_singleton] at h
    exact Or.inl h
  | cons p rest ih =>
    obtain ⟨k0, w⟩ := p
    by_cases h0 : k0 = k
    · simp only [define, h0, if_true, List.mem_cons] at h
      rcases h with h | h
      · exact Or.inl h
      · exact Or.inr (List.mem_cons_of_mem _ h)
    · simp only [define, h0, if_false, List.mem_cons] at h
      rcases h with h | h
      · exact Or.inr (h ▸ List.mem_cons_self _ _)
      · rcases ih h with h1 | h1
        · exact Or.inl h1
        · exact Or.inr (List.mem_cons_of_mem _ h1)

theorem mem_delete (s : JSObject) (k : String) (kv : String × JSValue)
    (h : kv ∈ s.delete k) : kv ∈ s := by
  induction s with
  | nil => exact h
  | cons p rest ih =>
    obtain ⟨k0, w⟩ := p
    by_cases h0 : k0 = k
    · simp only [delete, h0, if_true] at h
      exact List.mem_cons_of_mem _ h
    · simp only [delete, h0, if_false, List.mem_cons] at h
      rcases h with h | h
      · exact h ▸ List.mem_cons_self _ _
      · exact List.mem_cons_of_mem _ (ih h)

end JSObject

/-- What `getItem(key)` does for a key that is not a name of `Object.prototype`, when the
entry under it is data: it returns the entry, `undefined` if there is none. -/
theorem getItem_key (k : String) (E : Engine) (hk : k ∉ JSObject.prototypeNames)
    (hdata : (E.sharedStates.own k).isFunction = false) :
    getItem (some k) E = ({ state := E }, E.sharedStates.own k) := by
  have hg := JSObject.get_of_not_mem E.sharedStates k hk
  simp only [getItem, hg]
  by_cases h : E.sharedStates.own k = JSValue.undefined
  · simp [h]
  · simp only [ne_eq, h, not_false_eq_true, if_true]
    cases hv : E.sharedStates.own k <;>
      simp_all [JSON.stringify, JSON.parse, JSValue.isFunction]

theorem own_applyItem_untouched (s : JSObject) (it : ChangeItem) (k : String)
    (h : it.touches k = false) : (applyItem s it).own k = s.own k := by
  unfold applyItem
  by_cases hk : it.key = ""
  · simp [hk]
  · by_cases hset : it.type = "set"
    · have hne : it.key ≠ k := by
        intro hkk; simp [ChangeItem.touches, hkk, hset] at h
      simp only [hk, hset, if_false, if_true]
      split
      · rfl
      · simp [JSObject.own_define, hne]
    · by_cases hrem : it.type = "remove"
      · have hne : it.key ≠ k := by
          intro hkk; simp [ChangeItem.touches, hkk, hrem] at h
        simp [hk, hset, hrem, JSObject.own_delete_ne _ _ _ hne]
      · simp [hk, hset, hrem]

theorem own_applyBatch_untouched (s : JSObject) (batch : List ChangeItem) (k : String)
    (h : lastTouch? k batch = none) : (applyBatch s batch).own k = s.own k := by
  induction batch generalizing s with
  | nil => rfl
  | cons it rest ih =>
    simp only [lastTouch?] at h
    cases hl : lastTouch? k rest with
    | some it' => simp [hl] at h
    | none =>
      simp only [hl] at h
      have ht : it.touches k = false := by
        cases htt : it.touches k
        · rfl
        · simp [htt] at h
      simp only [applyBatch, List.foldl_cons] at ih ⊢
      rw [ih _ hl, own_applyItem_untouched s it k ht]

/-- After a set item with a value that is data, the entry under its key is that value,
provided the entry it finds is data. -/
theorem own_applyItem_set (s : JSObject) (it : ChangeItem) (hk : it.key ≠ "")
    (hset : it.type = "set") (hs : (s.own it.key).isFunction = false)
    (hv : it.value.isFunction = false) : (applyItem s it).own it.key = it.value := by
  unfold applyItem
  simp only [hk, hset, if_false, if_true]
  split
  · next h =>
    have h1 := (JSON.stringify_eq_none_iff _).1 h.1
    have h2 := (JSON.stringify_eq_none_iff _).1 h.2
    rw [hv] at h1
    rw [hs] at h2
    simp only [Bool.false_eq_true, or_false] at h1 h2
    rw [h1, h2]
  · exact JSObject.own_define_self _ _ _

/-- The entries under `k` stay data under an item whose value is data. -/
theorem data_applyItem (s : JSObject) (it : ChangeItem) (k : String)
    (hs : ∀ kv ∈ s, kv.1 = k → kv.2.isFunction = false)
    (hv : it.value.isFunction = false) :
    ∀ kv ∈ applyItem s it, kv.1 = k → kv.2.isFunction = false := by
  intro kv hkv hk
  unfold applyItem at hkv
  split at hkv
  · exact hs kv hkv hk
  · split at hkv
    · split at hkv
      · exact hs kv hkv hk
      · rcases JSObject.mem_define _ _ _ _ hkv with h | h
        · rw [h]; exact hv
        · exact hs kv h hk
    · split at hkv
      · exact hs kv (JSObject.mem_delete _ _ _ hkv) hk
      · exact hs kv hkv hk

theorem own_applyBatch_lastTouch (s : JSObject) (batch : List ChangeItem) (k : String)
    (hk : k ≠ "") (it : ChangeItem) (hl : lastTouch? k batch = some it)
    (hset : it.type = "set")
    (hs : ∀ kv ∈ s, kv.1 = k → kv.2.isFunction = false)
    (hv : ∀ x ∈ batch, x.value.isFunction = false) :
    (applyBatch s batch).own k = it.value := by
  induction batch generalizing s with
  | nil => simp [lastTouch?] at hl
  | cons x rest ih =>
    have hx := hv x (List.mem_cons_self _ _)
    have hrest : ∀ y ∈ rest, y.value.isFunction = false :=
      fun y hy => hv y (List.mem_cons_of_mem _ hy)
    simp only [lastTouch?] at hl
    simp only [applyBatch, List.foldl_cons] at ih ⊢
    cases hr : lastTouch? k rest with
    | some it' =>
      simp only [hr, Option.some.injEq] at hl
      subst hl
      exact ih _ hr (data_applyItem s x k hs hx) hrest
    | none =>
      simp only [hr] at hl
      have ht : x.touches k = true := by
        cases htt : x.touches k
        · simp [htt] at hl
        · rfl
      simp only [ht, if_true, Option.some.injEq] at hl
      subst hl
      have hkey : x.key = k := by
        simp only [ChangeItem.touches, Bool.and_eq_true, decide_eq_true_eq] at ht
        exact ht.1
      have := own_applyBatch_untouched (applyItem s x) rest k hr
      simp only [applyBatch] at this
      rw [this, ← hkey]
      exact own_applyItem_set s x (by rw [hkey]; exact hk) hset
        (JSObject.isFunction_own s x.key (by rw [hkey]; exact hs)) hx

theorem lastTouch?_isFunction (k : String) (batch : List ChangeItem) (it : ChangeItem)
    (hl : lastTouch? k batch = some it) (hv : ∀ x ∈ batch, x.value.isFunction = false) :
    it.value.isFunction = false := by
  induction batch with
  | nil => simp [lastTouch?] at hl
  | cons x rest ih =>
    simp only [lastTouch?] at hl
    cases hr : lastTouch? k rest with
    | some it' =>
      simp only [hr, Option.some.injEq] at hl
      subst hl
      exact ih hr (fun y hy => hv y (List.mem_cons_of_mem _ hy))
    | none =>
      simp only [hr] at hl
      split at hl
      · simp only [Option.some.injEq] at hl
        subst hl
        exact hv _ (List.mem_cons_self _ _)
      · cases hl

/-- C19 (counterexample): the batch `[{type: "set", key: "", value: 1}]` is applied; its
last item for the key `""` sets 1, and no later item removes it, yet `getItem("")` returns
`undefined`. -/
theorem C19_counterexample :
    lastTouch? "" [⟨"set", "", JSValue.num 1⟩] = some ⟨"set", "", JSValue.num 1⟩
    ∧ (getItem (some "")
        (onChangeState App.quiet (some [⟨"set", "", JSValue.num 1⟩])
          (Engine.initial {})).state).2 = JSValue.undefined
    ∧ (getItem (some "")
        (onChangeState App.quiet (some [⟨"set", "", JSValue.num 1⟩])
          (Engine.initial {})).state).2 ≠ JSValue.num 1 := by
  decide

/-- C19 (amended): for a key that is not a name of `Object.prototype`, under which the
store holds data, `getItem(key)` returns the value the store holds under the key -
`undefined`, the absent result, when the key is not in the store -, sends nothing and
changes nothing; `getItem()` with no key sends exactly one `getState` datagram with an
empty list and returns `undefined`. So after an inbound batch of data under keys that are
not names of `Object.prototype` has been applied to a store without an entry named
`hasOwnProperty`, for a non-empty key `k` whose last set-or-remove item in the batch is a
set, `getItem(k)` is the value of that item. -/
theorem C19_getItem (app : App) (E : Engine) (k : String) (batch : List ChangeItem)
    (hk : k ∉ JSObject.prototypeNames)
    (hdata : ∀ kv ∈ E.sharedStates, kv.1 = k → kv.2.isFunction = false) :
    getItem (some k) E = ({ state := E }, E.sharedStates.own k)
      ∧ (E.sharedStates.hasOwnProperty k = false → (getItem (some k) E).2 = JSValue.undefined)
      ∧ getItem none E
          = ({ state := E, effects := [Effect.emit "getState" (JSValue.arr [])] },
              JSValue.undefined)
      ∧ (∀ it, k ≠ "" → E.sharedStates.hasOwnProperty "hasOwnProperty" = false →
          (∀ x ∈ batch, x.key ∉ JSObject.prototypeNames) →
          (∀ x ∈ batch, x.value.isFunction = false) →
          lastTouch? k batch = some it → it.type = "set" →
          getItem (some k) (onChangeState app (some batch) E).state
            = ({ state := (onChangeState app (some batch) E).state }, it.value)) := by
  have hget := getItem_key k E hk (JSObject.isFunction_own _ k hdata)
  refine ⟨hget, ?_, rfl, ?_⟩
  · intro h
    rw [hget]
    exact JSObject.own_of_not_hasOwnProperty _ _ h
  · intro it hne _ hkeys hvals hl hset
    have hown := own_applyBatch_lastTouch E.sharedStates batch k hne it hl hset hdata hvals
    have hss := onChangeState_sharedStates app E batch hkeys
    have hfn : ((onChangeState app (some batch) E).state.sharedStates.own k).isFunction
        = false := by
      rw [hss, hown]
      exact lastTouch?_isFunction k batch it hl hvals
    rw [getItem_key k _ hk hfn, hss, hown]

/-- C19 (witness): on the store `{k: 1, j: 0}`, `getItem("k")` is 1 and `getItem("x")` is
`undefined`; after the batch "set k = 1, set a = 2, remove j", `getItem("a")` is 2. -/
theorem C19_getItem_witness :
    "a" ∉ JSObject.prototypeNames
    ∧ (∀ kv ∈ probeKJ.sharedStates, kv.1 = "a" → kv.2.isFunction = false)
    ∧ (getItem (some "k") probeKJ).2 = JSValue.num 1
    ∧ (getItem (some "x") probeKJ).2 = JSValue.undefined
    ∧ lastTouch? "a" threeItems = some ⟨"set", "a", JSValue.num 2⟩
    ∧ (getItem (some "a") (onChangeState App.quiet (some threeItems) probeKJ).state).2
        = JSValue.num 2
    ∧ getItem (some "a") probeKJ = ({ state := probeKJ }, probeKJ.sharedStates.own "a") :=
  ⟨by decide, by decide, by decide, by decide, by decide, by decide,
    (C19_getItem App.quiet probeKJ "a" threeItems (by decide) (by decide)).1⟩

/-- How the names of `Object.prototype` come out of `getItem` on an empty store:
`getItem("toString")` throws a `SyntaxError`, `getItem("__proto__")` returns an empty
object, `getItem("k")` returns `undefined`. -/
theorem getItem_inherited_names :
    (getItem (some "toString") (openEngine [])).1.thrown = some Thrown.syntaxError
    ∧ getItem (some "__proto__") (openEngine []) = ({ state := openEngine [] }, JSValue.obj [])
    ∧ getItem (some "k") (openEngine []) = ({ state := openEngine [] }, JSValue.undefined) := by
  decide

/-! ## Inbound status batches -/

theorem ne_bool_not_toBoolean (v : JSValue) : v ≠ JSValue.bool (!v.toBoolean) := by
  cases v <;> simp [JSValue.toBoolean]

/-- What `onStatus` does with one item whose key is not a name of `Object.prototype` and
whose value is data: it emits and stores exactly when the key is not empty and the value
is falsy or differs from the stored one. -/
theorem onStatus_item_eq (app : App) (it : PresenceItem) (E : Engine)
    (hkey : it.key ∉ JSObject.prototypeNames) (hdata : it.value.isFunction = false) :
    onStatus.item app it E =
      if it.key ≠ "" ∧ (it.value.toBoolean = false ∨ E.presence.own it.key ≠ it.value) then
        { state := { E with presence := E.presence.define it.key it.value },
          effects := liveDelivery app Channel.presence
            (presenceEvent it.key (if it.value.toBoolean then it.value else JSValue.undefined))
            E }
      else { state := E } := by
  have hg : E.presence.get it.key = E.presence.own it.key :=
    JSObject.get_of_not_mem _ _ hkey
  have hs : E.presence.set it.key it.value = E.presence.define it.key it.value :=
    JSObject.set_of_ne _ _ _ (JSObject.ne_proto_of_not_mem _ hkey)
  unfold onStatus.item
  rw [hg, hs]
  by_cases hk : it.key = ""
  · simp [hk]
  · cases hv : it.value.toBoolean
    · have hser : JSON.stringify (E.presence.own it.key)
          ≠ JSON.stringify (JSValue.bool (!(E.presence.own it.key).toBoolean)) := by
        intro h
        have := JSON.stringify_eq_some _ _ (h.trans rfl)
        exact ne_bool_not_toBoolean _ this
      simp only [JSValue.or, hv, Bool.false_eq_true, if_false, ne_eq, hk, not_false_eq_true,
        hser, and_self, if_true, true_or, do_callbacks_live]
      rfl
    · have hsome : JSON.stringify it.value = some it.value := by
        cases hval : it.value <;> simp_all [JSON.stringify, JSValue.isFunction,
          JSValue.toBoolean]
      by_cases heq : E.presence.own it.key = it.value
      · simp [JSValue.or, hv, hk, heq]
      · have hser : JSON.stringify (E.presence.own it.key) ≠ JSON.stringify it.value := by
          intro h
          exact heq (JSON.stringify_eq_some _ _ (h.trans hsome))
        simp only [JSValue.or, hv, if_true, ne_eq, hk, not_false_eq_true, hser, and_self,
          Bool.true_eq_false, heq, or_true, do_callbacks_live]
        rfl

/-- Whatever the item, `onStatus` touches the Presence Store only, and does not throw. -/
theorem onStatus_item_shape (app : App) (it : PresenceItem) (E : Engine) :
    ∃ p effs, onStatus.item app it E
      = { state := { E with presence := p }, effects := effs } := by
  unfold onStatus.item
  split
  · rw [do_callbacks_live]
    exact ⟨_, _, rfl⟩
  · exact ⟨E.presence, [], rfl⟩

/-- C20 (counterexample): with a handler listening on `presence` and an empty Presence
Store, the item `{key: "", value: "online"}` differs from what is stored (nothing) and yet
emits nothing and stores nothing; and the item `{key: "a"}` (no value), received twice,
emits a presence event both times although the second one repeats the stored value. -/
theorem C20_counterexample :
    ((presenceProbe []).presence.get "" ≠ JSValue.str "online"
      ∧ (onStatus App.quiet [⟨"", JSValue.str "online"⟩] (presenceProbe [])).effects = []
      ∧ (onStatus App.quiet [⟨"", JSValue.str "online"⟩] (presenceProbe [])).state
          = presenceProbe [])
    ∧ ((onStatus App.quiet [⟨"a", JSValue.undefined⟩] (presenceProbe [])).state.presence.get "a"
          = JSValue.undefined
      ∧ (onStatus App.quiet [⟨"a", JSValue.undefined⟩]
          (onStatus App.quiet [⟨"a", JSValue.undefined⟩] (presenceProbe [])).state).effects
          = [Effect.call 1 none (presenceEvent "a" JSValue.undefined)]) := by
  decide

/-- C20 (amended): processing a status item whose key is not a name of
`Object.prototype`, with a non-empty key and a non-empty (truthy) value that is data,
emits one presence event `{key, value}` and stores the value if the value differs from the
one stored for the agent (an agent not seen before has none), and emits nothing and
changes nothing if it equals the stored value; an item with an empty key emits nothing and
changes nothing. -/
theorem C20_presence_diff (app : App) (it : PresenceItem) (E : Engine)
    (hkey : it.key ∉ JSObject.prototypeNames) (hdata : it.value.isFunction = false) :
    (it.key ≠ "" → it.value.toBoolean = true → E.presence.own it.key ≠ it.value →
        (onStatus.item app it E).state
            = { E with presence := E.presence.define it.key it.value }
        ∧ (onStatus.item app it E).effects
            = (_do_callbacks app Channel.presence (presenceEvent it.key it.value) none
                E).effects)
      ∧ (it.key ≠ "" → it.value.toBoolean = true → E.presence.own it.key = it.value →
          onStatus.item app it E = { state := E })
      ∧ (it.key = "" → onStatus.item app it E = { state := E }) := by
  rw [onStatus_item_eq app it E hkey hdata]
  refine ⟨?_, ?_, ?_⟩
  · intro hk hv hne
    simp [hk, hv, hne, do_callbacks_live]
  · intro hk hv heq
    simp [hk, hv, heq]
  · intro hk
    simp [hk]

/-- C20 (witness): agent `a` is seen for the first time with "online": one presence event
and the entry is stored; the same item again emits nothing. -/
theorem C20_presence_diff_witness :
    "a" ∉ JSObject.prototypeNames
    ∧ (JSValue.str "online").isFunction = false
    ∧ (onStatus App.quiet [⟨"a", JSValue.str "online"⟩] (presenceProbe [])).effects
        = [Effect.call 1 none (presenceEvent "a" (JSValue.str "online"))]
    ∧ (onStatus App.quiet [⟨"a", JSValue.str "online"⟩] (presenceProbe [])).state.presence
        = [("a", JSValue.str "online")]
    ∧ (onStatus App.quiet [⟨"a", JSValue.str "online"⟩]
        (presenceProbe [("a", JSValue.str "online")])).effects = []
    ∧ (("a" = "" → onStatus.item App.quiet ⟨"a", JSValue.str "online"⟩ (presenceProbe [])
          = { state := presenceProbe [] })) :=
  ⟨by decide, by decide, by decide, by decide, by decide,
    (C20_presence_diff App.quiet ⟨"a", JSValue.str "online"⟩ (presenceProbe [])
      (by decide) (by decide)).2.2⟩

/-- How the name `__proto__` comes out of `onStatus`, with a handler listening on an empty
Presence Store: the item `{key: "__proto__", value: "online"}` emits a presence event and
stores nothing, so its repetition emits again. -/
theorem onStatus_inherited_names :
    (onStatus App.quiet [⟨"__proto__", JSValue.str "online"⟩] (presenceProbe [])).effects
      = [Effect.call 1 none (presenceEvent "__proto__" (JSValue.str "online"))]
    ∧ (onStatus App.quiet [⟨"__proto__", JSValue.str "online"⟩]
        (presenceProbe [])).state.presence = []
    ∧ (onStatus App.quiet
        [⟨"__proto__", JSValue.str "online"⟩, ⟨"__proto__", JSValue.str "online"⟩]
        (presenceProbe [])).effects
      = [Effect.call 1 none (presenceEvent "__proto__" (JSValue.str "online")),
         Effect.call 1 none (presenceEvent "__proto__" (JSValue.str "online"))] := by
  decide

/-! ## What a step can change -/

theorem Outcome.andThen_state (P : Engine → Prop) (r : Outcome) (f : Engine → Outcome)
    (hr : P r.state) (hf : ∀ E, P E → P (f E).state) : P (r.andThen f).state := by
  unfold Outcome.andThen
  cases r.thrown with
  | some t => exact hr
  | none => exact hf _ hr

theorem foldl_andThen_state (P : Engine → Prop) {α : Type} (l : List α)
    (g : α → Engine → Outcome) (hg : ∀ a E, P E → P (g a E).state) (r0 : Outcome)
    (h0 : P r0.state) : P (l.foldl (fun (r : Outcome) a => r.andThen (g a)) r0).state := by
  induction l generalizing r0 with
  | nil => exact h0
  | cons a rest ih =>
    exact ih _ (Outcome.andThen_state P r0 (g a) h0 (hg a))

theorem readystate_set_state (P : Engine → Prop) (app : App) (v : JSValue) (E : Engine)
    (hrs : P E → P { E with readystate := v }) (h : P E) :
    P (readystate.set app v E).state := by
  by_cases hv : recognized v
  · rw [readystate_set_of_recognized app v E hv]
    split
    · exact h
    · split
      · exact h
      · exact hrs h
  · rw [readystate_set_of_not_recognized app v E hv]
    exact h

theorem setItem_state (P : Engine → Prop) (hF : Frame P) (key : Key) (value : JSValue)
    (options : Option JSObject) (E : Engine) (h : P E) :
    P (setItem key value options E).state := by
  unfold setItem
  split
  · exact hF.stateChanges E _ h
  · split
    · split
      · exact h
      · exact h
    · exact h

theorem removeItem_state (P : Engine → Prop) (hF : Frame P) (key : Key) (E : Engine)
    (h : P E) : P (removeItem key E).state := by
  unfold removeItem
  split
  · exact hF.stateChanges E _ h
  · split
    · split
      · exact h
      · exact h
    · exact h

theorem send_state (P : Engine → Prop) (hF : Frame P) (E : Engine) (h : P E) :
    P (send E).state := by
  unfold send
  split
  · simp only
    split
    · exact hF.stateChanges _ _ (hF.request E false h)
    · exact hF.request E false h
  · exact h

theorem getItem_state (key : Key) (E : Engine) : (getItem key E).1.state = E := by
  cases key with
  | none => rfl
  | some k =>
    unfold getItem
    simp only
    split
    · split <;> rfl
    · rfl

theorem setPresence_state (state : JSValue) (E : Engine) : (setPresence state E).state = E := by
  unfold setPresence
  split
  · split <;> rfl
  · rfl

theorem setPending_true_state (P : Engine → Prop) (hF : Frame P) (E : Engine) (h : Handler)
    (what : Channel) (hP : P E) : P (E.setPending h what true) := by
  unfold Engine.setPending
  simp only [if_true]
  split
  · exact hP
  · exact hF.pending E _ hP

theorem addEventListener_state (P : Engine → Prop) (hF : Frame P) (what : String)
    (handler : HandlerArg) (ctx : JSValue) (skip : Bool) (E : Engine) (h : P E) :
    P (addEventListener what handler ctx skip E).state := by
  unfold addEventListener
  cases handler with
  | value v => exact h
  | fn g =>
    simp only
    cases Channel.ofName? what with
    | none => exact h
    | some c =>
      simp only
      have h1 : P (if ctx.toBoolean = true then E.setCtx g ctx else E) := by
        split
        · exact hF.ctx E _ h
        · exact h
      generalize (if ctx.toBoolean = true then E.setCtx g ctx else E) = E1 at h1 ⊢
      by_cases hm : g ∈ E1.callbacks.get c
      · simp only [hm, if_true]
        exact h1
      · simp only [hm, if_false]
        cases skip
        · simp only [Bool.false_eq_true, if_false]
          exact hF.timers _ _
            (setPending_true_state P hF _ g c (hF.callbacks _ _ h1))
        · simp only [if_true]
          exact hF.callbacks _ _ h1

theorem off_state (P : Engine → Prop) (hF : Frame P) (what : String) (handler : HandlerArg)
    (E : Engine) (h : P E) : P (off what handler E).state := by
  unfold off
  cases Channel.ofName? what with
  | none =>
    simp only
    split <;> exact h
  | some c =>
    cases handler with
    | value v => exact h
    | fn g =>
      simp only
      split
      · exact hF.callbacks E _ h
      · exact h

theorem onChangeState_state (P : Engine → Prop) (app : App)
    (datagram : Option (List ChangeItem)) (E : Engine)
    (hss : ∀ E s, P E → P { E with sharedStates := s }) (h : P E) :
    P (onChangeState app datagram E).state := by
  obtain ⟨s, effs, hs⟩ := onChangeState_shape app datagram E
  rw [hs]
  exact hss E _ h

theorem onStatus_state (P : Engine → Prop) (app : App) (items : List PresenceItem)
    (E : Engine) (hsp : ∀ E p, P E → P { E with presence := p }) (h : P E) :
    P (onStatus app items E).state := by
  induction items generalizing E with
  | nil => exact h
  | cons it rest ih =>
    unfold onStatus
    apply Outcome.andThen_state P _ _ _ (fun E1 h1 => ih E1 h1)
    obtain ⟨p, effs, hp⟩ := onStatus_item_shape app it E
    rw [hp]
    exact hsp E _ h

theorem onInitState_loop_state (P : Engine → Prop) (app : App) (batch : List ChangeItem)
    (E : Engine) (hss : ∀ E s, P E → P { E with sharedStates := s }) (h : P E) :
    P (onInitState.loop app batch E).state := by
  induction batch generalizing E with
  | nil => exact h
  | cons it rest ih =>
    unfold onInitState.loop
    apply Outcome.andThen_state P _ _ _ (fun E1 h1 => ih E1 h1)
    unfold onInitState.item
    split
    · split
      · rw [do_callbacks_live]
        exact hss E _ h
      · exact h
    · exact h

theorem onInitState_state (P : Engine → Prop) (app : App) (batch : List ChangeItem)
    (E : Engine) (hss : ∀ E s, P E → P { E with sharedStates := s })
    (hopen : ∀ E, P E → P { E with readystate := JSValue.str "open" }) (h : P E) :
    P (onInitState app batch E).state := by
  unfold onInitState
  apply Outcome.andThen_state P
  · apply Outcome.andThen_state P _ _ (onInitState_loop_state P app batch E hss h)
    intro E1 h1
    split
    · rw [do_callbacks_live]; exact h1
    · exact h1
  · intro E2 h2
    apply Outcome.andThen_state P _ _ (readystate_set_state P app _ E2 (hopen E2) h2)
    intro E3 h3
    split
    · rw [setPresence_state]; exact h3
    · exact h3

theorem onJoined_state (P : Engine → Prop) (hF : Frame P) (app : App)
    (datagram : JoinedMessage) (E : Engine)
    (hopen : ∀ E, P E → P { E with readystate := JSValue.str "open" }) (h : P E) :
    P (onJoined app datagram E).state := by
  unfold onJoined
  apply Outcome.andThen_state P
  · split
    · split
      · split
        · exact h
        · exact h
      · apply Outcome.andThen_state P _ _ (readystate_set_state P app _ E (hopen E) h)
        intro E1 h1
        split
        · rw [setPresence_state]; exact h1
        · exact h1
    · exact h
  · intro E2 h2
    split
    · exact hF.intervals E2 _ h2
    · exact h2

theorem onConnect_state (P : Engine → Prop) (app : App) (E : Engine)
    (hconn : ∀ E, P E → P { E with readystate := JSValue.str "connecting" }) (h : P E) :
    P (onConnect app E).state := by
  unfold onConnect
  split
  · exact h
  · exact h
  · apply Outcome.andThen_state P _ _ (readystate_set_state P app _ E (hconn E) h)
    intro E1 h1
    exact h1

theorem destroy_state (P : Engine → Prop) (hF : Frame P) (app : App) (E : Engine)
    (hclosed : ∀ E, P E → P { E with readystate := JSValue.str "closed" }) (h : P E) :
    P (destroy app E).state := by
  unfold destroy
  split
  · exact h
  · apply Outcome.andThen_state P
    · apply Outcome.andThen_state P
      · exact hF.connection E none h
      · intro E1 h1
        exact readystate_set_state P app _ E1 (hclosed E1) h1
    · intro E1 h1
      exact hF.callbacks E1 _ h1

theorem deferred_state (P : Engine → Prop) (app : App) (what : Channel) (g : Handler)
    (E : Engine) (hcl : ∀ E, P E → P (E.setPending g what false)) (h : P E) :
    P (addEventListener.deferred app what g E).state := by
  have hat : P (afterTarget what g E) := by
    unfold afterTarget
    split
    · exact hcl E h
    · exact h
  cases what with
  | change =>
    rw [deferred_change_eq]
    split
    · exact hcl E h
    · exact hat
  | presence =>
    rw [deferred_presence_eq]
    split
    · exact hcl E h
    · exact hat
  | remove => exact hcl E h
  | readystatechange =>
    simp only [addEventListener.deferred, do_callbacks_target]
    exact hat
  | changeset =>
    simp only [addEventListener.deferred, do_callbacks_target]
    exact hat

theorem autoClean_state (P : Engine → Prop) (hF : Frame P) (agentid : String) (E : Engine)
    (h : P E) : P (_autoClean agentid E).state := by
  unfold _autoClean
  split
  · exact h
  · apply foldl_andThen_state P _
      (fun key E1 => if startsWith key "__" && includes key ("__" ++ agentid) then
        removeItem (some key) E1 else { state := E1 })
    · intro key E1 h1
      split
      · exact removeItem_state P hF _ E1 h1
      · exact h1
    · exact h

theorem interval_state (P : Engine → Prop) (hF : Frame P) (E : Engine) (h : P E) :
    P (onJoined.interval E).state := by
  unfold onJoined.interval
  apply foldl_andThen_state P _
    (fun key E1 => if startsWith key "__meta__" then
      if !(E1.presence.get (substr key 8)).toBoolean then _autoClean (substr key 8) E1
      else { state := E1 }
    else { state := E1 })
  · intro key E1 h1
    split
    · split
      · exact autoClean_state P hF _ E1 h1
      · exact h1
    · exact h1
  · exact h

/-- A property that survives the changes a step can make survives the step. -/
theorem Step.run_state (P : Engine → Prop) (hF : Frame P) (app : App) (step : Step)
    (hconn : ∀ E, P E → P { E with readystate := JSValue.str "connecting" })
    (hopen : ∀ E, P E → P { E with readystate := JSValue.str "open" })
    (hclosed : step = Step.destroy →
      ∀ E, P E → P { E with readystate := JSValue.str "closed" })
    (hss : step.isBatch = true → ∀ E s, P E → P { E with sharedStates := s })
    (hsp : step.isBatch = true → ∀ E p, P E → P { E with presence := p })
    (hcl : ∀ w g, step = Step.timeout w g → ∀ E, P E → P (E.setPending g w false))
    (E : Engine) (h : P E) : P (Step.run app step E).state := by
  cases step with
  | setItem key value options => exact setItem_state P hF key value options E h
  | removeItem key => exact removeItem_state P hF key E h
  | request => exact hF.request E true h
  | send => exact send_state P hF E h
  | getItem key =>
    simp only [Step.run, getItem_state]
    exact h
  | keys => exact h
  | getPresence a => exact h
  | getPresenceList => exact h
  | setPresence state =>
    simp only [Step.run, setPresence_state]
    exact h
  | addEventListener what handler ctx skip =>
    exact addEventListener_state P hF what handler ctx skip E h
  | off what handler => exact off_state P hF what handler E h
  | destroy => exact destroy_state P hF app E (hclosed rfl) h
  | onConnect => exact onConnect_state P app E hconn h
  | onDisconnect => exact readystate_set_state P app _ E (hconn E) h
  | onJoined datagram => exact onJoined_state P hF app datagram E hopen h
  | onStatus items => exact onStatus_state P app items E (hsp rfl) h
  | onChangeState datagram => exact onChangeState_state P app datagram E (hss rfl) h
  | onInitState batch => exact onInitState_state P app batch E (hss rfl) hopen h
  | onError data => exact h
  | timeout what g => exact deferred_state P app what g E (hcl what g rfl) h
  | interval => exact interval_state P hF E h

/-! ## Frame and lifecycle properties -/

theorem setPending_false_sharedStates (E : Engine) (g : Handler) (w : Channel) :
    (E.setPending g w false).sharedStates = E.sharedStates
      ∧ (E.setPending g w false).presence = E.presence
      ∧ (E.setPending g w false).readystate = E.readystate := by
  simp [Engine.setPending]

/-- C21: every step other than an inbound `changeState`, `initState` or `status` batch -
in particular every call of `setItem`, `removeItem`, `request`, `send`, `getItem`, `keys`,
`getPresence`, `getPresenceList`, `setPresence`, `on` or `off`, whether it returns or
throws - leaves the Local State Store and the Presence Store as they were. -/
theorem C21_stores_untouched (app : App) (step : Step) (E : Engine)
    (hstep : step.isBatch = false) :
    (Step.run app step E).state.sharedStates = E.sharedStates
      ∧ (Step.run app step E).state.presence = E.presence
      ∧ (∀ s : Step, s.isApplicationCall = true → s.isBatch = false) := by
  have hF : Frame (fun E1 => E1.sharedStates = E.sharedStates ∧ E1.presence = E.presence) :=
    { stateChanges := fun _ _ h => h, request := fun _ _ h => h, ctx := fun _ _ h => h,
      callbacks := fun _ _ h => h, timers := fun _ _ h => h, connection := fun _ _ h => h,
      intervals := fun _ _ h => h, pending := fun _ _ h => h }
  have hb : ¬ step.isBatch = true := by simp [hstep]
  have := Step.run_state _ hF app step (fun _ h => h) (fun _ h => h) (fun _ _ h => h)
    (fun h => absurd h hb) (fun h => absurd h hb)
    (fun w g _ E1 h => by
      obtain ⟨h1, h2, _⟩ := setPending_false_sharedStates E1 g w
      exact ⟨h1.trans h.1, h2.trans h.2⟩)
    E ⟨rfl, rfl⟩
  refine ⟨this.1, this.2, ?_⟩
  intro s hs
  cases s <;> simp_all [Step.isApplicationCall, Step.isBatch]

/-- C21 (witness): `setItem("k", 2)` while OPEN on the store `{k: 1}` sends a datagram and
leaves both stores alone. -/
theorem C21_stores_untouched_witness :
    (Step.setItem (some "k") (JSValue.num 2) none).isBatch = false
    ∧ (Step.run App.quiet (Step.setItem (some "k") (JSValue.num 2) none)
        (liveEngine [("k", JSValue.num 1)])).state.sharedStates = [("k", JSValue.num 1)]
    ∧ (Step.run App.quiet (Step.setItem (some "k") (JSValue.num 2) none)
        (liveEngine [("k", JSValue.num 1)])).state.presence = [] :=
  ⟨by decide,
    (C21_stores_untouched App.quiet (Step.setItem (some "k") (JSValue.num 2) none)
      (liveEngine [("k", JSValue.num 1)]) (by decide)).1,
    by decide⟩

theorem STATE_CLOSED : STATE.get "CLOSED" = JSValue.str "closed" := by decide

theorem STATE_CONNECTING : STATE.get "CONNECTING" = JSValue.str "connecting" := by decide

/-- C22: in a state whose readystate is not CLOSED, after any step other than `destroy` -
an application call, an inbound transport event, a deferred task or an autoclean sweep -
the readystate is still not CLOSED; and after a transport `disconnect` it is
"connecting". -/
theorem C22_only_destroy_closes (app : App) (step : Step) (E : Engine)
    (hstep : step ≠ Step.destroy) (hnc : readystate.get E ≠ STATE.get "CLOSED") :
    readystate.get (Step.run app step E).state ≠ STATE.get "CLOSED"
      ∧ readystate.get (Step.run app Step.onDisconnect E).state = STATE.get "CONNECTING" := by
  rw [STATE_CLOSED] at hnc ⊢
  rw [STATE_CONNECTING]
  have hF : Frame (fun E1 => E1.readystate ≠ JSValue.str "closed") :=
    { stateChanges := fun _ _ h => h, request := fun _ _ h => h, ctx := fun _ _ h => h,
      callbacks := fun _ _ h => h, timers := fun _ _ h => h, connection := fun _ _ h => h,
      intervals := fun _ _ h => h, pending := fun _ _ h => h }
  have hconn : ∀ E1 : Engine, E1.readystate ≠ JSValue.str "closed" →
      ({ E1 with readystate := JSValue.str "connecting" } : Engine).readystate
        ≠ JSValue.str "closed" := fun _ _ => by simp
  have hopen : ∀ E1 : Engine, E1.readystate ≠ JSValue.str "closed" →
      ({ E1 with readystate := JSValue.str "open" } : Engine).readystate
        ≠ JSValue.str "closed" := fun _ _ => by simp
  refine ⟨?_, ?_⟩
  · exact Step.run_state _ hF app step hconn hopen
      (fun h => absurd h hstep) (fun _ _ _ h => h) (fun _ _ _ h => h)
      (fun w g _ E1 h => by
        obtain ⟨_, _, h3⟩ := setPending_false_sharedStates E1 g w
        show (E1.setPending g w false).readystate ≠ JSValue.str "closed"
        rw [h3]; exact h)
      E hnc
  · have hrec : recognized (JSValue.str "connecting") := by decide
    have hnc' : ¬ E.readystate = JSValue.str "closed" := hnc
    simp only [Step.run, onDisconnect, readystate.get]
    rw [readystate_set_of_recognized app _ E hrec]
    simp only [hnc', if_false]
    split
    · next h => exact h.symm
    · rfl

/-- C22 (witness): from "open", a transport `disconnect` leaves the readystate
"connecting". -/
theorem C22_only_destroy_closes_witness :
    Step.onDisconnect ≠ Step.destroy
    ∧ readystate.get (liveEngine []) ≠ STATE.get "CLOSED"
    ∧ readystate.get (Step.run App.quiet Step.onDisconnect (liveEngine [])).state
        ≠ STATE.get "CLOSED"
    ∧ readystate.get (Step.run App.quiet Step.onDisconnect (liveEngine [])).state
        = JSValue.str "connecting" :=
  ⟨by decide, by decide,
    (C22_only_destroy_closes App.quiet Step.onDisconnect (liveEngine []) (by decide)
      (by decide)).1,
    by decide⟩

theorem readystate_set_closed (app : App) (E : Engine) :
    (readystate.set app (JSValue.str "closed") E).state.readystate = JSValue.str "closed"
      ∧ (readystate.set app (JSValue.str "closed") E).thrown = none
      ∧ (readystate.set app (JSValue.str "closed") E).state.connection = E.connection := by
  have hrec : recognized (JSValue.str "closed") := by decide
  rw [readystate_set_of_recognized app _ E hrec]
  by_cases h : E.readystate = JSValue.str "closed"
  · simp [h]
  · have h2 : ¬ JSValue.str "closed" = E.readystate := fun x => h x.symm
    simp [h, h2]

theorem destroy_of_null (app : App) (E : Engine) (h : E.connection = none) :
    destroy app E = { state := E } := by
  unfold destroy
  split
  · rfl
  · next c hc => rw [h] at hc; cases hc

theorem destroy_live (app : App) (E : Engine) (hlive : E.connection ≠ none) :
    destroy app E =
      { state := { (readystate.set app (JSValue.str "closed")
                    { E with connection := none }).state with callbacks := {} },
        effects := Effect.close ::
          (readystate.set app (JSValue.str "closed") { E with connection := none }).effects }
      := by
  unfold destroy
  cases hc : E.connection with
  | none => exact absurd hc hlive
  | some c =>
    have ht := (readystate_set_closed app { E with connection := none }).2.1
    simp [Outcome.andThen, ht]

/-- C23: `destroy()` on a live instance (one with a socket) returns normally and leaves
the readystate "closed" and the registry of every channel empty; in every state with
those registries - whatever the stores and the rest of the state - a deferred replay task
invokes no handler, for every channel and handler it was scheduled for; and a second
`destroy()` does nothing. -/
theorem C23_destroy (app : App) (E : Engine) (hlive : E.connection ≠ none) :
    readystate.get (destroy app E).state = STATE.get "CLOSED"
      ∧ (∀ c : Channel, (destroy app E).state.callbacks.get c = [])
      ∧ (destroy app E).thrown = none
      ∧ (∀ (what : Channel) (h : Handler) (E1 : Engine),
          E1.callbacks = (destroy app E).state.callbacks →
            (addEventListener.deferred app what h E1).effects = []
            ∧ (addEventListener.deferred app what h E1).thrown = none)
      ∧ destroy app (destroy app E).state = { state := (destroy app E).state } := by
  rw [destroy_live app E hlive, STATE_CLOSED]
  have hc := readystate_set_closed app { E with connection := none }
  refine ⟨hc.1, ?_, rfl, ?_, ?_⟩
  · intro c; cases c <;> rfl
  · intro what h E1 hE1
    apply deferred_of_not_mem
    rw [hE1]
    cases what <;> simp [Callbacks.get]
  · exact destroy_of_null app _ hc.2.2

/-- C23 (witness): a live engine with a handler on every channel and the store `{a: 1}`
is destroyed; the handler is told "closed", the registries are empty, and a replay task
for `change` then invokes nobody. -/
theorem C23_destroy_witness :
    (liveEngine [("a", JSValue.num 1)]).connection ≠ none
    ∧ (destroy App.quiet (liveEngine [("a", JSValue.num 1)])).effects
        = [Effect.close, Effect.call 1 none (JSValue.str "closed")]
    ∧ (addEventListener.deferred App.quiet Channel.change 1
        (destroy App.quiet (liveEngine [("a", JSValue.num 1)])).state).effects = []
    ∧ readystate.get (destroy App.quiet (liveEngine [("a", JSValue.num 1)])).state
        = STATE.get "CLOSED" :=
  ⟨by decide, by decide, by decide,
    (C23_destroy App.quiet (liveEngine [("a", JSValue.num 1)]) (by decide)).1⟩

/-! ## The join handshake -/

theorem STATE_OPEN' : STATE.get "OPEN" = JSValue.str "open" := STATE_OPEN

/-- C24: on a `joined` message for the local agent, with `getOnInit` configured and no
`initStateComing` flag, the engine sends exactly one `getInitState` datagram with an empty
list, returns normally and leaves the readystate as it was. -/
theorem C24_joined_requests_init (app : App) (datagram : JoinedMessage) (E : Engine)
    (hme : datagram.agentID = E.options.agentid) (hget : E.options.getOnInit = true)
    (hnot : datagram.initStateComing.toBoolean = false) :
    (onJoined app datagram E).effects = [Effect.emit "getInitState" (JSValue.arr [])]
      ∧ readystate.get (onJoined app datagram E).state = readystate.get E
      ∧ (onJoined app datagram E).thrown = none := by
  unfold onJoined
  simp only [hme, hget, hnot, if_true, Bool.not_false, _sendDatagram, Outcome.andThen]
  split <;> exact ⟨rfl, rfl, rfl⟩

/-- C24 (witness): a fresh engine with the default options receives `{agentID: "agent"}`. -/
theorem C24_joined_requests_init_witness :
    (JoinedMessage.mk "agent" JSValue.undefined).agentID = (Engine.initial {}).options.agentid
    ∧ (Engine.initial {}).options.getOnInit = true
    ∧ (JoinedMessage.mk "agent" JSValue.undefined).initStateComing.toBoolean = false
    ∧ (onJoined App.quiet ⟨"agent", JSValue.undefined⟩ (Engine.initial {})).effects
        = [Effect.emit "getInitState" (JSValue.arr [])] :=
  ⟨by decide, by decide, by decide,
    (C24_joined_requests_init App.quiet ⟨"agent", JSValue.undefined⟩ (Engine.initial {})
      (by decide) (by decide) (by decide)).1⟩

/-- C25 (counterexample): with `getOnInit` configured (the default), a `joined` message
for the local agent that flags `initStateComing` sends nothing and leaves the readystate
"connecting": it does not become OPEN and no presence is published. -/
theorem C25_counterexample :
    (Engine.initial {}).options.getOnInit = true
    ∧ (Engine.initial {}).options.autoPresence = true
    ∧ readystate.get (onJoined App.quiet ⟨"agent", JSValue.bool true⟩
        (Engine.initial {})).state = JSValue.str "connecting"
    ∧ (onJoined App.quiet ⟨"agent", JSValue.bool true⟩ (Engine.initial {})).effects = [] := by
  decide

theorem setPresence_online_open (E : Engine) (h : E.readystate = JSValue.str "open") :
    setPresence (JSValue.str "online") E
      = { state := E, effects := [Effect.emit "changePresence" (onlineDatagram E)] } := by
  simp [setPresence, readystate.get, h, STATE_OPEN, JSValue.toBoolean, _sendDatagram,
    onlineDatagram]

/-- What `readystate.set('open')` followed by the automatic presence does in a state that
is not CLOSED. -/
theorem open_and_publish (app : App) (E : Engine) (hnc : E.readystate ≠ JSValue.str "closed") :
    (readystate.set app (JSValue.str "open") E).andThen (fun E1 =>
        if E1.options.autoPresence = true then setPresence (JSValue.str "online") E1
        else { state := E1 })
      = { state := { E with readystate := JSValue.str "open" },
          effects :=
            (if E.readystate = JSValue.str "open" then []
              else liveDelivery app Channel.readystatechange (JSValue.str "open") E)
            ++ (if E.options.autoPresence = true then
                  [Effect.emit "changePresence" (onlineDatagram E)] else []) } := by
  have hrec : recognized (JSValue.str "open") := by decide
  rw [readystate_set_of_recognized app _ E hrec, if_neg hnc]
  by_cases ho : E.readystate = JSValue.str "open"
  · have hE : ({ E with readystate := JSValue.str "open" } : Engine) = E := by
      rw [← ho]
    rw [if_pos ho.symm, Outcome.andThen_pure, hE, if_pos ho]
    by_cases ha : E.options.autoPresence = true
    · rw [if_pos ha, if_pos ha, setPresence_online_open E ho]
      rfl
    · rw [if_neg ha, if_neg ha]
      rfl
  · have ho' : ¬ JSValue.str "open" = E.readystate := fun x => ho x.symm
    rw [if_neg ho', if_neg ho]
    by_cases ha : E.options.autoPresence = true
    · simp only [Outcome.andThen, ha, if_true]
      rw [setPresence_online_open _ rfl]
      rfl
    · simp only [Outcome.andThen, ha, if_false, List.append_nil]
      simp

/-- C25 (amended): on a `joined` message for the local agent, when `getOnInit` is not
configured and the readystate is not CLOSED, the readystate becomes "open" (with one
`readystatechange` delivery if it was not "open" already) and then, when `autoPresence`
is configured, exactly one `changePresence` datagram `{agentID, presence: "online"}` is
sent; when `getOnInit` is configured and the message flags `initStateComing`, nothing is
sent and the readystate is unchanged. -/
theorem C25_joined_opens (app : App) (datagram : JoinedMessage) (E : Engine)
    (hme : datagram.agentID = E.options.agentid) :
    (E.options.getOnInit = false → readystate.get E ≠ STATE.get "CLOSED" →
        readystate.get (onJoined app datagram E).state = STATE.get "OPEN"
        ∧ (onJoined app datagram E).thrown = none
        ∧ (onJoined app datagram E).effects
            = (if readystate.get E = STATE.get "OPEN" then []
                else (_do_callbacks app Channel.readystatechange (JSValue.str "open") none
                  E).effects)
              ++ (if E.options.autoPresence = true then
                    [Effect.emit "changePresence" (onlineDatagram E)] else []))
      ∧ (E.options.getOnInit = true → datagram.initStateComing.toBoolean = true →
          (onJoined app datagram E).effects = []
          ∧ readystate.get (onJoined app datagram E).state = readystate.get E
          ∧ (onJoined app datagram E).thrown = none) := by
  refine ⟨?_, ?_⟩
  · intro hget hnc
    rw [STATE_CLOSED] at hnc
    rw [STATE_OPEN]
    have hnc' : E.readystate ≠ JSValue.str "closed" := hnc
    have hg : ¬ E.options.getOnInit = true := by simp [hget]
    unfold onJoined
    rw [if_pos hme, if_neg hg, open_and_publish app E hnc']
    simp only [Outcome.andThen, do_callbacks_live, readystate.get]
    split <;> exact ⟨rfl, rfl, by simp⟩
  · intro hget hflag
    have hf : ¬ (!datagram.initStateComing.toBoolean) = true := by simp [hflag]
    unfold onJoined
    rw [if_pos hme, if_pos hget, if_neg hf]
    simp only [Outcome.andThen]
    split <;> exact ⟨rfl, rfl, rfl⟩

/-- C25 (witness): without `getOnInit`, the `joined` echo opens a connecting engine that
has a listener on `readystatechange`, then publishes "online". -/
theorem C25_joined_opens_witness :
    (JoinedMessage.mk "agent" JSValue.undefined).agentID
        = ({ twoListeners with options := { getOnInit := false } } : Engine).options.agentid
    ∧ (onJoined App.quiet ⟨"agent", JSValue.undefined⟩
        { twoListeners with options := { getOnInit := false } }).effects
        = [Effect.call 1 none (JSValue.str "open"),
           Effect.emit "changePresence"
            (JSValue.obj [("agentID", JSValue.str "agent"),
              ("presence", JSValue.str "online")])]
    ∧ readystate.get (onJoined App.quiet ⟨"agent", JSValue.undefined⟩
        { twoListeners with options := { getOnInit := false } }).state = STATE.get "OPEN" :=
  ⟨by decide, by decide,
    ((C25_joined_opens App.quiet ⟨"agent", JSValue.undefined⟩
      { twoListeners with options := { getOnInit := false } } (by decide)).1
        (by decide) (by decide)).1⟩

/-! ## Init-state batches -/

/-- C26 (evaluation at the failing input): the store holds `{k: 1}` and the batch is
`[{type: "set", key: "k", value: 2}]`. Both handlers leave the store `{k: 2}`;
`onChangeState` emits the change typed "update", `onInitState` emits it typed "add". -/
theorem C26_init_types_add :
    (onChangeState App.quiet (some [⟨"set", "k", JSValue.num 2⟩])
        (probeEngine [("k", JSValue.num 1)])).effects
      = [Effect.call 1 none (stateEvent "k" (JSValue.num 2) "update"),
         Effect.call 1 none JSValue.undefined]
    ∧ (onInitState.batch App.quiet [⟨"set", "k", JSValue.num 2⟩]
        (probeEngine [("k", JSValue.num 1)])).effects
      = [Effect.call 1 none (stateEvent "k" (JSValue.num 2) "add"),
         Effect.call 1 none JSValue.undefined]
    ∧ (onChangeState App.quiet (some [⟨"set", "k", JSValue.num 2⟩])
        (probeEngine [("k", JSValue.num 1)])).state.sharedStates
      = (onInitState App.quiet [⟨"set", "k", JSValue.num 2⟩]
        (probeEngine [("k", JSValue.num 1)])).state.sharedStates := by
  decide

theorem liveDelivery_no_emit (app : App) (what : Channel) (e : JSValue) (E : Engine) :
    ∀ eff ∈ liveDelivery app what e E, eff.isEmit = false := by
  intro eff heff
  simp only [liveDelivery, List.mem_flatMap, invoke, List.mem_cons] at heff
  obtain ⟨h, _, hh⟩ := heff
  rcases hh with rfl | hh
  · rfl
  · split at hh
    · simp only [List.mem_singleton] at hh
      rw [hh]; rfl
    · simp at hh

theorem onInitState_loop_shape (app : App) (batch : List ChangeItem) (E : Engine) :
    ∃ s effs, onInitState.loop app batch E
        = { state := { E with sharedStates := s }, effects := effs }
      ∧ ∀ eff ∈ effs, eff.isEmit = false := by
  induction batch generalizing E with
  | nil => exact ⟨E.sharedStates, [], rfl, by simp⟩
  | cons it rest ih =>
    have hitem : ∃ s effs, onInitState.item app it E
        = { state := { E with sharedStates := s }, effects := effs }
        ∧ ∀ eff ∈ effs, eff.isEmit = false := by
      unfold onInitState.item
      split
      · split
        · rw [do_callbacks_live]
          exact ⟨_, _, rfl, liveDelivery_no_emit _ _ _ _⟩
        · exact ⟨E.sharedStates, [], rfl, by simp⟩
      · exact ⟨E.sharedStates, [], rfl, by simp⟩
    obtain ⟨s1, effs1, h1, hne1⟩ := hitem
    obtain ⟨s2, effs2, h2, hne2⟩ := ih { E with sharedStates := s1 }
    refine ⟨s2, effs1 ++ effs2, ?_, ?_⟩
    · simp only [onInitState.loop, h1, Outcome.andThen, h2]
    · intro eff heff
      rcases List.mem_append.1 heff with h | h
      · exact hne1 eff h
      · exact hne2 eff h

theorem onInitState_batch_shape (app : App) (batch : List ChangeItem) (E : Engine) :
    ∃ s effs, onInitState.batch app batch E
        = { state := { E with sharedStates := s }, effects := effs }
      ∧ ∀ eff ∈ effs, eff.isEmit = false := by
  obtain ⟨s, effs, h, hne⟩ := onInitState_loop_shape app batch E
  unfold onInitState.batch
  rw [h]
  by_cases hlen : batch.length > 0
  · refine ⟨s, effs ++ liveDelivery app Channel.changeset JSValue.undefined E, ?_, ?_⟩
    · simp only [Outcome.andThen, hlen, if_true, do_callbacks_live]
      rfl
    · intro eff heff
      rcases List.mem_append.1 heff with h | h
      · exact hne eff h
      · exact liveDelivery_no_emit _ _ _ _ eff h
  · refine ⟨s, effs, ?_, hne⟩
    simp only [Outcome.andThen, hlen, if_false, List.append_nil]

theorem Outcome.andThen_mk (E : Engine) (effs : List Effect) (f : Engine → Outcome) :
    ({ state := E, effects := effs } : Outcome).andThen f
      = { state := (f E).state, effects := effs ++ (f E).effects, thrown := (f E).thrown } :=
  rfl

/-- C27: in a state whose readystate is not CLOSED, `onInitState` returns normally and
leaves the readystate "open", for every batch, the empty one included. Its effects are, in
this order: those of the batch (change events, then the changeset), during which the
readystate is still the old one; the `readystatechange` delivery if the readystate was not
"open" already; and one `changePresence` datagram `{agentID, presence: "online"}` when
`autoPresence` is configured, none when it is not. No other datagram is sent. -/
theorem C27_init_opens (app : App) (batch : List ChangeItem) (E : Engine)
    (hnc : readystate.get E ≠ STATE.get "CLOSED") :
    readystate.get (onInitState app batch E).state = STATE.get "OPEN"
      ∧ (onInitState app batch E).thrown = none
      ∧ (onInitState app batch E).effects
          = (onInitState.batch app batch E).effects
            ++ (if readystate.get E = STATE.get "OPEN" then []
                else (_do_callbacks app Channel.readystatechange (JSValue.str "open") none
                  E).effects)
            ++ (if E.options.autoPresence = true then
                  [Effect.emit "changePresence" (onlineDatagram E)] else [])
      ∧ readystate.get (onInitState.batch app batch E).state = readystate.get E
      ∧ (∀ eff ∈ (onInitState.batch app batch E).effects
            ++ (_do_callbacks app Channel.readystatechange (JSValue.str "open") none E).effects,
          eff.isEmit = false) := by
  obtain ⟨s, effs, hb, hne⟩ := onInitState_batch_shape app batch E
  rw [STATE_CLOSED] at hnc
  rw [STATE_OPEN]
  have hnc' : ({ E with sharedStates := s } : Engine).readystate ≠ JSValue.str "closed" := hnc
  have hfull : onInitState app batch E
      = (onInitState.batch app batch E).andThen (fun E2 =>
          (readystate.set app (JSValue.str "open") E2).andThen (fun E3 =>
            if E3.options.autoPresence = true then setPresence (JSValue.str "online") E3
            else { state := E3 })) := rfl
  rw [hfull, hb, Outcome.andThen_mk, open_and_publish app _ hnc']
  simp only [do_callbacks_live, readystate.get, liveDelivery_sharedStates]
  refine ⟨trivial, trivial, ?_, trivial, ?_⟩
  · simp [onlineDatagram, List.append_assoc]
  · intro eff heff
    rcases List.mem_append.1 heff with h | h
    · exact hne eff h
    · exact liveDelivery_no_emit _ _ _ _ eff h

/-- C27 (witness): a connecting engine with a listener on `readystatechange` receives the
empty init-state batch: the listener is told "open", then "online" is published. -/
theorem C27_init_opens_witness :
    readystate.get twoListeners ≠ STATE.get "CLOSED"
    ∧ (onInitState App.quiet [] twoListeners).effects
        = [Effect.call 1 none (JSValue.str "open"),
           Effect.emit "changePresence"
            (JSValue.obj [("agentID", JSValue.str "agent"),
              ("presence", JSValue.str "online")])]
    ∧ readystate.get (onInitState App.quiet [] twoListeners).state = STATE.get "OPEN" :=
  ⟨by decide, by decide, (C27_init_opens App.quiet [] twoListeners (by decide)).1⟩

/-! ## Construction defaults and autoclean -/

/-- C28 (evaluation at the failing input): when the `options` object has no `autoClean`
property, the normalised options have `autoClean` false, and the instance built from `{}`
runs with autoclean off. -/
theorem C28_autoClean_default_is_false (options : JSObject) (generated : String) :
    (options.hasOwnProperty "autoClean" = false →
        (Options.ofRaw options generated).autoClean = false)
      ∧ (create App.quiet [] "1" true).state.options.autoClean = false
      ∧ (Options.ofRaw [("autoClean", JSValue.bool true)] generated).autoClean = true := by
  have hown : JSObject.get [("autoClean", JSValue.bool true)] "autoClean" = JSValue.bool true :=
    by decide
  have hinh : JSObject.inherited "autoClean" = JSValue.undefined := by decide
  refine ⟨?_, by decide, by simp [Options.ofRaw, hown]⟩
  intro h
  simp [Options.ofRaw, JSObject.get_of_not_hasOwnProperty _ _ h, hinh]

/-- C30 (evaluation at the failing input): agent `ab` has the presence entry "online",
agent `a` has none; the store holds `__meta__a` and `__meta__ab`. One sweep asks for the
removal of both keys, the one of the present agent `ab` included. -/
theorem C30_sweep_removes_present_agent :
    (sweepEngine.presence.get "ab").toBoolean = true
    ∧ sweepEngine.sharedStates.hasOwnProperty "__meta__ab" = true
    ∧ (onJoined.interval sweepEngine).effects
      = [Effect.emit "changeState" (JSValue.arr [removeItem.state (some "__meta__a")]),
         Effect.emit "changeState" (JSValue.arr [removeItem.state (some "__meta__ab")])] := by
  decide

/-! ## The replay comes first -/

theorem isPending_setPending_false_ne (E : Engine) (h g : Handler) (c w : Channel)
    (hne : (g, w) ≠ (h, c)) (hp : E.isPending h c = true) :
    (E.setPending g w false).isPending h c = true := by
  simp only [Engine.isPending, decide_eq_true_eq] at hp ⊢
  simp only [Engine.setPending, Bool.false_eq_true, if_false, List.mem_filter,
    decide_eq_true_eq]
  exact ⟨hp, fun x => hne x.symm⟩

/-- The replay-pending flag of `h` for channel `c` survives every step other than the
firing of a replay task for `h` on `c`. -/
theorem Step.run_isPending (app : App) (step : Step) (E : Engine) (h : Handler)
    (c : Channel) (hstep : step ≠ Step.timeout c h) (hp : E.isPending h c = true) :
    (Step.run app step E).state.isPending h c = true := by
  have hF : Frame (fun E1 => E1.isPending h c = true) :=
    { stateChanges := fun _ _ x => x, request := fun _ _ x => x, ctx := fun _ _ x => x,
      callbacks := fun _ _ x => x, timers := fun _ _ x => x, connection := fun _ _ x => x,
      intervals := fun _ _ x => x,
      pending := fun E1 v x => by
        simp only [Engine.isPending, decide_eq_true_eq] at x ⊢
        exact List.mem_append_left _ x }
  exact Step.run_state _ hF app step (fun _ x => x) (fun _ x => x) (fun _ _ x => x)
    (fun _ _ _ x => x) (fun _ _ _ x => x)
    (fun w g hs E1 x => by
      apply isPending_setPending_false_ne E1 h g c w _ x
      intro hgw
      apply hstep
      rw [hs]
      cases hgw
      rfl)
    E hp

theorem runSteps_isPending (app : App) (steps : List Step) (E : Engine) (h : Handler)
    (c : Channel) (hsteps : Step.timeout c h ∉ steps) (hp : E.isPending h c = true) :
    (runSteps app steps E).1.isPending h c = true := by
  induction steps generalizing E with
  | nil => exact hp
  | cons s rest ih =>
    simp only [List.mem_cons, not_or] at hsteps
    simp only [runSteps]
    exact ih _ hsteps.2 (Step.run_isPending app s E h c (fun x => hsteps.1 x.symm) hp)

theorem liveDelivery_no_call_pending (app : App) (c : Channel) (e : JSValue) (E : Engine)
    (h : Handler) (hp : E.isPending h c = true) :
    ∀ eff ∈ liveDelivery app c e E, ∀ t p, eff ≠ Effect.call h t p := by
  intro eff heff t p heq
  subst heq
  simp only [liveDelivery, List.mem_flatMap, List.mem_filter, invoke, List.mem_cons] at heff
  obtain ⟨g, ⟨_, hg⟩, hin⟩ := heff
  rcases hin with hin | hin
  · injection hin with h1 _ _
    subst h1
    simp [hp] at hg
  · split at hin <;> simp at hin

/-- C29: `on(c, h)` for a handler not yet registered on the channel invokes nobody and
queues one replay task for `h` on `c` behind the tasks already queued. From then on,
through any sequence of steps - application calls, inbound events, replay tasks of other
registrations, sweeps - in which no replay task for `h` on `c` runs, the replay-pending
flag of `h` for `c` stays set; so a live event on `c` arriving at that point invokes, in
registration order, exactly the registered handlers whose flag is not set, and never
`h`. -/
theorem C29_replay_first (app : App) (c : Channel) (h : Handler) (ctx : JSValue)
    (E0 : Engine) (steps : List Step) (e : JSValue)
    (hnew : h ∉ E0.callbacks.get c) (hsteps : Step.timeout c h ∉ steps) :
    (addEventListener c.name (HandlerArg.fn h) ctx false E0).effects = []
      ∧ (addEventListener c.name (HandlerArg.fn h) ctx false E0).state.timers
          = E0.timers ++ [(c, h)]
      ∧ (runSteps app steps
          (addEventListener c.name (HandlerArg.fn h) ctx false E0).state).1.isPending h c = true
      ∧ (∀ eff ∈ (_do_callbacks app c e none (runSteps app steps
            (addEventListener c.name (HandlerArg.fn h) ctx false E0).state).1).effects,
          ∀ t p, eff ≠ Effect.call h t p)
      ∧ (_do_callbacks app c e none (runSteps app steps
            (addEventListener c.name (HandlerArg.fn h) ctx false E0).state).1).effects.filter
            Effect.isCall
          = (((runSteps app steps
                (addEventListener c.name (HandlerArg.fn h) ctx false E0).state).1.callbacks.get
                c).filter
              (fun g => !(runSteps app steps
                (addEventListener c.name (HandlerArg.fn h) ctx false E0).state).1.isPending
                g c)).map
              (fun g => Effect.call g
                (thisArg (runSteps app steps
                  (addEventListener c.name (HandlerArg.fn h) ctx false E0).state).1 g) e) := by
  have hfresh := addEventListener_fresh c h ctx E0 hnew
  have hp := runSteps_isPending app steps _ h c hsteps hfresh.2.2.2.1
  refine ⟨hfresh.1, hfresh.2.2.2.2, hp, ?_, ?_⟩
  · rw [do_callbacks_live]
    exact liveDelivery_no_call_pending app c e _ h hp
  · rw [do_callbacks_live]
    exact liveDelivery_calls app c e _

/-- C29 (witness): handler 1 is registered on `change` next to handler 2; before its
replay task runs, a change batch arrives and handler 3 is registered without replay. The
batch is delivered to handler 2 only, and a further change event goes to handlers 2 and 3,
not to handler 1. -/
theorem C29_replay_first_witness :
    1 ∉ storeAB.callbacks.get Channel.change
    ∧ Step.timeout Channel.change 1 ∉ betweenSteps
    ∧ (runSteps App.quiet betweenSteps replayEngine).2
        = [Effect.call 2 none (stateEvent "c" (JSValue.num 3) "add")]
    ∧ (_do_callbacks App.quiet Channel.change JSValue.null none
        (runSteps App.quiet betweenSteps replayEngine).1).effects
        = [Effect.call 2 none JSValue.null, Effect.call 3 none JSValue.null]
    ∧ (runSteps App.quiet betweenSteps
        (addEventListener Channel.change.name (HandlerArg.fn 1) JSValue.undefined false
          storeAB).state).1.isPending 1 Channel.change = true :=
  ⟨by decide, by decide, by decide, by decide,
    (C29_replay_first App.quiet Channel.change 1 JSValue.undefined storeAB betweenSteps
      JSValue.null (by decide) (by decide)).2.2.1⟩

/-! ## Registration after `off` -/

/-- What `on(what, h, ctx, true)` does for a handler that is not registered on the channel:
it appends the handler and leaves the replay-pending flags and the timers alone. -/
theorem addEventListener_skip (what : Channel) (h : Handler) (ctx : JSValue) (E0 : Engine)
    (hnew : h ∉ E0.callbacks.get what) :
    (addEventListener what.name (HandlerArg.fn h) ctx true E0).effects = []
      ∧ (addEventListener what.name (HandlerArg.fn h) ctx true E0).thrown = none
      ∧ (addEventListener what.name (HandlerArg.fn h) ctx true E0).state.callbacks.get what
          = E0.callbacks.get what ++ [h]
      ∧ (addEventListener what.name (HandlerArg.fn h) ctx true E0).state.pending = E0.pending
      ∧ (addEventListener what.name (HandlerArg.fn h) ctx true E0).state.timers
          = E0.timers := by
  have hcbs := addEventListener_callbacks what h ctx true E0
  simp only [hnew, if_false] at hcbs
  refine ⟨?_, ?_, hcbs, ?_, ?_⟩ <;>
    cases hctx : ctx.toBoolean <;>
    simp [addEventListener, Channel.ofName?_name, hctx, hnew, Engine.setCtx]

/-- C31 (evaluation at the failing input): `on(c, h, ctx, true)` for a handler not
registered on `c` registers it and leaves its replay-pending flag for `c` as it was. On a
fresh engine, after `on("readystatechange", h)`, `off("readystatechange", h)` and the
firing of the replay task, `h` is not registered, no timer is left and the flag is still
set; `on("readystatechange", h, undefined, true)` then registers `h` with the flag set, and
the next live `readystatechange` event (the readystate becoming "open") invokes nobody. -/
theorem C31_skipReplay_keeps_stale_flag :
    (∀ (c : Channel) (h : Handler) (ctx : JSValue) (E : Engine), h ∉ E.callbacks.get c →
        (addEventListener c.name (HandlerArg.fn h) ctx true E).state.callbacks.get c
            = E.callbacks.get c ++ [h]
          ∧ (addEventListener c.name (HandlerArg.fn h) ctx true E).state.isPending h c
            = E.isPending h c)
      ∧ (runSteps App.quiet (onOff Channel.readystatechange) (Engine.initial {})).1.timers
          = [(Channel.readystatechange, 1)]
      ∧ staleEngine.callbacks.get Channel.readystatechange = []
      ∧ staleEngine.timers = []
      ∧ staleEngine.isPending 1 Channel.readystatechange = true
      ∧ deafEngine.callbacks.get Channel.readystatechange = [1]
      ∧ deafEngine.timers = []
      ∧ deafEngine.isPending 1 Channel.readystatechange = true
      ∧ (readystate.set App.quiet (JSValue.str "open") deafEngine).effects = []
      ∧ readystate.get (readystate.set App.quiet (JSValue.str "open") deafEngine).state
          = JSValue.str "open"
      ∧ (readystate.set App.quiet (JSValue.str "open")
          (addEventListener "readystatechange" (HandlerArg.fn 1) JSValue.undefined true
            (Engine.initial {})).state).effects
          = [Effect.call 1 none (JSValue.str "open")] := by
  refine ⟨?_, by decide, by decide, by decide, by decide, by decide, by decide, by decide,
    by decide, by decide, by decide⟩
  intro c h ctx E hnew
  have hs := addEventListener_skip c h ctx E hnew
  refine ⟨hs.2.2.1, ?_⟩
  simp only [Engine.isPending, hs.2.2.2.1]

/-- C32 (evaluation at the failing input): after `on(c, h)`, `off(c, h)`, `on(c, h)` two
replay tasks for `h` are queued and `h` is registered, and when the timers fire both
deliver: on `change` with the store `{a: 1}` the handler receives the synthetic event for
`a` twice; on `readystatechange` it is told the readystate twice; on `changeset` it is
invoked twice. -/
theorem C32_replay_delivered_twice :
    (runSteps App.quiet (onOffOn Channel.change) oneEntry).1.timers
        = [(Channel.change, 1), (Channel.change, 1)]
      ∧ (runSteps App.quiet (onOffOn Channel.change) oneEntry).1.callbacks.get Channel.change
        = [1]
      ∧ (runSteps App.quiet (onOffOn Channel.change) oneEntry).2 = []
      ∧ (runTimers App.quiet (runSteps App.quiet (onOffOn Channel.change) oneEntry).1).2
        = [Effect.call 1 none (stateEvent "a" (JSValue.num 1) "update"),
           Effect.call 1 none (stateEvent "a" (JSValue.num 1) "update")]
      ∧ (runTimers App.quiet
          (runSteps App.quiet (onOffOn Channel.readystatechange) (Engine.initial {})).1).2
        = [Effect.call 1 none (JSValue.str "connecting"),
           Effect.call 1 none (JSValue.str "connecting")]
      ∧ (runTimers App.quiet
          (runSteps App.quiet (onOffOn Channel.changeset) (Engine.initial {})).1).2
        = [Effect.call 1 none JSValue.undefined, Effect.call 1 none JSValue.undefined]
      ∧ (runTimers App.quiet
          (runSteps App.quiet [Step.addEventListener "change" (HandlerArg.fn 1)
            JSValue.undefined false] oneEntry).1).2
        = [Effect.call 1 none (stateEvent "a" (JSValue.num 1) "update")] := by
  decide

end SharedState
